import Mathlib

/-!
# s21 review-slot client: token lifecycle, GraphQL execution, review slots

A shallow embedding of `pkg/client/client.go` (`NewClient`, `Authenticate`,
`ensureToken`, `Do`, `SetToken`), of the typed calendar operations of
`pkg/client/operations.go` and of `pkg/client/review_slots.go`, together with
the properties of the token manager, of the GraphQL transport and of the
review-slot projection.

Modelling conventions
* The client is a value of type `Client`; every method returns the client after
  the call, the list of effects it performed (`Event`) and its Go result.
* Everything outside the repository that the code calls is a field of `Env`:
  the clock, URL validation done by `http.NewRequestWithContext`, the HTTP
  round trip `httpClient.Do`, and the `encoding/json` codecs. What the
  review-slot functions take from the `time` package, the decoders of their
  typed targets and the operation texts are the fields of `Lib`.
* `time.Time` is an unbounded count of nanoseconds on one time line that starts
  at the zero `time.Time`; `time.Duration` is a signed 64-bit count of
  nanoseconds: products wrap around (`wrapInt64`) and `Time.Sub` saturates, as
  in Go.
* A response body is the string that `io.ReadAll` yields.
* Header names are kept as written: Go stores them in canonical case, and
  header names are compared without regard to case.
* Each `fmt.Errorf` site is one constructor of `Err`; `Err.Error` renders the
  message with the format string of that site.
* A `for` loop over a slice is a left fold over the list, its state being the
  variables the loop assigns; a slice is a list (`nil` and the empty slice are
  not told apart).
-/

namespace S21Client

/-! ## time -/

/-- A `time.Time`: nanoseconds on a single time line. -/
structure Time where
  ns : Int
deriving DecidableEq, Repr

/-- Smallest `time.Duration` (int64 nanoseconds). -/
def minDuration : Int := -(2 ^ 63)

/-- Largest `time.Duration` (int64 nanoseconds). -/
def maxDuration : Int := 2 ^ 63 - 1

/-- The constant `time.Second`, in nanoseconds. -/
def Second : Int := 1000000000

/-- The constant `time.Minute`, in nanoseconds. -/
def Minute : Int := 60 * Second

/-- Two's-complement wrap-around of a signed 64-bit integer. -/
def wrapInt64 (x : Int) : Int := (x + 2 ^ 63) % 2 ^ 64 - 2 ^ 63

/-- The method `Time.Add`. -/
def Time.Add (t : Time) (d : Int) : Time := ⟨t.ns + d⟩

/-- The method `Time.Sub`: the difference `t - u`, saturated to the range of a
`time.Duration`. -/
def Time.Sub (t u : Time) : Int :=
  if maxDuration < t.ns - u.ns then maxDuration
  else if t.ns - u.ns < minDuration then minDuration
  else t.ns - u.ns

/-- The zero `time.Time`, the origin of the time line. -/
def zeroTime : Time := ⟨0⟩

/-- The function `time.Until`, the clock reading being `now`. -/
def Until (now t : Time) : Int := t.Sub now

/-! ## data model (`client.go`) -/

/-- The path constant `GraphQLPath`. -/
def GraphQLPath : String := "/services/graphql"

/-- The path constant `AuthTokenPath`. -/
def AuthTokenPath : String := "/auth/realms/EduPowerKeycloak/protocol/openid-connect/token"

/-- The constant `http.StatusOK`. -/
def StatusOK : Int := 200

/-- The struct `AuthConfig`. -/
structure AuthConfig where
  Login : String
  Password : String
deriving DecidableEq, Repr

/-- The struct `TokenResponse`. -/
structure TokenResponse where
  AccessToken : String
  TokenType : String
  ExpiresIn : Int
  RefreshToken : String
  IDToken : String
  NotBeforePolicy : Int
  SessionState : String
  Scope : String
deriving DecidableEq, Repr

/-- The struct `Client`, without `httpClient` (the round trip is `Env.httpClientDo`). -/
structure Client where
  baseURL : String
  authURL : String
  authConfig : Option AuthConfig
  token : Option TokenResponse
  tokenExpiry : Time
  schoolID : String
  userRole : String
  eduProductID : String
  eduOrgUnitID : String
deriving DecidableEq, Repr

/-- A value stored in the `Variables` map of a request. -/
inductive VarValue where
  | str (s : String)
  | int (n : Int)
  | bool (b : Bool)
  | paging (offset limit : Int)
deriving DecidableEq, Repr

/-- The struct `GraphQLRequest`; the map is an association list. -/
structure GraphQLRequest where
  OperationName : String
  Variables : List (String × VarValue)
  Query : String
deriving DecidableEq, Repr

/-- The struct `GraphQLError`. A path element is kept as its `%v` rendering and
`Extensions` as the key-sorted list of rendered entries. -/
structure GraphQLError where
  Message : String
  Path : List String
  Extensions : List (String × String)
deriving DecidableEq, Repr

/-- The struct `GraphQLResponse`; `Data` is the raw JSON text (`json.RawMessage`). -/
structure GraphQLResponse where
  Data : String
  Errors : List GraphQLError
deriving DecidableEq, Repr

/-! ## HTTP -/

/-- An outgoing `http.Request`: method, URL, headers and body. -/
structure HTTPRequest where
  Method : String
  URL : String
  Header : List (String × String)
  Body : String
deriving DecidableEq, Repr

/-- An `http.Response`: status code and the body as read by `io.ReadAll`. -/
structure HTTPResponse where
  StatusCode : Int
  Body : String
deriving DecidableEq, Repr

/-- The method `Header.Set`: the entry for `key` is replaced. -/
def HTTPRequest.SetHeader (r : HTTPRequest) (key value : String) : HTTPRequest :=
  { r with Header := (r.Header.filter fun kv => kv.1 != key) ++ [(key, value)] }

/-- The method `Header.Get`: the value stored for `key`, if any. -/
def HTTPRequest.GetHeader (r : HTTPRequest) (key : String) : Option String :=
  (r.Header.find? fun kv => kv.1 == key).map Prod.snd

/-! ## errors -/

/-- The errors built by `Authenticate`, `Do`, `UpdateReviewSlot` and
`parseDateTime`, one constructor per `fmt.Errorf` site. -/
inductive Err where
  | authConfigNotSet
  | createRequest (cause : String)
  | doRequest (cause : String)
  | authFailed (status : Int) (body : String)
  | decodeResponse (cause : String)
  | ensureToken (err : Err)
  | marshalRequest (cause : String)
  | requestFailed (errMsg : String)
  | graphqlErrors (errs : List GraphQLError)
  | unmarshalData (cause : String)
  | updatedSlotNotFound
  | unableToParse (s : String)
deriving DecidableEq, Repr

/-- The `%v` rendering of one `GraphQLError` struct. -/
def GraphQLError.format (e : GraphQLError) : String :=
  "\x7b" ++ e.Message ++ " [" ++ " ".intercalate e.Path ++ "] map["
    ++ " ".intercalate (e.Extensions.map fun kv => kv.1 ++ ":" ++ kv.2) ++ "]\x7d"

/-- The `%v` rendering of a slice of `GraphQLError`. -/
def formatErrors (errs : List GraphQLError) : String :=
  "[" ++ " ".intercalate (errs.map GraphQLError.format) ++ "]"

/-- The method `Error()`: the message of each error. -/
def Err.Error : Err → String
  | .authConfigNotSet => "auth config not set"
  | .createRequest cause => "create request: " ++ cause
  | .doRequest cause => "do request: " ++ cause
  | .authFailed status body => "auth failed with status " ++ toString status ++ ": " ++ body
  | .decodeResponse cause => "decode response: " ++ cause
  | .ensureToken err => "ensure token: " ++ err.Error
  | .marshalRequest cause => "marshal request: " ++ cause
  | .requestFailed errMsg => errMsg
  | .graphqlErrors errs => "graphql errors: " ++ formatErrors errs
  | .unmarshalData cause => "unmarshal data: " ++ cause
  | .updatedSlotNotFound => "updated slot not found in response"
  | .unableToParse s =>
    "unable to parse datetime: " ++ s
      ++ " (try formats like: 2025-01-15, 2025-01-15 14:30, 2025-01-15T14:30:00Z)"

/-! ## environment and effects -/

/-- What the code obtains from outside the repository. -/
structure Env where
  /-- the clock reading taken by `time.Until` in `ensureToken` -/
  untilNow : Time
  /-- the clock reading taken by `time.Now` in `Authenticate` -/
  now : Time
  /-- the error of `http.NewRequestWithContext` for a URL, if it rejects it -/
  urlError : String → Option String
  /-- the round trip `c.httpClient.Do` -/
  httpClientDo : HTTPRequest → Except String HTTPResponse
  /-- decoding a response body into a `TokenResponse` -/
  decodeToken : String → Except String TokenResponse
  /-- the encoder `json.Marshal` on a `GraphQLRequest` -/
  marshal : GraphQLRequest → Except String String
  /-- decoding a response body into a `GraphQLResponse` -/
  decodeEnvelope : String → Except String GraphQLResponse

/-- An effect performed by the client. -/
inductive Event where
  /-- a call of `Authenticate` -/
  | authenticate
  /-- the call `c.httpClient.Do(req)` made by `Authenticate` -/
  | authDo (req : HTTPRequest)
  /-- the call `c.httpClient.Do(httpReq)` made by `Do` -/
  | graphqlDo (req : HTTPRequest)
deriving DecidableEq, Repr

/-- The state after a call, the effects of the call in order, and its result. -/
structure Step (ρ : Type) where
  client : Client
  trace : List Event
  result : ρ

/-- The constructor `http.NewRequestWithContext`. -/
def NewRequestWithContext (env : Env) (method url body : String) : Except String HTTPRequest :=
  match env.urlError url with
  | some e => .error e
  | none => .ok { Method := method, URL := url, Header := [], Body := body }

/-! ## `Authenticate`, `ensureToken`, `SetToken` -/

/-- The method `Client.Authenticate`. -/
def Authenticate (env : Env) (c : Client) : Step (Except Err TokenResponse) :=
  match c.authConfig with
  | none => ⟨c, [.authenticate], .error .authConfigNotSet⟩
  | some cfg =>
    let authURL := c.authURL ++ AuthTokenPath
    let data := "client_id=s21-open-api&username=" ++ cfg.Login ++ "&password=" ++ cfg.Password
      ++ "&grant_type=password"
    match NewRequestWithContext env "POST" authURL data with
    | .error e => ⟨c, [.authenticate], .error (.createRequest e)⟩
    | .ok req0 =>
      let req := req0.SetHeader "Content-Type" "application/x-www-form-urlencoded"
      match env.httpClientDo req with
      | .error e => ⟨c, [.authenticate, .authDo req], .error (.doRequest e)⟩
      | .ok resp =>
        if resp.StatusCode ≠ StatusOK then
          ⟨c, [.authenticate, .authDo req], .error (.authFailed resp.StatusCode resp.Body)⟩
        else
          match env.decodeToken resp.Body with
          | .error e => ⟨c, [.authenticate, .authDo req], .error (.decodeResponse e)⟩
          | .ok tokenResp =>
            ⟨{ c with
                token := some tokenResp
                tokenExpiry := env.now.Add (wrapInt64 (tokenResp.ExpiresIn * Second)) },
              [.authenticate, .authDo req], .ok tokenResp⟩

/-- The method `Client.ensureToken`; the result is the Go `error` (`none` is `nil`). -/
def ensureToken (env : Env) (c : Client) : Step (Option Err) :=
  if c.token = none ∨ Until env.untilNow c.tokenExpiry < Minute then
    let s := Authenticate env c
    ⟨s.client, s.trace, match s.result with
      | .error err => some err
      | .ok _ => none⟩
  else
    ⟨c, [], none⟩

/-- The method `Client.SetToken`. -/
def SetToken (c : Client) (token : Option TokenResponse) (expiry : Time) : Client :=
  { c with token := token, tokenExpiry := expiry }

/-- The number of calls of `Authenticate` among the effects. -/
def authCalls (tr : List Event) : Nat := tr.count .authenticate

/-! ## `Do` -/

/-- How a call of `Do` ends: a nil-pointer panic, a returned error, or `nil`
with the value decoded into the target (`none` when the target is `nil`). -/
inductive DoResult (α : Type) where
  | panic
  | error (err : Err)
  | ok (value : Option α)
deriving DecidableEq, Repr

/-- The method `Client.Do`. The target `resp` is given by its decoder
(`json.Unmarshal` into the target), `none` being the `nil` target. The debug
output to standard error is not part of the model. -/
def Do {α : Type} (env : Env) (c : Client) (req : GraphQLRequest)
    (resp : Option (String → Except String α)) : Step (DoResult α) :=
  let s := ensureToken env c
  match s.result with
  | some err => ⟨s.client, s.trace, .error (.ensureToken err)⟩
  | none =>
    let c := s.client
    match env.marshal req with
    | .error e => ⟨c, s.trace, .error (.marshalRequest e)⟩
    | .ok body =>
      let url := c.baseURL ++ GraphQLPath
      match NewRequestWithContext env "POST" url body with
      | .error e => ⟨c, s.trace, .error (.createRequest e)⟩
      | .ok httpReq =>
        let httpReq := httpReq.SetHeader "Content-Type" "application/json"
        match c.token with
        | none => ⟨c, s.trace, .panic⟩
        | some token =>
          let httpReq := httpReq.SetHeader "Authorization" ("Bearer " ++ token.AccessToken)
          let httpReq := if c.schoolID ≠ "" then httpReq.SetHeader "schoolid" c.schoolID
            else httpReq
          let httpReq := if c.userRole ≠ "" then httpReq.SetHeader "userrole" c.userRole
            else httpReq
          let httpReq :=
            if c.eduProductID ≠ "" then httpReq.SetHeader "x-edu-product-id" c.eduProductID
            else httpReq
          let httpReq :=
            if c.eduOrgUnitID ≠ "" then httpReq.SetHeader "x-edu-org-unit-id" c.eduOrgUnitID
            else httpReq
          let tr := s.trace ++ [.graphqlDo httpReq]
          match env.httpClientDo httpReq with
          | .error e => ⟨c, tr, .error (.doRequest e)⟩
          | .ok httpResp =>
            if httpResp.StatusCode ≠ StatusOK then
              let body := httpResp.Body
              let errMsg := "request failed with status " ++ toString httpResp.StatusCode
              let errMsg :=
                if body.length > 0 then errMsg ++ (": " ++ body)
                else errMsg ++ " (empty response body)"
              ⟨c, tr, .error (.requestFailed errMsg)⟩
            else
              match env.decodeEnvelope httpResp.Body with
              | .error e => ⟨c, tr, .error (.decodeResponse e)⟩
              | .ok gqlResp =>
                if gqlResp.Errors.length > 0 then
                  ⟨c, tr, .error (.graphqlErrors gqlResp.Errors)⟩
                else
                  match resp with
                  | none => ⟨c, tr, .ok none⟩
                  | some unmarshal =>
                    match unmarshal gqlResp.Data with
                    | .error e => ⟨c, tr, .error (.unmarshalData e)⟩
                    | .ok v => ⟨c, tr, .ok (some v)⟩

/-! ## the failure classification of the specification (§4.2) -/

/-- The categories of §4.2 and §7 that an executed GraphQL request can end in. -/
inductive Outcome (α : Type) where
  | transportError
  | httpError
  | decodeError
  | graphQLError
  | success (payload : Option α)
deriving DecidableEq, Repr

/-- The category of a result of `Do`, by the site that built it; `none` for
a failure that precedes the round trip and for a panic. -/
def DoResult.outcome {α : Type} : DoResult α → Option (Outcome α)
  | .error (.doRequest _) => some .transportError
  | .error (.requestFailed _) => some .httpError
  | .error (.decodeResponse _) => some .decodeError
  | .error (.unmarshalData _) => some .decodeError
  | .error (.graphqlErrors _) => some .graphQLError
  | .ok v => some (.success v)
  | _ => none

/-- Rule 1: the round trip failed at the transport level. -/
def ruleTransport (o : Except String HTTPResponse) : Bool :=
  match o with
  | .error _ => true
  | .ok _ => false

/-- Rule 2: the status is not 200, whatever the body holds. -/
def ruleStatus (o : Except String HTTPResponse) : Bool :=
  match o with
  | .ok r => r.StatusCode != 200
  | .error _ => false

/-- Rule 3: the body does not decode as the `data`/`errors` envelope. -/
def ruleEnvelope (env : Env) (o : Except String HTTPResponse) : Bool :=
  match o with
  | .ok r =>
    match env.decodeEnvelope r.Body with
    | .error _ => true
    | .ok _ => false
  | .error _ => false

/-- Rule 4: the envelope carries one or more errors. -/
def ruleErrors (env : Env) (o : Except String HTTPResponse) : Bool :=
  match o with
  | .ok r =>
    match env.decodeEnvelope r.Body with
    | .ok g => !g.Errors.isEmpty
    | .error _ => false
  | .error _ => false

/-- Rule 5: a target is given and `data` does not decode into it. -/
def ruleData {α : Type} (env : Env) (target : Option (String → Except String α))
    (o : Except String HTTPResponse) : Bool :=
  match o, target with
  | .ok r, some unmarshal =>
    match env.decodeEnvelope r.Body with
    | .ok g =>
      match unmarshal g.Data with
      | .error _ => true
      | .ok _ => false
    | .error _ => false
  | _, _ => false

/-- The payload of a success: `data` decoded into the target, when one is given. -/
def decodedPayload {α : Type} (env : Env) (target : Option (String → Except String α))
    (o : Except String HTTPResponse) : Option α :=
  match o, target with
  | .ok r, some unmarshal =>
    match env.decodeEnvelope r.Body with
    | .ok g => (unmarshal g.Data).toOption
    | .error _ => none
  | _, _ => none

/-- The reference classifier: the five failure rules in priority order, the
first that applies giving the category, and success when none applies. -/
def referenceClassify {α : Type} (env : Env) (target : Option (String → Except String α))
    (o : Except String HTTPResponse) : Outcome α :=
  match [(ruleTransport o, Outcome.transportError), (ruleStatus o, Outcome.httpError),
      (ruleEnvelope env o, Outcome.decodeError), (ruleErrors env o, Outcome.graphQLError),
      (ruleData env target o, Outcome.decodeError)].find? (fun rule => rule.1) with
  | some rule => rule.2
  | none => .success (decodedPayload env target o)

/-! ## calendar types (`types.go`)

Fields that no function of `review_slots.go` reads and that hold further
structs (`verifiableStudent`, `team`, `verifiableInfo`, `exam`,
`studentCodeReview`, `activity`, `goals`, `penalty`) are left out. -/

/-- The anonymous struct of the field `School`. -/
structure SchoolInfo where
  ShortName : String
  Typename : String
deriving DecidableEq, Repr, Inhabited

/-- The anonymous struct of the field `Event` of a `CalendarTimeSlot`. -/
structure SlotEvent where
  EventUserRole : String
  Typename : String
deriving DecidableEq, Repr, Inhabited

/-- The anonymous struct of the field `Event` of an `EventSlotInBooking`. -/
structure BookingSlotEvent where
  EventUserRole : String
  EventCode : String
  Typename : String
deriving DecidableEq, Repr, Inhabited

/-- The struct `CalendarTimeSlot`. -/
structure CalendarTimeSlot where
  ID : String
  «Type» : String
  Start : String
  End : String
  Event : SlotEvent
  School : SchoolInfo
  Typename : String
deriving DecidableEq, Repr, Inhabited

/-- The struct `TaskInBooking`. -/
structure TaskInBooking where
  ID : String
  Title : String
  AssignmentType : String
  GoalID : String
  GoalName : String
  Typename : String
deriving DecidableEq, Repr, Inhabited

/-- The struct `EventSlotInBooking`. -/
structure EventSlotInBooking where
  ID : String
  Start : String
  End : String
  Event : BookingSlotEvent
  School : SchoolInfo
  Typename : String
deriving DecidableEq, Repr, Inhabited

/-- The struct `UserInBooking`. -/
structure UserInBooking where
  ID : String
  Login : String
  Typename : String
deriving DecidableEq, Repr, Inhabited

/-- The struct `CalendarBooking`. -/
structure CalendarBooking where
  ID : String
  AnswerID : String
  EventSlotID : String
  Task : TaskInBooking
  EventSlot : EventSlotInBooking
  VerifierUser : UserInBooking
  BookingStatus : String
  IsOnline : Bool
  VCLinkURL : Option String
  Typename : String
deriving DecidableEq, Repr, Inhabited

/-- The struct `CalendarEvent`. -/
structure CalendarEvent where
  ID : String
  Start : String
  End : String
  Description : String
  EventType : String
  EventCode : String
  EventSlots : List CalendarTimeSlot
  Bookings : List CalendarBooking
  Typename : String
deriving DecidableEq, Repr, Inhabited

/-- The anonymous struct `CalendarEventS21` of `GetMyCalendarEventsData`. -/
structure CalendarEventS21 where
  GetMyCalendarEvents : List CalendarEvent
  Typename : String
deriving DecidableEq, Repr, Inhabited

/-- The struct `GetMyCalendarEventsData`. -/
structure GetMyCalendarEventsData where
  CalendarEventS21 : CalendarEventS21
deriving DecidableEq, Repr, Inhabited

/-- The anonymous struct `Student` of `AddEventToTimetableData`. -/
structure AddEventStudent where
  AddEventToTimetable : List CalendarEvent
  Typename : String
deriving DecidableEq, Repr, Inhabited

/-- The struct `AddEventToTimetableData`. -/
structure AddEventToTimetableData where
  Student : AddEventStudent
deriving DecidableEq, Repr, Inhabited

/-- The anonymous struct `Student` of `ChangeEventSlotData`. -/
structure ChangeSlotStudent where
  ChangeEventSlot : CalendarEvent
  Typename : String
deriving DecidableEq, Repr, Inhabited

/-- The struct `ChangeEventSlotData`. -/
structure ChangeEventSlotData where
  Student : ChangeSlotStudent
deriving DecidableEq, Repr, Inhabited

/-- The anonymous struct `Student` of `DeleteEventSlotData`. -/
structure DeleteSlotStudent where
  DeleteEventSlot : Bool
  Typename : String
deriving DecidableEq, Repr, Inhabited

/-- The struct `DeleteEventSlotData`. -/
structure DeleteEventSlotData where
  Student : DeleteSlotStudent
deriving DecidableEq, Repr, Inhabited

/-- The struct `ReviewSlot`. -/
structure ReviewSlot where
  ID : String
  Start : Time
  End : Time
  «Type» : String
  IsOnline : Bool
  VCLink : Option String
  School : String
deriving DecidableEq, Repr

/-- The struct `ReviewBooking`. -/
structure ReviewBooking where
  ID : String
  SlotID : String
  Start : Time
  End : Time
  ProjectName : String
  VerifierLogin : String
  IsOnline : Bool
  Status : String
deriving DecidableEq, Repr

/-! ## typed operations (`operations.go`) -/

/-- What the review-slot functions take from the standard library and from the
catalogue of operation texts. -/
structure Lib where
  /-- the method `Format` with the layout `2006-01-02T15:04:05.000Z` -/
  Format : Time → String
  /-- the function `time.Parse` with the layout `time.RFC3339` -/
  Parse : String → Except String Time
  /-- the constant `QueryCalendarGetEvents` -/
  QueryCalendarGetEvents : String
  /-- the constant `MutationCalendarAddEvent` -/
  MutationCalendarAddEvent : String
  /-- the constant `MutationCalendarChangeEventSlot` -/
  MutationCalendarChangeEventSlot : String
  /-- the constant `MutationCalendarDeleteEventSlot` -/
  MutationCalendarDeleteEventSlot : String
  /-- decoding `data` into a `GetMyCalendarEventsData` -/
  unmarshalCalendarEvents : String → Except String GetMyCalendarEventsData
  /-- decoding `data` into an `AddEventToTimetableData` -/
  unmarshalAddEvent : String → Except String AddEventToTimetableData
  /-- decoding `data` into a `ChangeEventSlotData` -/
  unmarshalChangeSlot : String → Except String ChangeEventSlotData
  /-- decoding `data` into a `DeleteEventSlotData` -/
  unmarshalDeleteSlot : String → Except String DeleteEventSlotData

/-- How a call that returns a value and an `error` ends: a panic, an error, or
the value with a `nil` error. -/
inductive CallResult (α : Type) where
  | panic
  | error (err : Err)
  | ok (value : α)
deriving DecidableEq, Repr

/-- The value of `t, _ := time.Parse(time.RFC3339, s)`: the parsed instant, and
the zero instant when parsing fails. -/
def timeParse (lib : Lib) (s : String) : Time :=
  match lib.Parse s with
  | .ok t => t
  | .error _ => zeroTime

/-- What a typed operation returns from the result of `Do` on its target: the
error, or the target, which holds its zero value until `Do` decodes into it. -/
def returnTarget {α : Type} [Inhabited α] (s : Step (DoResult α)) : Step (CallResult α) :=
  match s.result with
  | .panic => ⟨s.client, s.trace, .panic⟩
  | .error err => ⟨s.client, s.trace, .error err⟩
  | .ok none => ⟨s.client, s.trace, .ok default⟩
  | .ok (some resp) => ⟨s.client, s.trace, .ok resp⟩

/-- The method `Client.GetCalendarEvents`. -/
def GetCalendarEvents (lib : Lib) (env : Env) (c : Client) (fromStr toStr : String) :
    Step (CallResult GetMyCalendarEventsData) :=
  let req : GraphQLRequest :=
    { OperationName := "calendarGetEvents"
      Query := lib.QueryCalendarGetEvents
      Variables := [("from", .str fromStr), ("to", .str toStr)] }
  returnTarget (Do env c req (some lib.unmarshalCalendarEvents))

/-- The method `Client.DeleteEventSlot`. -/
def DeleteEventSlot (lib : Lib) (env : Env) (c : Client) (eventSlotID : String) :
    Step (CallResult DeleteEventSlotData) :=
  let req : GraphQLRequest :=
    { OperationName := "calendarDeleteEventSlot"
      Query := lib.MutationCalendarDeleteEventSlot
      Variables := [("eventSlotId", .str eventSlotID)] }
  returnTarget (Do env c req (some lib.unmarshalDeleteSlot))

/-- The method `Client.ChangeEventSlot`. -/
def ChangeEventSlot (lib : Lib) (env : Env) (c : Client) (id start stop : String) :
    Step (CallResult ChangeEventSlotData) :=
  let req : GraphQLRequest :=
    { OperationName := "calendarChangeEventSlot"
      Query := lib.MutationCalendarChangeEventSlot
      Variables := [("id", .str id), ("start", .str start), ("end", .str stop)] }
  returnTarget (Do env c req (some lib.unmarshalChangeSlot))

/-- The method `Client.AddEventToTimetable`. -/
def AddEventToTimetable (lib : Lib) (env : Env) (c : Client) (start stop : String) :
    Step (CallResult AddEventToTimetableData) :=
  let req : GraphQLRequest :=
    { OperationName := "calendarAddEvent"
      Query := lib.MutationCalendarAddEvent
      Variables := [("start", .str start), ("end", .str stop)] }
  returnTarget (Do env c req (some lib.unmarshalAddEvent))

/-! ## review slots (`review_slots.go`) -/

/-- The method `Client.GetReviewSlots`. Each `for` loop is a left fold whose
state is the slice (or the two slices) being appended to. -/
def GetReviewSlots (lib : Lib) (env : Env) (c : Client) (start stop : Time) :
    Step (CallResult (List ReviewSlot × List ReviewBooking)) :=
  let fromStr := lib.Format start
  let toStr := lib.Format stop
  let s := GetCalendarEvents lib env c fromStr toStr
  match s.result with
  | .panic => ⟨s.client, s.trace, .panic⟩
  | .error err => ⟨s.client, s.trace, .error err⟩
  | .ok resp =>
    let out := resp.CalendarEventS21.GetMyCalendarEvents.foldl
      (fun (acc : List ReviewSlot × List ReviewBooking) event =>
        if event.EventCode != "student_check" then acc
        else
          let slots := event.EventSlots.foldl
            (fun (slots : List ReviewSlot) slot =>
              let start := timeParse lib slot.Start
              let stop := timeParse lib slot.End
              let schoolShortName :=
                if slot.School.ShortName != "" then slot.School.ShortName else ""
              let reviewSlot : ReviewSlot :=
                { ID := slot.ID, Start := start, End := stop, «Type» := slot.«Type»,
                  IsOnline := false, VCLink := none, School := schoolShortName }
              slots ++ [reviewSlot])
            acc.1
          let bookings := event.Bookings.foldl
            (fun (bookings : List ReviewBooking) booking =>
              let start := timeParse lib booking.EventSlot.Start
              let stop := timeParse lib booking.EventSlot.End
              let reviewBooking : ReviewBooking :=
                { ID := booking.ID, SlotID := booking.EventSlot.ID, Start := start, End := stop,
                  ProjectName := booking.Task.GoalName,
                  VerifierLogin := booking.VerifierUser.Login, IsOnline := booking.IsOnline,
                  Status := booking.BookingStatus }
              bookings ++ [reviewBooking])
            acc.2
          (slots, bookings))
      ([], [])
    ⟨s.client, s.trace, .ok out⟩

/-- The method `Client.GetAvailableReviewSlots`. -/
def GetAvailableReviewSlots (lib : Lib) (env : Env) (c : Client) (start stop : Time) :
    Step (CallResult (List ReviewSlot)) :=
  let s := GetReviewSlots lib env c start stop
  match s.result with
  | .panic => ⟨s.client, s.trace, .panic⟩
  | .error err => ⟨s.client, s.trace, .error err⟩
  | .ok (slots, _) =>
    let available := slots.foldl
      (fun (available : List ReviewSlot) slot =>
        if slot.«Type» == "FREE_TIME" then available ++ [slot] else available)
      []
    ⟨s.client, s.trace, .ok available⟩

/-- The method `Client.GetBookedReviews`. The map `seen` is a function from keys
to values, `false` where no value was stored. -/
def GetBookedReviews (lib : Lib) (env : Env) (c : Client) (start stop : Time) :
    Step (CallResult (List ReviewBooking)) :=
  let s := GetReviewSlots lib env c start stop
  match s.result with
  | .panic => ⟨s.client, s.trace, .panic⟩
  | .error err => ⟨s.client, s.trace, .error err⟩
  | .ok (_, bookings) =>
    let out := bookings.foldl
      (fun (st : (String → Bool) × List ReviewBooking) b =>
        let seen := st.1
        let result := st.2
        if !seen b.ID then
          ((fun k => if k = b.ID then true else seen k), result ++ [b])
        else (seen, result))
      ((fun _ => false), [])
    ⟨s.client, s.trace, .ok out.2⟩

/-- The method `Client.AddReviewSlot`. -/
def AddReviewSlot (lib : Lib) (env : Env) (c : Client) (start stop : Time) :
    Step (CallResult (List ReviewSlot)) :=
  let startStr := lib.Format start
  let endStr := lib.Format stop
  let s := AddEventToTimetable lib env c startStr endStr
  match s.result with
  | .panic => ⟨s.client, s.trace, .panic⟩
  | .error err => ⟨s.client, s.trace, .error err⟩
  | .ok resp =>
    let slots := resp.Student.AddEventToTimetable.foldl
      (fun (slots : List ReviewSlot) event =>
        if event.EventCode != "student_check" then slots
        else
          event.EventSlots.foldl
            (fun (slots : List ReviewSlot) slot =>
              let s := timeParse lib slot.Start
              let e := timeParse lib slot.End
              let schoolShortName :=
                if slot.School.ShortName != "" then slot.School.ShortName else ""
              let reviewSlot : ReviewSlot :=
                { ID := slot.ID, Start := s, End := e, «Type» := slot.«Type»,
                  IsOnline := false, VCLink := none, School := schoolShortName }
              slots ++ [reviewSlot])
            slots)
      []
    ⟨s.client, s.trace, .ok slots⟩

/-- The search loop of `UpdateReviewSlot`: the first slot whose id is `slotID`
is projected and returned, and the error is returned when the loop ends. -/
def UpdateReviewSlot.scan (lib : Lib) (slotID : String) :
    List CalendarTimeSlot → Except Err ReviewSlot
  | [] => .error .updatedSlotNotFound
  | event :: rest =>
    if event.ID == slotID then
      let start := timeParse lib event.Start
      let stop := timeParse lib event.End
      let schoolShortName :=
        if event.School.ShortName != "" then event.School.ShortName else ""
      .ok { ID := event.ID, Start := start, End := stop, «Type» := event.«Type»,
            IsOnline := false, VCLink := none, School := schoolShortName }
    else UpdateReviewSlot.scan lib slotID rest

/-- The method `Client.UpdateReviewSlot`. -/
def UpdateReviewSlot (lib : Lib) (env : Env) (c : Client) (slotID : String)
    (newStart newEnd : Time) : Step (CallResult ReviewSlot) :=
  let startStr := lib.Format newStart
  let endStr := lib.Format newEnd
  let s := ChangeEventSlot lib env c slotID startStr endStr
  match s.result with
  | .panic => ⟨s.client, s.trace, .panic⟩
  | .error err => ⟨s.client, s.trace, .error err⟩
  | .ok resp =>
    match UpdateReviewSlot.scan lib slotID resp.Student.ChangeEventSlot.EventSlots with
    | .ok slot => ⟨s.client, s.trace, .ok slot⟩
    | .error err => ⟨s.client, s.trace, .error err⟩

/-- The method `Client.RemoveReviewSlot`; the value is the Go `error`. -/
def RemoveReviewSlot (lib : Lib) (env : Env) (c : Client) (slotID : String) :
    Step (CallResult Unit) :=
  let s := DeleteEventSlot lib env c slotID
  match s.result with
  | .panic => ⟨s.client, s.trace, .panic⟩
  | .error err => ⟨s.client, s.trace, .error err⟩
  | .ok _ => ⟨s.client, s.trace, .ok ()⟩

/-- The method `Client.CancelReview`. -/
def CancelReview (lib : Lib) (env : Env) (c : Client) (slotID : String) :
    Step (CallResult Unit) :=
  RemoveReviewSlot lib env c slotID

/-! ## the projection of the specification (§3, §4.3) -/

/-- A calendar event is review-related when its event code is `student_check`. -/
def isReviewEvent (event : CalendarEvent) : Bool := event.EventCode == "student_check"

/-- The ReviewSlot of an event slot: id, type and school short name are copied,
start and end are the parsed timestamps, the online flag is false and there is no
video-conference link. -/
def projectSlot (lib : Lib) (slot : CalendarTimeSlot) : ReviewSlot :=
  { ID := slot.ID, Start := timeParse lib slot.Start, End := timeParse lib slot.End,
    «Type» := slot.«Type», IsOnline := false, VCLink := none, School := slot.School.ShortName }

/-- The ReviewBooking of a booking: the id of the booking; slot id, start and
end from its event slot; project name from the goal name of its task; verifier
login from its verifier; online flag and status from the booking. -/
def projectBooking (lib : Lib) (booking : CalendarBooking) : ReviewBooking :=
  { ID := booking.ID, SlotID := booking.EventSlot.ID,
    Start := timeParse lib booking.EventSlot.Start, End := timeParse lib booking.EventSlot.End,
    ProjectName := booking.Task.GoalName, VerifierLogin := booking.VerifierUser.Login,
    IsOnline := booking.IsOnline, Status := booking.BookingStatus }

/-- The slots of a list of events: the projected slots of the review-related
events, in event order and then in slot order. -/
def projectedSlots (lib : Lib) (events : List CalendarEvent) : List ReviewSlot :=
  (events.filter isReviewEvent).flatMap fun event => event.EventSlots.map (projectSlot lib)

/-- The bookings of a list of events: the projected bookings of the
review-related events, in event order and then in booking order. -/
def projectedBookings (lib : Lib) (events : List CalendarEvent) : List ReviewBooking :=
  (events.filter isReviewEvent).flatMap fun event => event.Bookings.map (projectBooking lib)

/-- The first occurrences of the booking ids: the entries of `bookings` whose
id is neither in `earlier` nor carried by an entry further to the front. -/
def firstOccurrences (earlier : List String) : List ReviewBooking → List ReviewBooking
  | [] => []
  | b :: rest =>
    if b.ID ∈ earlier then firstOccurrences earlier rest
    else b :: firstOccurrences (b.ID :: earlier) rest

/-- The index of the first entry of `bookings` whose id is `id`. -/
def firstIndex (id : String) (bookings : List ReviewBooking) : Nat :=
  bookings.findIdx fun b => b.ID == id

/-! ## `NewClient` and its options -/

/-- The constant `DefaultBaseURL`. -/
def DefaultBaseURL : String := "https://platform.21-school.ru"

/-- The constant `DefaultAuthURL`. -/
def DefaultAuthURL : String := "https://auth.21-school.ru"

/-- The type `ClientOption`: a function that configures a client. -/
abbrev ClientOption := Client → Client

/-- The option `WithBaseURL`. -/
def WithBaseURL (url : String) : ClientOption := fun c => { c with baseURL := url }

/-- The option `WithAuthURL`. -/
def WithAuthURL (url : String) : ClientOption := fun c => { c with authURL := url }

/-- The option `WithSchoolID`. -/
def WithSchoolID (schoolID : String) : ClientOption := fun c => { c with schoolID := schoolID }

/-- The option `WithUserRole`. -/
def WithUserRole (role : String) : ClientOption := fun c => { c with userRole := role }

/-- The option `WithEduProductID`. -/
def WithEduProductID (id : String) : ClientOption := fun c => { c with eduProductID := id }

/-- The option `WithEduOrgUnitID`. -/
def WithEduOrgUnitID (id : String) : ClientOption := fun c => { c with eduOrgUnitID := id }

/-- The constructor `NewClient`: the defaults, then the options in order. -/
def NewClient (authConfig : Option AuthConfig) (opts : List ClientOption) : Client :=
  let c : Client :=
    { baseURL := DefaultBaseURL, authURL := DefaultAuthURL, authConfig := authConfig,
      token := none, tokenExpiry := zeroTime, schoolID := "", userRole := "",
      eduProductID := "", eduOrgUnitID := "" }
  opts.foldl (fun c opt => opt c) c

/-- A call of one of the option constructors above. -/
inductive OptionCall where
  | baseURL (url : String)
  | authURL (url : String)
  | schoolID (schoolID : String)
  | userRole (role : String)
  | eduProductID (id : String)
  | eduOrgUnitID (id : String)
deriving DecidableEq, Repr

/-- The option that a call yields. -/
def OptionCall.option : OptionCall → ClientOption
  | .baseURL v => WithBaseURL v
  | .authURL v => WithAuthURL v
  | .schoolID v => WithSchoolID v
  | .userRole v => WithUserRole v
  | .eduProductID v => WithEduProductID v
  | .eduOrgUnitID v => WithEduOrgUnitID v

/-- The argument of a call of `WithSchoolID`. -/
def OptionCall.schoolID? : OptionCall → Option String
  | .schoolID v => some v
  | _ => none

/-- The argument of a call of `WithUserRole`. -/
def OptionCall.userRole? : OptionCall → Option String
  | .userRole v => some v
  | _ => none

/-- The argument of a call of `WithEduProductID`. -/
def OptionCall.eduProductID? : OptionCall → Option String
  | .eduProductID v => some v
  | _ => none

/-- The argument of a call of `WithEduOrgUnitID`. -/
def OptionCall.eduOrgUnitID? : OptionCall → Option String
  | .eduOrgUnitID v => some v
  | _ => none

/-- The value that a list of option calls configures for one kind of option:
the argument of the last call of that kind, and nothing when there is no such
call. -/
def configured (sel : OptionCall → Option String) (calls : List OptionCall) : Option String :=
  (calls.filterMap sel).getLast?

/-! ## the wire format of timestamps (package `time`)

`Format` and `Parse` belong to the Go standard library. They are written out
here for the one layout that `review_slots.go` formats with and for the layout
`time.RFC3339` that timestamps are parsed with, following the documentation of
package `time`, on the proleptic Gregorian calendar. -/

/-- The days from 0001-01-01 to the civil date `y`-`m`-`d` of the proleptic
Gregorian calendar. -/
def daysFromCivil (y m d : Int) : Int :=
  let y := if m ≤ 2 then y - 1 else y
  let era := y / 400
  let yoe := y - era * 400
  let mp := if m > 2 then m - 3 else m + 9
  let doy := (153 * mp + 2) / 5 + d - 1
  let doe := yoe * 365 + yoe / 4 - yoe / 100 + doy
  era * 146097 + doe - 306

/-- The civil date (year, month, day) of the day `days` days after 0001-01-01. -/
def civilFromDays (days : Int) : Int × Int × Int :=
  let z := days + 306
  let era := z / 146097
  let doe := z - era * 146097
  let yoe := (doe - doe / 1460 + doe / 36524 - doe / 146096) / 365
  let doy := doe - (365 * yoe + yoe / 4 - yoe / 100)
  let mp := (5 * doy + 2) / 153
  let d := doy - (153 * mp + 2) / 5 + 1
  let m := if mp < 10 then mp + 3 else mp - 9
  let y := yoe + era * 400
  (if m ≤ 2 then y + 1 else y, m, d)

/-- The number of days of month `m` in year `y`. -/
def daysIn (m y : Int) : Int :=
  if m = 2 then (if y % 4 = 0 ∧ (y % 100 ≠ 0 ∨ y % 400 = 0) then 29 else 28)
  else if m = 4 ∨ m = 6 ∨ m = 9 ∨ m = 11 then 30 else 31

/-- The decimal rendering of `n`, padded with zeros to `width` digits
(`appendInt`). -/
def appendInt (n : Int) (width : Nat) : String :=
  let digits := toString n.natAbs
  let padded := String.mk (List.replicate (width - digits.length) '0') ++ digits
  if n < 0 then "-" ++ padded else padded

/-- The method `Format` with the layout `2006-01-02T15:04:05.000Z`, on a time
whose location is `offset` seconds east of UTC: the wall-clock date and time of
that location with milliseconds cut to three digits, followed by the letter `Z`
of the layout. -/
def FormatMilli (offset : Int) (t : Time) : String :=
  let wall := t.ns + offset * Second
  let days := wall / (86400 * Second)
  let rem := wall % (86400 * Second)
  let (y, m, d) := civilFromDays days
  let secs := rem / Second
  let nsec := rem % Second
  appendInt y 4 ++ "-" ++ appendInt m 2 ++ "-" ++ appendInt d 2 ++ "T"
    ++ appendInt (secs / 3600) 2 ++ ":" ++ appendInt (secs % 3600 / 60) 2 ++ ":"
    ++ appendInt (secs % 60) 2 ++ "." ++ appendInt (nsec / 1000000) 3 ++ "Z"

/-- The value of a decimal digit. -/
def digit? (ch : Char) : Option Nat :=
  if ch.isDigit then some (ch.toNat - 48) else none

/-- The helper `getnum` with `fixed` true: exactly two digits. -/
def getnum2 : List Char → Option (Nat × List Char)
  | a :: b :: rest =>
    match digit? a, digit? b with
    | some x, some y => some (10 * x + y, rest)
    | _, _ => none
  | _ => none

/-- The helper `getnum` with `fixed` false: one digit, or two when the second
character is a digit too. -/
def getnum1 : List Char → Option (Nat × List Char)
  | [] => none
  | a :: rest =>
    match digit? a with
    | none => none
    | some x =>
      match rest with
      | [] => some (x, [])
      | b :: rest' =>
        match digit? b with
        | some y => some (10 * x + y, rest')
        | none => some (x, rest)

/-- The four digits of the year. -/
def getyear : List Char → Option (Nat × List Char)
  | a :: b :: c :: d :: rest =>
    match digit? a, digit? b, digit? c, digit? d with
    | some w, some x, some y, some z => some (1000 * w + 100 * x + 10 * y + z, rest)
    | _, _, _, _ => none
  | _ => none

/-- A literal character of the layout. -/
def expect (ch : Char) : List Char → Option (List Char)
  | a :: rest => if a = ch then some rest else none
  | [] => none

/-- The digits at the front of the text and what follows them. -/
def leadingDigits : List Char → List Nat × List Char
  | [] => ([], [])
  | a :: rest =>
    match digit? a with
    | some x => (x :: (leadingDigits rest).1, (leadingDigits rest).2)
    | none => ([], a :: rest)

/-- The nanoseconds of a fractional second given by its digits, of which the
first nine count (`parseNanoseconds`). -/
def nanoseconds (digits : List Nat) : Nat :=
  ((digits ++ List.replicate 9 0).take 9).foldl (fun acc x => 10 * acc + x) 0

/-- The optional fractional second that may follow the seconds: a period or a
comma and one or more digits. -/
def fraction : List Char → Nat × List Char
  | sep :: a :: rest =>
    if (sep = '.' ∨ sep = ',') ∧ (digit? a).isSome then
      (nanoseconds (leadingDigits (a :: rest)).1, (leadingDigits (a :: rest)).2)
    else (0, sep :: a :: rest)
  | value => (0, value)

/-- The zone `Z07:00`: the letter `Z`, or a sign, two digits, a colon and two
digits; the value is the offset in seconds east of UTC. -/
def zone : List Char → Option (Int × List Char)
  | 'Z' :: rest => some (0, rest)
  | sign :: h1 :: h2 :: ':' :: m1 :: m2 :: rest =>
    match digit? h1, digit? h2, digit? m1, digit? m2 with
    | some a, some b, some c, some d =>
      let hr : Int := 10 * a + b
      let mm : Int := 10 * c + d
      if hr > 24 ∨ mm > 60 then none
      else if sign = '+' then some ((hr * 60 + mm) * 60, rest)
      else if sign = '-' then some (-((hr * 60 + mm) * 60), rest)
      else none
    | _, _, _, _ => none
  | _ => none

/-- A chunk of a layout: the year `2006`, a two-digit field (`01`, `02`, `04`,
`05`), the hour `15`, or a literal character. -/
inductive Chunk where
  | year
  | two
  | hour
  | lit (ch : Char)
deriving DecidableEq, Repr

/-- Reading one chunk: the number read, if the chunk is a number, and the text
that follows. -/
def readChunk : Chunk → List Char → Option (List Nat × List Char)
  | .year, value => (getyear value).map fun r => ([r.1], r.2)
  | .two, value => (getnum2 value).map fun r => ([r.1], r.2)
  | .hour, value => (getnum1 value).map fun r => ([r.1], r.2)
  | .lit ch, value => (expect ch value).map fun rest => ([], rest)

/-- Reading the chunks of a layout in order: the numbers read and the text that
follows. -/
def readChunks : List Chunk → List Char → Option (List Nat × List Char)
  | [], value => some ([], value)
  | chunk :: chunks, value =>
    match readChunk chunk value with
    | none => none
    | some (ns, rest) =>
      match readChunks chunks rest with
      | none => none
      | some (ms, rest') => some (ns ++ ms, rest')

/-- The chunks of `2006-01-02T15:04:05`, the layout `time.RFC3339` without its
zone. -/
def layoutRFC3339 : List Chunk :=
  [.year, .lit '-', .two, .lit '-', .two, .lit 'T', .hour, .lit ':', .two, .lit ':', .two]

/-- The range checks of `time.Parse` on the fields read. -/
def validFields (year month day hour min sec : Nat) : Bool :=
  decide (1 ≤ month) && decide (month ≤ 12) && decide (1 ≤ day)
    && decide ((day : Int) ≤ daysIn month year)
    && decide (hour < 24) && decide (min < 60) && decide (sec < 60)

/-- The function `time.Parse` with the layout `time.RFC3339`
(`2006-01-02T15:04:05Z07:00`): the instant that the text denotes, or an error.
A fractional second may follow the seconds; nothing may follow the zone. -/
def ParseRFC3339 (s : String) : Except String Time :=
  match readChunks layoutRFC3339 s.data with
  | some ([year, month, day, hour, min, sec], value) =>
    match zone (fraction value).2 with
    | some (offset, []) =>
      if validFields year month day hour min sec then
        .ok ⟨(daysFromCivil year month day * 86400 + hour * 3600 + min * 60 + sec - offset)
          * Second + (fraction value).1⟩
      else .error ("parsing time " ++ s)
    | _ => .error ("parsing time " ++ s)
  | _ => .error ("parsing time " ++ s)

/-- The offset of RFC 3339: the letter `Z`, or a sign, an hour of two digits up
to 23, a colon and a minute of two digits up to 59, with nothing after it. -/
def isRFC3339Offset : List Char → Bool
  | ['Z'] => true
  | [sign, h1, h2, ':', m1, m2] =>
    match digit? h1, digit? h2, digit? m1, digit? m2 with
    | some a, some b, some c, some d =>
      (sign = '+' || sign = '-') && decide (10 * a + b ≤ 23) && decide (10 * c + d ≤ 59)
    | _, _, _, _ => false
  | _ => false

/-- The reading of "a valid RFC 3339 timestamp" of the specification: the
`date-time` of RFC 3339, section 5.6, with the upper-case letters `T` and `Z`.
The date has four, two and two digits, the hour, the minute and the second have
two digits each, a fraction is a period followed by digits, and the offset is
`Z` or signed. The second may be 60, for a leap second. -/
def isRFC3339 (s : String) : Bool :=
  match readChunks
    [.year, .lit '-', .two, .lit '-', .two, .lit 'T', .two, .lit ':', .two, .lit ':', .two]
    s.data with
  | some ([year, month, day, hour, min, sec], value) =>
    decide (1 ≤ month) && decide (month ≤ 12) && decide (1 ≤ day)
      && decide ((day : Int) ≤ daysIn month year)
      && decide (hour ≤ 23) && decide (min ≤ 59) && decide (sec ≤ 60)
      && (match value with
          | '.' :: a :: rest =>
            (digit? a).isSome && isRFC3339Offset (leadingDigits (a :: rest)).2
          | _ => isRFC3339Offset value)
  | _ => false

/-! ## form decoding (package `net/url`)

A Go string is a sequence of bytes; the functions of this section work on the
bytes of the UTF-8 encoding of a text. -/

/-- The bytes of a character in UTF-8 (`utf8.AppendRune`). -/
def encodeRune (ch : Char) : List Nat :=
  if ch.toNat < 128 then [ch.toNat]
  else if ch.toNat < 2048 then [192 + ch.toNat / 64, 128 + ch.toNat % 64]
  else if ch.toNat < 65536 then
    [224 + ch.toNat / 4096, 128 + ch.toNat / 64 % 64, 128 + ch.toNat % 64]
  else
    [240 + ch.toNat / 262144, 128 + ch.toNat / 4096 % 64, 128 + ch.toNat / 64 % 64,
      128 + ch.toNat % 64]

/-- The bytes of a text. -/
def bytesOf (s : String) : List Nat := s.data.flatMap encodeRune

/-- The pieces of a byte sequence between the occurrences of a separator. -/
def splitOn (sep : Nat) : List Nat → List (List Nat)
  | [] => [[]]
  | b :: rest =>
    if b = sep then [] :: splitOn sep rest
    else
      match splitOn sep rest with
      | piece :: pieces => (b :: piece) :: pieces
      | [] => [[b]]

/-- The function `strings.Cut`: the bytes before and the bytes after the first
separator; all the bytes and nothing when the separator does not occur. -/
def cut (sep : Nat) : List Nat → List Nat × List Nat
  | [] => ([], [])
  | b :: rest => if b = sep then ([], rest) else (b :: (cut sep rest).1, (cut sep rest).2)

/-- The value of a hexadecimal digit (`unhex`), for the digits `0` to `9`, `a`
to `f` and `A` to `F`. -/
def unhex (b : Nat) : Option Nat :=
  if 48 ≤ b ∧ b ≤ 57 then some (b - 48)
  else if 97 ≤ b ∧ b ≤ 102 then some (b - 87)
  else if 65 ≤ b ∧ b ≤ 70 then some (b - 55)
  else none

/-- The function `url.QueryUnescape`: `+` (43) becomes a space (32), `%XY` (37
and two hexadecimal digits) becomes the byte with code `XY`, and a `%` that is
not followed by two hexadecimal digits is an error. -/
def QueryUnescape : List Nat → Option (List Nat)
  | [] => some []
  | 37 :: x :: y :: rest =>
    match unhex x, unhex y, QueryUnescape rest with
    | some hi, some lo, some tail => some ((16 * hi + lo) :: tail)
    | _, _, _ => none
  | b :: rest =>
    if b = 37 then none
    else
      match QueryUnescape rest with
      | some tail => some ((if b = 43 then 32 else b) :: tail)
      | none => none

/-- The values of `url.ParseQuery`: the key/value pairs of a form-encoded body,
as bytes, in the order in which they are added to the result. The body is cut at
every `&` (38) and each piece at its first `=` (61). A piece that is empty, holds
a semicolon (59) or has a malformed escape adds no pair. -/
def ParseQuery (query : String) : List (List Nat × List Nat) :=
  (splitOn 38 (bytesOf query)).filterMap fun piece =>
    if piece = [] ∨ 59 ∈ piece then none
    else
      match QueryUnescape (cut 61 piece).1, QueryUnescape (cut 61 piece).2 with
      | some key, some value => some (key, value)
      | _, _ => none

/-- Whether `url.ParseQuery` returns an error beside its values: some piece
holds a semicolon, or is not empty and has a malformed escape. -/
def ParseQuery.fails (query : String) : Bool :=
  (splitOn 38 (bytesOf query)).any fun piece =>
    decide (59 ∈ piece) ||
      (decide (piece ≠ []) &&
        ((QueryUnescape (cut 61 piece).1).isNone || (QueryUnescape (cut 61 piece).2).isNone))

/-! ## the review-slot commands of the CLI (`cmd/client/main.go`) -/

/-- The method `Time.Before`. -/
def Time.Before (t u : Time) : Bool := decide (t.ns < u.ns)

/-- The loop of `parseDateTime` over the layouts: the first layout with which
`time.Parse` succeeds gives the result. -/
def parseDateTime.loop (parse : String → String → Except String Time) (s : String) :
    List String → Option Time
  | [] => none
  | f :: formats =>
    match parse f s with
    | .ok t => some t
    | .error _ => parseDateTime.loop parse s formats

/-- The function `parseDateTime`; `parse` is `time.Parse`, of a layout and a
text. -/
def parseDateTime (parse : String → String → Except String Time) (s : String) :
    Except Err Time :=
  let formats := ["2006-01-02T15:04:05Z", "2006-01-02T15:04:05.000Z", "2006-01-02 15:04:05",
    "2006-01-02 15:04", "2006-01-02"]
  match parseDateTime.loop parse s formats with
  | some t => .ok t
  | none =>
    match parse "2006-01-02" s with
    | .ok t => .ok t
    | .error _ => .error (.unableToParse s)

/-- How a command of the CLI ends: by `os.Exit` after the usage text, by
`log.Fatal` with a message, by a panic, or by returning. What it prints is not
part of the model. -/
inductive CmdResult where
  | exit (code : Nat)
  | fatal (msg : String)
  | panic
  | done
deriving DecidableEq, Repr

/-- The function `addReviewSlotCmd`; `args` is `os.Args`. -/
def addReviewSlotCmd (parse : String → String → Except String Time) (lib : Lib) (env : Env)
    (c : Client) (args : List String) : Step CmdResult :=
  if args.length < 5 then ⟨c, [], .exit 1⟩
  else
    let startStr := args.getD 3 ""
    let endStr := args.getD 4 ""
    match parseDateTime parse startStr with
    | .error err => ⟨c, [], .fatal ("Error parsing start time: " ++ err.Error)⟩
    | .ok start =>
      match parseDateTime parse endStr with
      | .error err => ⟨c, [], .fatal ("Error parsing end time: " ++ err.Error)⟩
      | .ok stop =>
        if stop.Before start then ⟨c, [], .fatal "Error: end time must be after start time"⟩
        else
          let s := AddReviewSlot lib env c start stop
          match s.result with
          | .panic => ⟨s.client, s.trace, .panic⟩
          | .error err =>
            ⟨s.client, s.trace, .fatal ("Error adding review slot: " ++ err.Error)⟩
          | .ok _ => ⟨s.client, s.trace, .done⟩

/-- The function `updateReviewSlotCmd`; `args` is `os.Args`. -/
def updateReviewSlotCmd (parse : String → String → Except String Time) (lib : Lib) (env : Env)
    (c : Client) (args : List String) : Step CmdResult :=
  if args.length < 6 then ⟨c, [], .exit 1⟩
  else
    let slotID := args.getD 3 ""
    let startStr := args.getD 4 ""
    let endStr := args.getD 5 ""
    match parseDateTime parse startStr with
    | .error err => ⟨c, [], .fatal ("Error parsing start time: " ++ err.Error)⟩
    | .ok start =>
      match parseDateTime parse endStr with
      | .error err => ⟨c, [], .fatal ("Error parsing end time: " ++ err.Error)⟩
      | .ok stop =>
        if stop.Before start then ⟨c, [], .fatal "Error: end time must be after start time"⟩
        else
          let s := UpdateReviewSlot lib env c slotID start stop
          match s.result with
          | .panic => ⟨s.client, s.trace, .panic⟩
          | .error err =>
            ⟨s.client, s.trace, .fatal ("Error updating review slot: " ++ err.Error)⟩
          | .ok _ => ⟨s.client, s.trace, .done⟩

/-! ## example inputs -/

/-- A token payload with the given access token and lifetime. -/
def mkToken (access : String) (expiresIn : Int) : TokenResponse :=
  { AccessToken := access, TokenType := "Bearer", ExpiresIn := expiresIn, RefreshToken := "",
    IDToken := "", NotBeforePolicy := 0, SessionState := "", Scope := "" }

/-- A client with credentials, the given token state and no context header. -/
def mkClient (token : Option TokenResponse) (expiry : Int) : Client :=
  { baseURL := "https://platform.21-school.ru", authURL := "https://auth.21-school.ru",
    authConfig := some ⟨"test@example.com", "testpass"⟩, token := token, tokenExpiry := ⟨expiry⟩,
    schoolID := "", userRole := "", eduProductID := "", eduOrgUnitID := "" }

/-- An environment whose two clock readings are `t`, whose server answers every
request with `resp`, and whose decoders accept every body, yielding `tok` and `gql`. -/
def mkEnv (t : Int) (resp : Except String HTTPResponse) (tok : TokenResponse)
    (gql : GraphQLResponse) : Env :=
  { untilNow := ⟨t⟩, now := ⟨t⟩, urlError := fun _ => none, httpClientDo := fun _ => resp,
    decodeToken := fun _ => .ok tok, marshal := fun r => .ok r.Query,
    decodeEnvelope := fun _ => .ok gql }

/-- The operation sent in the examples. -/
def exOperation : GraphQLRequest :=
  { OperationName := "getCurrentUser", Variables := [], Query := "query getCurrentUser" }

/-- The HTTP request that `Do` builds for `exOperation` on `mkClient` holding
the access token `mock-token`. -/
def exGraphQLCall : HTTPRequest :=
  { Method := "POST"
    URL := "https://platform.21-school.ru/services/graphql"
    Header := [("Content-Type", "application/json"), ("Authorization", "Bearer mock-token")]
    Body := "query getCurrentUser" }

/-- A client holding the token `mock-token`, valid for an hour from instant 0. -/
def exClient : Client := mkClient (some (mkToken "mock-token" 3600)) 3600000000000

/-- An envelope with an empty `data` object and one error. -/
def exErrorEnvelope : GraphQLResponse :=
  { Data := "\x7b\x7d", Errors := [⟨"Validation error", ["user", "getCurrentUser"], []⟩] }

/-- A target whose decoder accepts every payload. -/
def exTarget : Option (String → Except String Nat) := some fun _ => .ok 0

/-- The HTTP request that `Authenticate` builds on a client made by `mkClient`. -/
def exAuthCall : HTTPRequest :=
  { Method := "POST"
    URL := "https://auth.21-school.ru/auth/realms/EduPowerKeycloak/protocol/openid-connect/token"
    Header := [("Content-Type", "application/x-www-form-urlencoded")]
    Body := "client_id=s21-open-api&username=test@example.com&password=testpass&grant_type=password" }

/-- An environment at instant 0 whose server cannot be reached. -/
def exEnvDown : Env := mkEnv 0 (.error "down") (mkToken "new" 3600) ⟨"", []⟩

/-- An environment at instant 0 whose server answers 200 and whose token
decoder yields a token `new` with the given lifetime. -/
def exEnvOK (expiresIn : Int) : Env :=
  mkEnv 0 (.ok ⟨200, "body"⟩) (mkToken "new" expiresIn) exErrorEnvelope

/-- An environment at instant 0 whose server answers 401 with the given body. -/
def exEnv401 (body : String) : Env :=
  mkEnv 0 (.ok ⟨401, body⟩) (mkToken "new" 3600) exErrorEnvelope

/-- A client whose token `old` expired an hour before instant 0. -/
def exExpiredClient : Client := mkClient (some (mkToken "old" 3600)) (-3600000000000)

/-- A client built without credentials, on which `SetToken` then installs the
token `mock-token` with an expiry an hour after instant 0. -/
def exNoConfigClient : Client :=
  SetToken (NewClient none []) (some (mkToken "mock-token" 3600)) ⟨3600000000000⟩

/-- An environment at instant 0 whose server answers 200 with an envelope that
carries data and no error. -/
def exEnvData : Env :=
  mkEnv 0 (.ok ⟨200, "body"⟩) (mkToken "new" 3600) ⟨"data", []⟩

/-- The HTTP request that `Do` builds for `exOperation` on `mkClient` once the
token `new` has been obtained. -/
def exReauthCall : HTTPRequest :=
  { Method := "POST"
    URL := "https://platform.21-school.ru/services/graphql"
    Header := [("Content-Type", "application/json"), ("Authorization", "Bearer new")]
    Body := "query getCurrentUser" }

/-- A library whose parser knows two timestamps, whose formatter prints the
nanosecond count and whose calendar decoder yields the given events. -/
def mkLib (events : List CalendarEvent) : Lib :=
  { Format := fun t => toString t.ns
    Parse := fun s =>
      if s = "2025-12-20T14:00:00Z" then .ok ⟨1000⟩
      else if s = "2025-12-20T14:30:00Z" then .ok ⟨2800⟩
      else .error "cannot parse"
    QueryCalendarGetEvents := "query calendarGetEvents"
    MutationCalendarAddEvent := "mutation calendarAddEvent"
    MutationCalendarChangeEventSlot := "mutation calendarChangeEventSlot"
    MutationCalendarDeleteEventSlot := "mutation calendarDeleteEventSlot"
    unmarshalCalendarEvents := fun _ => .ok ⟨⟨events, ""⟩⟩
    unmarshalAddEvent := fun _ => .ok ⟨⟨events, ""⟩⟩
    unmarshalChangeSlot := fun _ => .ok ⟨⟨events.headD default, ""⟩⟩
    unmarshalDeleteSlot := fun _ => .ok ⟨⟨true, ""⟩⟩ }

/-- An event slot with the given id and type, from 14:00 to 14:30. -/
def mkSlot (id type : String) : CalendarTimeSlot :=
  { ID := id, «Type» := type, Start := "2025-12-20T14:00:00Z", End := "2025-12-20T14:30:00Z",
    Event := ⟨"STUDENT", ""⟩, School := ⟨"21 Kazan", ""⟩, Typename := "" }

/-- A booking with the given id, project and verifier, booked on the slot `slot-9`. -/
def mkBooking (id project verifier : String) : CalendarBooking :=
  { ID := id, AnswerID := "", EventSlotID := "slot-9",
    Task := { ID := "", Title := "", AssignmentType := "", GoalID := "", GoalName := project,
              Typename := "" },
    EventSlot := { ID := "slot-9", Start := "2025-12-20T14:00:00Z",
                   End := "2025-12-20T14:30:00Z", Event := ⟨"STUDENT", "student_check", ""⟩,
                   School := ⟨"21 Kazan", ""⟩, Typename := "" },
    VerifierUser := ⟨"", verifier, ""⟩, BookingStatus := "BOOKED", IsOnline := true,
    VCLinkURL := none, Typename := "" }

/-- A calendar event with the given code, slots and bookings. -/
def mkEvent (id code : String) (slots : List CalendarTimeSlot)
    (bookings : List CalendarBooking) : CalendarEvent :=
  { ID := id, Start := "2025-12-20T14:00:00Z", End := "2025-12-20T14:30:00Z",
    Description := "", EventType := "", EventCode := code, EventSlots := slots,
    Bookings := bookings, Typename := "" }

/-- The two events of the example of the specification: a review event with
the free slot `slot-1` and the booking `booking-1`, and an unrelated event. -/
def exEvents : List CalendarEvent :=
  [mkEvent "event-1" "student_check" [mkSlot "slot-1" "FREE_TIME"]
      [mkBooking "booking-1" "libft" "jdoe"],
    mkEvent "event-2" "exam" [mkSlot "slot-2" "FREE_TIME"]
      [mkBooking "booking-2" "printf" "asmith"]]

/-- Three review events in which `booking-1` and `booking-2` each appear in
two different events: the bookings are `booking-1`, `booking-1`, `booking-2`,
`booking-2`. -/
def exRepeatedEvents : List CalendarEvent :=
  [mkEvent "event-1" "student_check" [] [mkBooking "booking-1" "libft" "jdoe"],
    mkEvent "event-2" "student_check" []
      [mkBooking "booking-1" "libft" "jdoe", mkBooking "booking-2" "printf" "asmith"],
    mkEvent "event-3" "student_check" [] [mkBooking "booking-2" "printf" "asmith"]]

/-- The projected booking `booking-1` of the examples. -/
def exBooking1 : ReviewBooking :=
  ⟨"booking-1", "slot-9", ⟨1000⟩, ⟨2800⟩, "libft", "jdoe", true, "BOOKED"⟩

/-- The projected booking `booking-2` of the examples. -/
def exBooking2 : ReviewBooking :=
  ⟨"booking-2", "slot-9", ⟨1000⟩, ⟨2800⟩, "printf", "asmith", true, "BOOKED"⟩

/-- Events with one free slot, one booked slot and another free slot. -/
def exMixedEvents : List CalendarEvent :=
  [mkEvent "event-1" "student_check"
    [mkSlot "slot-1" "FREE_TIME", mkSlot "slot-2" "BOOKED_TIME", mkSlot "slot-3" "FREE_TIME"] []]

/-- The library `mkLib` with no event, whose delete decoder yields the given
boolean payload. -/
def mkDeleteLib (deleted : Bool) : Lib :=
  { mkLib [] with unmarshalDeleteSlot := fun _ => .ok ⟨⟨deleted, ""⟩⟩ }

/-- An event that is not review-related and holds the slot `slot-1`. -/
def exExamEvents : List CalendarEvent :=
  [mkEvent "event-7" "exam" [mkSlot "slot-1" "FREE_TIME"] []]

/-- A review event whose slot has a start that is no timestamp and whose
booking has an end that is no timestamp. -/
def exMalformedEvents : List CalendarEvent :=
  [mkEvent "event-1" "student_check"
    [{ mkSlot "slot-1" "FREE_TIME" with Start := "yesterday" }]
    [{ mkBooking "booking-1" "libft" "jdoe" with
        EventSlot := { (mkBooking "booking-1" "libft" "jdoe").EventSlot with End := "" } }]]

/-- An instant of the examples: 15 January 2025, 11:00:00.123456789 UTC. -/
def exInstant : Time := ⟨(daysFromCivil 2025 1 15 * 86400 + 11 * 3600) * Second + 123456789⟩

/-- The library `mkLib` with the formatter and the parser of package `time`,
every formatted instant being held in a location `offset` seconds east of UTC. -/
def mkZoneLib (offset : Int) (events : List CalendarEvent) : Lib :=
  { mkLib events with Format := FormatMilli offset, Parse := ParseRFC3339 }

/-- The text of a variable in the request bodies of the examples. -/
def VarValue.render : VarValue → String
  | .str s => s
  | .int n => toString n
  | .bool b => toString b
  | .paging offset limit => toString offset ++ "/" ++ toString limit

/-- The environment `exEnvData` with an encoder that writes the operation name
and then the variables. -/
def exEnvVars : Env :=
  { exEnvData with
    marshal := fun r =>
      .ok (r.OperationName ++ " "
        ++ " ".intercalate (r.Variables.map fun kv => kv.1 ++ "=" ++ kv.2.render)) }

/-- The HTTP request that `Do` builds on `exClient` in `exEnvVars` for a body. -/
def exVarsCall (body : String) : HTTPRequest :=
  { Method := "POST"
    URL := "https://platform.21-school.ru/services/graphql"
    Header := [("Content-Type", "application/json"), ("Authorization", "Bearer mock-token")]
    Body := body }

/-- A client without token whose password holds the characters `&`, `=` and `+`. -/
def exSymbolsClient : Client :=
  { mkClient none 0 with authConfig := some ⟨"test@example.com", "p&ss=w+rd"⟩ }

/-- A `time.Parse` for the examples: it knows the layout `2006-01-02 15:04`,
with which it reads 14:00 and 14:30 of 15 January 2025, and fails on every other
layout and text. -/
def exParse (layout s : String) : Except String Time :=
  if layout = "2006-01-02 15:04" ∧ s = "2025-01-15 14:00" then
    .ok ⟨(daysFromCivil 2025 1 15 * 86400 + 14 * 3600) * Second⟩
  else if layout = "2006-01-02 15:04" ∧ s = "2025-01-15 14:30" then
    .ok ⟨(daysFromCivil 2025 1 15 * 86400 + 14 * 3600 + 30 * 60) * Second⟩
  else .error ("parsing time " ++ s)

/-- Option calls that configure a school, twice a product (first with the empty
string), and the user role with the empty string; no organisational unit. -/
def exOptionCalls : List OptionCall :=
  [.schoolID "school-1", .eduProductID "", .userRole "", .baseURL "https://platform.21-school.ru",
    .eduProductID "product-7"]

/-- The HTTP request that `Do` builds for `exOperation` on the client built
from `exOptionCalls` that holds the token `mock-token`. -/
def exProductCall : HTTPRequest :=
  { Method := "POST"
    URL := "https://platform.21-school.ru/services/graphql"
    Header := [("Content-Type", "application/json"), ("Authorization", "Bearer mock-token"),
      ("schoolid", "school-1"), ("x-edu-product-id", "product-7")]
    Body := "query getCurrentUser" }

/-- A review event whose slot has a start with a one-digit hour and an end with
a comma before the fraction of the second. -/
def exLenientEvents : List CalendarEvent :=
  [mkEvent "event-1" "student_check"
    [{ mkSlot "slot-1" "FREE_TIME" with
        Start := "2025-12-20T4:00:00Z", End := "2025-12-20T14:00:00,5Z" }] []]

/-! ## the token manager -/

theorem Until_lt_Minute_iff (now t : Time) : Until now t < Minute ↔ t.ns < now.ns + Minute := by
  unfold Until Time.Sub
  simp only [maxDuration, minDuration, Minute, Second]
  norm_num
  split_ifs <;> omega

/-- The six ways in which `Authenticate` ends. -/
theorem Authenticate_cases (env : Env) (c : Client) :
    (c.authConfig = none ∧
      Authenticate env c = ⟨c, [.authenticate], .error .authConfigNotSet⟩) ∨
    (∃ e, Authenticate env c = ⟨c, [.authenticate], .error (.createRequest e)⟩) ∨
    (∃ req e, env.httpClientDo req = .error e ∧
      Authenticate env c = ⟨c, [.authenticate, .authDo req], .error (.doRequest e)⟩) ∨
    (∃ req resp, env.httpClientDo req = .ok resp ∧ resp.StatusCode ≠ StatusOK ∧
      Authenticate env c =
        ⟨c, [.authenticate, .authDo req], .error (.authFailed resp.StatusCode resp.Body)⟩) ∨
    (∃ req resp e, env.httpClientDo req = .ok resp ∧ resp.StatusCode = StatusOK ∧
      env.decodeToken resp.Body = .error e ∧
      Authenticate env c = ⟨c, [.authenticate, .authDo req], .error (.decodeResponse e)⟩) ∨
    (∃ req resp p, env.httpClientDo req = .ok resp ∧ resp.StatusCode = StatusOK ∧
      env.decodeToken resp.Body = .ok p ∧
      Authenticate env c =
        ⟨{ c with
            token := some p
            tokenExpiry := env.now.Add (wrapInt64 (p.ExpiresIn * Second)) },
          [.authenticate, .authDo req], .ok p⟩) := by
  unfold Authenticate
  cases hcfg : c.authConfig with
  | none => exact Or.inl ⟨rfl, rfl⟩
  | some cfg =>
    right
    dsimp only
    cases hreq : NewRequestWithContext env "POST" (c.authURL ++ AuthTokenPath)
      ("client_id=s21-open-api&username=" ++ cfg.Login ++ "&password=" ++ cfg.Password
        ++ "&grant_type=password") with
    | error e => exact Or.inl ⟨e, rfl⟩
    | ok req0 =>
      right
      dsimp only
      cases hdo : env.httpClientDo
        (req0.SetHeader "Content-Type" "application/x-www-form-urlencoded") with
      | error e => exact Or.inl ⟨_, e, hdo, rfl⟩
      | ok resp =>
        right
        dsimp only
        by_cases hst : resp.StatusCode = StatusOK
        · right
          cases hdec : env.decodeToken resp.Body with
          | error e => exact Or.inl ⟨_, resp, e, hdo, hst, hdec, by simp [hst]⟩
          | ok p => exact Or.inr ⟨_, resp, p, hdo, hst, hdec, by simp [hst, hcfg]⟩
        · exact Or.inl ⟨_, resp, hdo, hst, by simp [hst]⟩

theorem authCalls_Authenticate (env : Env) (c : Client) :
    authCalls (Authenticate env c).trace = 1 := by
  rcases Authenticate_cases env c with ⟨-, h⟩ | ⟨_, h⟩ | ⟨_, _, -, h⟩ | ⟨_, _, -, -, h⟩ |
    ⟨_, _, _, -, -, -, h⟩ | ⟨_, _, _, -, -, -, h⟩ <;> rw [h] <;> simp [authCalls]

theorem ensureToken_refresh (env : Env) (c : Client)
    (h : c.token = none ∨ c.tokenExpiry.ns < env.untilNow.ns + Minute) :
    ensureToken env c = ⟨(Authenticate env c).client, (Authenticate env c).trace,
      match (Authenticate env c).result with
      | .error err => some err
      | .ok _ => none⟩ := by
  rw [← Until_lt_Minute_iff] at h
  simp [ensureToken, h]

theorem ensureToken_keep (env : Env) (c : Client)
    (h : ¬ (c.token = none ∨ c.tokenExpiry.ns < env.untilNow.ns + Minute)) :
    ensureToken env c = ⟨c, [], none⟩ := by
  rw [← Until_lt_Minute_iff] at h
  simp [ensureToken, h]

/-- When `ensureToken` returns `nil`, a token is stored. -/
theorem ensureToken_ok_token (env : Env) (c : Client) (h : (ensureToken env c).result = none) :
    ∃ t, (ensureToken env c).client.token = some t := by
  by_cases hr : c.token = none ∨ c.tokenExpiry.ns < env.untilNow.ns + Minute
  · rw [ensureToken_refresh env c hr] at h ⊢
    rcases Authenticate_cases env c with ⟨-, e⟩ | ⟨_, e⟩ | ⟨_, _, -, e⟩ | ⟨_, _, -, -, e⟩ |
      ⟨_, _, _, -, -, -, e⟩ | ⟨_, _, p, -, -, -, e⟩ <;> rw [e] at h ⊢ <;> simp at h ⊢
  · rw [ensureToken_keep env c hr]
    cases ht : c.token with
    | none => exact absurd (Or.inl ht) hr
    | some t => exact ⟨t, rfl⟩

/-- C1, as stated, fails at the boundary: a stored token whose expiry is exactly
one minute after the clock reading violates `now + 1min < expiry`, and yet
`ensureToken` performs no authentication. -/
theorem ensureToken_boundary_no_refresh :
    (mkClient (some (mkToken "old" 3600)) 60000000000).tokenExpiry.ns
      = exEnvDown.untilNow.ns + Minute ∧
    authCalls (ensureToken exEnvDown (mkClient (some (mkToken "old" 3600)) 60000000000)).trace
      = 0 ∧
    ¬ (authCalls (ensureToken exEnvDown
          (mkClient (some (mkToken "old" 3600)) 60000000000)).trace = 1 ↔
        ((mkClient (some (mkToken "old" 3600)) 60000000000).token = none ∨
          ¬ (exEnvDown.untilNow.ns + Minute
              < (mkClient (some (mkToken "old" 3600)) 60000000000).tokenExpiry.ns))) := by
  decide

/-- C1 (amended): for every client state and every clock reading, `ensureToken`
calls `Authenticate` (exactly once) exactly when no token is stored or
`now + 1min ≤ expiry` fails, and makes no call otherwise; a token whose expiry is
exactly one minute after now is kept. -/
theorem ensureToken_authenticates_iff (env : Env) (c : Client) :
    (authCalls (ensureToken env c).trace = 1 ↔
      (c.token = none ∨ ¬ (env.untilNow.ns + Minute ≤ c.tokenExpiry.ns))) ∧
    (authCalls (ensureToken env c).trace = 0 ↔
      (c.token ≠ none ∧ env.untilNow.ns + Minute ≤ c.tokenExpiry.ns)) := by
  by_cases hr : c.token = none ∨ c.tokenExpiry.ns < env.untilNow.ns + Minute
  · have h1 : authCalls (ensureToken env c).trace = 1 := by
      rw [ensureToken_refresh env c hr]
      exact authCalls_Authenticate env c
    rw [h1]
    constructor
    · simp only [true_iff]
      rcases hr with h | h
      · exact Or.inl h
      · exact Or.inr (by omega)
    · simp only [one_ne_zero, false_iff, not_and, not_le]
      intro hne
      rcases hr with h | h
      · exact absurd h hne
      · exact h
  · have h0 : authCalls (ensureToken env c).trace = 0 := by
      rw [ensureToken_keep env c hr]
      rfl
    rw [h0]
    push_neg at hr
    constructor
    · simp only [zero_ne_one, false_iff, not_or, not_not]
      exact ⟨hr.1, hr.2⟩
    · simp only [true_iff]
      exact ⟨hr.1, hr.2⟩

/-- C2: when a token is stored and its expiry is more than one minute after
now, `ensureToken` calls `Authenticate` zero times (it performs no effect at
all), returns `nil`, and leaves the client, hence the stored token and expiry,
unchanged. -/
theorem ensureToken_valid_token_untouched (env : Env) (c : Client) (hset : c.token ≠ none)
    (hexp : env.untilNow.ns + Minute < c.tokenExpiry.ns) :
    authCalls (ensureToken env c).trace = 0 ∧ (ensureToken env c).trace = [] ∧
    (ensureToken env c).result = none ∧ (ensureToken env c).client = c ∧
    (ensureToken env c).client.token = c.token ∧
    (ensureToken env c).client.tokenExpiry = c.tokenExpiry := by
  have hr : ¬ (c.token = none ∨ c.tokenExpiry.ns < env.untilNow.ns + Minute) := by
    rintro (h | h)
    · exact hset h
    · omega
  rw [ensureToken_keep env c hr]
  exact ⟨rfl, rfl, rfl, rfl, rfl, rfl⟩

theorem ensureToken_valid_token_untouched_witness :
    exClient.token ≠ none ∧ exEnvDown.untilNow.ns + Minute < exClient.tokenExpiry.ns ∧
    authCalls (ensureToken exEnvDown exClient).trace = 0 ∧
    (ensureToken exEnvDown exClient).result = none ∧
    (ensureToken exEnvDown exClient).client = exClient :=
  have h := ensureToken_valid_token_untouched exEnvDown exClient (by decide) (by decide)
  ⟨by decide, by decide, h.1, h.2.2.1, h.2.2.2.1⟩

/-- C3: when no token is stored, `ensureToken` calls `Authenticate` exactly once,
whatever the stored expiry and whatever that call returns; its effects, final
state and error are those of that one call. -/
theorem ensureToken_unset_token_one_auth (env : Env) (c : Client) (hunset : c.token = none) :
    authCalls (ensureToken env c).trace = 1 ∧
    (ensureToken env c).trace = (Authenticate env c).trace ∧
    (ensureToken env c).client = (Authenticate env c).client ∧
    (∀ err, (ensureToken env c).result = some err ↔ (Authenticate env c).result = .error err) := by
  rw [ensureToken_refresh env c (Or.inl hunset)]
  refine ⟨authCalls_Authenticate env c, rfl, rfl, fun err => ?_⟩
  cases (Authenticate env c).result <;> simp

theorem ensureToken_unset_token_one_auth_witness :
    (mkClient none 3600000000000).token = none ∧
    authCalls (ensureToken exEnvDown (mkClient none 3600000000000)).trace = 1 ∧
    (ensureToken exEnvDown (mkClient none 3600000000000)).trace
      = (Authenticate exEnvDown (mkClient none 3600000000000)).trace :=
  have h := ensureToken_unset_token_one_auth exEnvDown (mkClient none 3600000000000) rfl
  ⟨rfl, h.1, h.2.1⟩

/-- The request sent by `Authenticate` decides how the call ends. -/
theorem Authenticate_of_sent (env : Env) (c : Client) (req : HTTPRequest)
    (hsent : Event.authDo req ∈ (Authenticate env c).trace) :
    (Authenticate env c).trace = [.authenticate, .authDo req] ∧
    ((∃ e, env.httpClientDo req = .error e ∧
        Authenticate env c = ⟨c, [.authenticate, .authDo req], .error (.doRequest e)⟩) ∨
      (∃ resp, env.httpClientDo req = .ok resp ∧ resp.StatusCode ≠ StatusOK ∧
        Authenticate env c =
          ⟨c, [.authenticate, .authDo req], .error (.authFailed resp.StatusCode resp.Body)⟩) ∨
      (∃ resp e, env.httpClientDo req = .ok resp ∧ resp.StatusCode = StatusOK ∧
        env.decodeToken resp.Body = .error e ∧
        Authenticate env c = ⟨c, [.authenticate, .authDo req], .error (.decodeResponse e)⟩) ∨
      (∃ resp p, env.httpClientDo req = .ok resp ∧ resp.StatusCode = StatusOK ∧
        env.decodeToken resp.Body = .ok p ∧
        Authenticate env c =
          ⟨{ c with
              token := some p
              tokenExpiry := env.now.Add (wrapInt64 (p.ExpiresIn * Second)) },
            [.authenticate, .authDo req], .ok p⟩)) := by
  rcases Authenticate_cases env c with ⟨-, e⟩ | ⟨_, e⟩ | ⟨r, x, h1, e⟩ | ⟨r, resp, h1, h2, e⟩ |
    ⟨r, resp, x, h1, h2, h3, e⟩ | ⟨r, resp, p, h1, h2, h3, e⟩
  · rw [e] at hsent; simp at hsent
  · rw [e] at hsent; simp at hsent
  all_goals
    rw [e] at hsent
    simp only [List.mem_cons, List.mem_singleton, Event.authDo.injEq, List.not_mem_nil,
      or_false, false_or, reduceCtorEq] at hsent
    subst hsent
    rw [e]
    refine ⟨rfl, ?_⟩
  · exact Or.inl ⟨x, h1, rfl⟩
  · exact Or.inr (Or.inl ⟨resp, h1, h2, rfl⟩)
  · exact Or.inr (Or.inr (Or.inl ⟨resp, x, h1, h2, h3, rfl⟩))
  · exact Or.inr (Or.inr (Or.inr ⟨resp, p, h1, h2, h3, rfl⟩))

/-- C6, as stated, fails when `expires_in` seconds do not fit a 64-bit duration:
for `expires_in = 9223372037` the product with `time.Second` wraps around and
the stored expiry lies before the authentication instant instead of
`now + 9223372037 s`. -/
theorem Authenticate_expiry_wraps :
    (Authenticate (exEnvOK 9223372037) (mkClient none 0)).result
      = .ok (mkToken "new" 9223372037) ∧
    (Authenticate (exEnvOK 9223372037) (mkClient none 0)).client.tokenExpiry
      = ⟨-9223372036709551616⟩ ∧
    (Authenticate (exEnvOK 9223372037) (mkClient none 0)).client.tokenExpiry
      ≠ ⟨(exEnvOK 9223372037).now.ns + 9223372037 * Second⟩ := by
  refine ⟨rfl, by decide, by decide⟩

/-- The product of a duration is exact when it fits 64 bits, and only then. -/
theorem wrapInt64_eq_iff (x : Int) :
    wrapInt64 x = x ↔ -9223372036854775808 ≤ x ∧ x ≤ 9223372036854775807 := by
  unfold wrapInt64
  norm_num
  omega

/-- C6 (amended): when the request sent by `Authenticate` is answered with
status 200 and a body that decodes to the payload `p`, whatever its `expires_in`,
`Authenticate` returns `p` without error, the stored token becomes `p` whatever
was stored before, the stored expiry becomes `now` plus the 64-bit product of
`expires_in` and one second, and no other field of the client changes. The
stored expiry is exactly `now + expires_in` seconds when the `expires_in`
seconds fit a 64-bit duration (`-9223372036 ≤ expires_in ≤ 9223372036`), and
only then. -/
theorem Authenticate_success (env : Env) (c : Client) (req : HTTPRequest) (resp : HTTPResponse)
    (p : TokenResponse) (hsent : Event.authDo req ∈ (Authenticate env c).trace)
    (hresp : env.httpClientDo req = .ok resp) (hst : resp.StatusCode = StatusOK)
    (hdec : env.decodeToken resp.Body = .ok p) :
    (Authenticate env c).result = .ok p ∧
    (Authenticate env c).client.token = some p ∧
    (Authenticate env c).client =
      { c with
        token := some p
        tokenExpiry := env.now.Add (wrapInt64 (p.ExpiresIn * Second)) } ∧
    ((Authenticate env c).client.tokenExpiry = ⟨env.now.ns + p.ExpiresIn * Second⟩ ↔
      -9223372036 ≤ p.ExpiresIn ∧ p.ExpiresIn ≤ 9223372036) := by
  rcases (Authenticate_of_sent env c req hsent).2 with ⟨x, h1, -⟩ | ⟨r, h1, h2, -⟩ |
    ⟨r, x, h1, h2, h3, -⟩ | ⟨r, q, h1, h2, h3, e⟩
  · rw [hresp] at h1; cases h1
  · rw [hresp] at h1; cases h1; exact absurd hst h2
  · rw [hresp] at h1; cases h1; rw [hdec] at h3; cases h3
  · rw [hresp] at h1; cases h1; rw [hdec] at h3; cases h3
    rw [e]
    refine ⟨rfl, rfl, rfl, ?_⟩
    have hw := wrapInt64_eq_iff (p.ExpiresIn * Second)
    simp only [Time.Add, Time.mk.injEq, add_right_inj]
    rw [hw]
    simp only [Second]
    constructor
    · intro h; constructor <;> omega
    · intro h; constructor <;> omega

theorem Authenticate_success_witness :
    Event.authDo exAuthCall ∈ (Authenticate (exEnvOK 3600) exExpiredClient).trace ∧
    (exEnvOK 3600).httpClientDo exAuthCall = .ok ⟨200, "body"⟩ ∧
    (exEnvOK 3600).decodeToken "body" = .ok (mkToken "new" 3600) ∧
    (Authenticate (exEnvOK 3600) exExpiredClient).result = .ok (mkToken "new" 3600) ∧
    (Authenticate (exEnvOK 3600) exExpiredClient).client.token = some (mkToken "new" 3600) ∧
    (Authenticate (exEnvOK 3600) exExpiredClient).client.tokenExpiry = ⟨0 + 3600 * Second⟩ :=
  have h := Authenticate_success (exEnvOK 3600) exExpiredClient exAuthCall ⟨200, "body"⟩
    (mkToken "new" 3600) (by decide) rfl rfl rfl
  ⟨by decide, rfl, rfl, h.1, h.2.1, h.2.2.2.mpr ⟨by decide, by decide⟩⟩

/-- C7: when the request sent by `Authenticate` is answered with a status other
than 200, `Authenticate` returns no token but the error of the
`auth failed` site; its message is the text `auth failed with status`, the
decimal status code, a colon and the whole response body, so it contains the
status code and ends with the body, also when the body is empty; the client is
unchanged. -/
theorem Authenticate_non200 (env : Env) (c : Client) (req : HTTPRequest) (resp : HTTPResponse)
    (hsent : Event.authDo req ∈ (Authenticate env c).trace)
    (hresp : env.httpClientDo req = .ok resp) (hst : resp.StatusCode ≠ StatusOK) :
    (Authenticate env c).result = .error (.authFailed resp.StatusCode resp.Body) ∧
    (Err.authFailed resp.StatusCode resp.Body).Error
      = "auth failed with status " ++ toString resp.StatusCode ++ ": " ++ resp.Body ∧
    (toString resp.StatusCode).data <:+: (Err.authFailed resp.StatusCode resp.Body).Error.data ∧
    resp.Body.data <:+ (Err.authFailed resp.StatusCode resp.Body).Error.data ∧
    (resp.Body = "" → (Err.authFailed resp.StatusCode resp.Body).Error
      = "auth failed with status " ++ toString resp.StatusCode ++ ": ") ∧
    (Authenticate env c).client = c := by
  have hres : Authenticate env c
      = ⟨c, [.authenticate, .authDo req], .error (.authFailed resp.StatusCode resp.Body)⟩ := by
    rcases (Authenticate_of_sent env c req hsent).2 with ⟨x, h1, -⟩ | ⟨r, h1, h2, e⟩ |
      ⟨r, x, h1, h2, h3, -⟩ | ⟨r, q, h1, h2, h3, -⟩
    · rw [hresp] at h1; cases h1
    · rw [hresp] at h1; cases h1; exact e
    · rw [hresp] at h1; cases h1; exact absurd h2 hst
    · rw [hresp] at h1; cases h1; exact absurd h2 hst
  rw [hres]
  refine ⟨rfl, rfl, ?_, ?_, ?_, rfl⟩
  · simp only [Err.Error, String.data_append]
    exact ⟨"auth failed with status ".data, ": ".data ++ resp.Body.data, by simp⟩
  · simp only [Err.Error, String.data_append]
    exact List.suffix_append _ _
  · intro hb
    simp [Err.Error, hb]

theorem Authenticate_non200_witness :
    Event.authDo exAuthCall ∈ (Authenticate (exEnv401 "") (mkClient none 0)).trace ∧
    (exEnv401 "").httpClientDo exAuthCall = .ok ⟨401, ""⟩ ∧
    (Authenticate (exEnv401 "") (mkClient none 0)).result = .error (.authFailed 401 "") ∧
    (Err.authFailed 401 "").Error = "auth failed with status 401: " ∧
    (Authenticate (exEnv401 "") (mkClient none 0)).client = mkClient none 0 :=
  have h := Authenticate_non200 (exEnv401 "") (mkClient none 0) exAuthCall ⟨401, ""⟩
    (by decide) rfl (by decide)
  ⟨by decide, rfl, h.1, h.2.2.2.2.1 rfl, h.2.2.2.2.2⟩

/-! ## the GraphQL transport -/

theorem ensureToken_trace_no_graphql (env : Env) (c : Client) (r : HTTPRequest) :
    Event.graphqlDo r ∉ (ensureToken env c).trace := by
  by_cases hr : c.token = none ∨ c.tokenExpiry.ns < env.untilNow.ns + Minute
  · rw [ensureToken_refresh env c hr]
    rcases Authenticate_cases env c with ⟨-, e⟩ | ⟨_, e⟩ | ⟨_, _, -, e⟩ | ⟨_, _, -, -, e⟩ |
      ⟨_, _, _, -, -, -, e⟩ | ⟨_, _, _, -, -, -, e⟩ <;> rw [e] <;> simp
  · rw [ensureToken_keep env c hr]
    simp

/-- The ways in which `Do` ends: before sending the GraphQL request (token,
encoding or request construction failure), or after sending it, by what the
round trip returned. A nil-pointer panic does not occur. -/
theorem Do_cases {α : Type} (env : Env) (c : Client) (req : GraphQLRequest)
    (target : Option (String → Except String α)) :
    (∃ res, Do env c req target = ⟨(ensureToken env c).client, (ensureToken env c).trace, res⟩ ∧
      ((∃ err, (ensureToken env c).result = some err ∧ res = .error (.ensureToken err)) ∨
        (∃ e, res = .error (.marshalRequest e)) ∨ (∃ e, res = .error (.createRequest e)))) ∨
    (∃ r res, Do env c req target =
        ⟨(ensureToken env c).client, (ensureToken env c).trace ++ [.graphqlDo r], res⟩ ∧
      (ensureToken env c).result = none ∧
      ((∃ e, env.httpClientDo r = .error e ∧ res = .error (.doRequest e)) ∨
        (∃ resp, env.httpClientDo r = .ok resp ∧ resp.StatusCode ≠ StatusOK ∧
          res = .error (.requestFailed
            (if resp.Body.length > 0 then
              "request failed with status " ++ toString resp.StatusCode ++ (": " ++ resp.Body)
            else
              "request failed with status " ++ toString resp.StatusCode
                ++ " (empty response body)"))) ∨
        (∃ resp e, env.httpClientDo r = .ok resp ∧ resp.StatusCode = StatusOK ∧
          env.decodeEnvelope resp.Body = .error e ∧ res = .error (.decodeResponse e)) ∨
        (∃ resp g, env.httpClientDo r = .ok resp ∧ resp.StatusCode = StatusOK ∧
          env.decodeEnvelope resp.Body = .ok g ∧ g.Errors ≠ [] ∧
          res = .error (.graphqlErrors g.Errors)) ∨
        (∃ resp g, env.httpClientDo r = .ok resp ∧ resp.StatusCode = StatusOK ∧
          env.decodeEnvelope resp.Body = .ok g ∧ g.Errors = [] ∧ target = none ∧
          res = .ok none) ∨
        (∃ resp g u e, env.httpClientDo r = .ok resp ∧ resp.StatusCode = StatusOK ∧
          env.decodeEnvelope resp.Body = .ok g ∧ g.Errors = [] ∧ target = some u ∧
          u g.Data = .error e ∧ res = .error (.unmarshalData e)) ∨
        (∃ resp g u v, env.httpClientDo r = .ok resp ∧ resp.StatusCode = StatusOK ∧
          env.decodeEnvelope resp.Body = .ok g ∧ g.Errors = [] ∧ target = some u ∧
          u g.Data = .ok v ∧ res = .ok (some v)))) := by
  unfold Do
  dsimp only
  cases hres : (ensureToken env c).result with
  | some err => exact Or.inl ⟨_, rfl, Or.inl ⟨err, rfl, rfl⟩⟩
  | none =>
    dsimp only
    cases hm : env.marshal req with
    | error e => exact Or.inl ⟨_, rfl, Or.inr (Or.inl ⟨e, rfl⟩)⟩
    | ok body =>
      dsimp only
      cases hn : NewRequestWithContext env "POST"
        ((ensureToken env c).client.baseURL ++ GraphQLPath) body with
      | error e => exact Or.inl ⟨_, rfl, Or.inr (Or.inr ⟨e, rfl⟩)⟩
      | ok httpReq =>
        obtain ⟨t, ht⟩ := ensureToken_ok_token env c hres
        rw [ht]
        dsimp only
        right
        generalize hdo : env.httpClientDo _ = o
        cases o with
        | error e => exact ⟨_, _, rfl, rfl, Or.inl ⟨e, hdo, rfl⟩⟩
        | ok resp =>
          dsimp only
          by_cases hst : resp.StatusCode = StatusOK
          · rw [if_neg (not_not.mpr hst)]
            cases hde : env.decodeEnvelope resp.Body with
            | error e =>
              exact ⟨_, _, rfl, rfl, Or.inr (Or.inr (Or.inl ⟨resp, e, hdo, hst, hde, rfl⟩))⟩
            | ok g =>
              dsimp only
              by_cases herr : g.Errors = []
              · have hlen : ¬ g.Errors.length > 0 := by simp [herr]
                rw [if_neg hlen]
                cases target with
                | none =>
                  exact ⟨_, _, rfl, rfl, Or.inr (Or.inr (Or.inr (Or.inr (Or.inl
                    ⟨resp, g, hdo, hst, hde, herr, rfl, rfl⟩))))⟩
                | some u =>
                  dsimp only
                  cases hu : u g.Data with
                  | error e =>
                    exact ⟨_, _, rfl, rfl, Or.inr (Or.inr (Or.inr (Or.inr (Or.inr (Or.inl
                      ⟨resp, g, u, e, hdo, hst, hde, herr, rfl, hu, rfl⟩)))))⟩
                  | ok v =>
                    exact ⟨_, _, rfl, rfl, Or.inr (Or.inr (Or.inr (Or.inr (Or.inr (Or.inr
                      ⟨resp, g, u, v, hdo, hst, hde, herr, rfl, hu, rfl⟩)))))⟩
              · have hlen : g.Errors.length > 0 := List.length_pos.mpr herr
                rw [if_pos hlen]
                exact ⟨_, _, rfl, rfl, Or.inr (Or.inr (Or.inr (Or.inl
                  ⟨resp, g, hdo, hst, hde, herr, rfl⟩)))⟩
          · rw [if_pos hst]
            exact ⟨_, _, rfl, rfl, Or.inr (Or.inl ⟨resp, hdo, hst, by
              by_cases hb : resp.Body.length > 0 <;> simp [hb]⟩)⟩

theorem sent_unique (env : Env) (c : Client) (r r' : HTTPRequest)
    (h : Event.graphqlDo r ∈ (ensureToken env c).trace ++ [.graphqlDo r']) : r = r' := by
  rcases List.mem_append.mp h with h | h
  · exact absurd h (ensureToken_trace_no_graphql env c r)
  · simpa using h

/-- The effects of `Do` do not depend on the target. -/
theorem Do_trace_indep {α β : Type} (env : Env) (c : Client) (req : GraphQLRequest)
    (t1 : Option (String → Except String α)) (t2 : Option (String → Except String β)) :
    (Do env c req t1).trace = (Do env c req t2).trace := by
  unfold Do
  dsimp only
  cases (ensureToken env c).result with
  | some err => rfl
  | none =>
    dsimp only
    cases env.marshal req with
    | error e => rfl
    | ok body =>
      dsimp only
      cases NewRequestWithContext env "POST"
        ((ensureToken env c).client.baseURL ++ GraphQLPath) body with
      | error e => rfl
      | ok httpReq =>
        dsimp only
        cases (ensureToken env c).client.token with
        | none => rfl
        | some t =>
          dsimp only
          generalize env.httpClientDo _ = o
          cases o with
          | error e => rfl
          | ok resp =>
            dsimp only
            by_cases hst : resp.StatusCode = StatusOK
            · rw [if_neg (not_not.mpr hst), if_neg (not_not.mpr hst)]
              cases env.decodeEnvelope resp.Body with
              | error e => rfl
              | ok g =>
                dsimp only
                by_cases hlen : g.Errors.length > 0
                · rw [if_pos hlen, if_pos hlen]
                · rw [if_neg hlen, if_neg hlen]
                  cases t1 with
                  | none =>
                    cases t2 with
                    | none => rfl
                    | some u2 => dsimp only; cases u2 g.Data <;> rfl
                  | some u1 =>
                    cases t2 with
                    | none => dsimp only; cases u1 g.Data <;> rfl
                    | some u2 => dsimp only; cases u1 g.Data <;> cases u2 g.Data <;> rfl
            · rw [if_pos hst, if_pos hst]

/-- What `Do` returns once it has sent the request `r`, by what the round trip
returned. -/
theorem Do_of_sent {α : Type} (env : Env) (c : Client) (req : GraphQLRequest)
    (target : Option (String → Except String α)) (r : HTTPRequest)
    (hsent : Event.graphqlDo r ∈ (Do env c req target).trace) :
    (∃ e, env.httpClientDo r = .error e ∧ (Do env c req target).result = .error (.doRequest e)) ∨
    (∃ resp, env.httpClientDo r = .ok resp ∧ resp.StatusCode ≠ StatusOK ∧
      (Do env c req target).result = .error (.requestFailed
        (if resp.Body.length > 0 then
          "request failed with status " ++ toString resp.StatusCode ++ (": " ++ resp.Body)
        else
          "request failed with status " ++ toString resp.StatusCode
            ++ " (empty response body)"))) ∨
    (∃ resp e, env.httpClientDo r = .ok resp ∧ resp.StatusCode = StatusOK ∧
      env.decodeEnvelope resp.Body = .error e ∧
      (Do env c req target).result = .error (.decodeResponse e)) ∨
    (∃ resp g, env.httpClientDo r = .ok resp ∧ resp.StatusCode = StatusOK ∧
      env.decodeEnvelope resp.Body = .ok g ∧ g.Errors ≠ [] ∧
      (Do env c req target).result = .error (.graphqlErrors g.Errors)) ∨
    (∃ resp g, env.httpClientDo r = .ok resp ∧ resp.StatusCode = StatusOK ∧
      env.decodeEnvelope resp.Body = .ok g ∧ g.Errors = [] ∧ target = none ∧
      (Do env c req target).result = .ok none) ∨
    (∃ resp g u e, env.httpClientDo r = .ok resp ∧ resp.StatusCode = StatusOK ∧
      env.decodeEnvelope resp.Body = .ok g ∧ g.Errors = [] ∧ target = some u ∧
      u g.Data = .error e ∧ (Do env c req target).result = .error (.unmarshalData e)) ∨
    (∃ resp g u v, env.httpClientDo r = .ok resp ∧ resp.StatusCode = StatusOK ∧
      env.decodeEnvelope resp.Body = .ok g ∧ g.Errors = [] ∧ target = some u ∧
      u g.Data = .ok v ∧ (Do env c req target).result = .ok (some v)) := by
  rcases Do_cases env c req target with ⟨res, e, -⟩ | ⟨r', res, e, -, h⟩
  · rw [e] at hsent
    exact absurd hsent (ensureToken_trace_no_graphql env c r)
  · rw [e] at hsent
    have hr := sent_unique env c r r' hsent
    subst hr
    rw [e]
    exact h

/-- C8: when the GraphQL request sent by `Do` is answered with status 200 and a
body whose envelope has a non-empty `errors` list, `Do` returns the
`graphql errors` failure carrying that list. The result is the same for every
target and every content of the `data` field (absent, malformed or well-formed):
the payload is neither decoded nor returned. -/
theorem Do_graphql_errors {α : Type} (env : Env) (c : Client) (req : GraphQLRequest)
    (target : Option (String → Except String α)) (r : HTTPRequest) (resp : HTTPResponse)
    (g : GraphQLResponse) (hsent : Event.graphqlDo r ∈ (Do env c req target).trace)
    (hresp : env.httpClientDo r = .ok resp) (hst : resp.StatusCode = StatusOK)
    (hdec : env.decodeEnvelope resp.Body = .ok g) (herrs : g.Errors ≠ []) :
    (Do env c req target).result = .error (.graphqlErrors g.Errors) ∧
    ∀ (β : Type) (other : Option (String → Except String β)),
      (Do env c req other).result = .error (.graphqlErrors g.Errors) := by
  have key : ∀ (β : Type) (other : Option (String → Except String β)),
      (Do env c req other).result = .error (.graphqlErrors g.Errors) := by
    intro β other
    have hs : Event.graphqlDo r ∈ (Do env c req other).trace := by
      rw [Do_trace_indep env c req other target]
      exact hsent
    rcases Do_of_sent env c req other r hs with ⟨x, h1, -⟩ | ⟨q, h1, h2, -⟩ |
      ⟨q, x, h1, h2, h3, -⟩ | ⟨q, g', h1, h2, h3, h4, e⟩ | ⟨q, g', h1, h2, h3, h4, -⟩ |
      ⟨q, g', u, x, h1, h2, h3, h4, -⟩ | ⟨q, g', u, v, h1, h2, h3, h4, -⟩
    · rw [hresp] at h1; cases h1
    · rw [hresp] at h1; cases h1; exact absurd hst h2
    · rw [hresp] at h1; cases h1; rw [hdec] at h3; cases h3
    · rw [hresp] at h1; cases h1; rw [hdec] at h3; cases h3; exact e
    · rw [hresp] at h1; cases h1; rw [hdec] at h3; cases h3; exact absurd h4 herrs
    · rw [hresp] at h1; cases h1; rw [hdec] at h3; cases h3; exact absurd h4 herrs
    · rw [hresp] at h1; cases h1; rw [hdec] at h3; cases h3; exact absurd h4 herrs
  exact ⟨key α target, key⟩

/-- C9: when the GraphQL request sent by `Do` is answered with a status other
than 200, `Do` returns the `request failed` error; its message starts with
`request failed with status` and the decimal status code; for a non-empty body
it continues with a colon and the raw body, and for an empty body it is
followed by the text `(empty response body)` instead. -/
theorem Do_non200 {α : Type} (env : Env) (c : Client) (req : GraphQLRequest)
    (target : Option (String → Except String α)) (r : HTTPRequest) (resp : HTTPResponse)
    (hsent : Event.graphqlDo r ∈ (Do env c req target).trace)
    (hresp : env.httpClientDo r = .ok resp) (hst : resp.StatusCode ≠ StatusOK) :
    ∃ err, (Do env c req target).result = .error err ∧
      (∃ msg, err = .requestFailed msg) ∧
      ("request failed with status " ++ toString resp.StatusCode).data <+: err.Error.data ∧
      (toString resp.StatusCode).data <:+: err.Error.data ∧
      (0 < resp.Body.length →
        err.Error = "request failed with status " ++ toString resp.StatusCode ++ ": " ++ resp.Body ∧
          resp.Body.data <:+ err.Error.data) ∧
      (resp.Body.length = 0 →
        err.Error = "request failed with status " ++ toString resp.StatusCode
            ++ " (empty response body)" ∧
          "(empty response body)".data <:+: err.Error.data) := by
  rcases Do_of_sent env c req target r hsent with ⟨x, h1, -⟩ | ⟨q, h1, h2, e⟩ |
    ⟨q, x, h1, h2, h3, -⟩ | ⟨q, g', h1, h2, h3, h4, -⟩ | ⟨q, g', h1, h2, h3, h4, -⟩ |
    ⟨q, g', u, x, h1, h2, h3, h4, -⟩ | ⟨q, g', u, v, h1, h2, h3, h4, -⟩
  · rw [hresp] at h1; cases h1
  · rw [hresp] at h1; cases h1
    refine ⟨_, e, ⟨_, rfl⟩, ?_, ?_, ?_, ?_⟩
    · by_cases hb : 0 < resp.Body.length
      · simp only [Err.Error, gt_iff_lt, hb, if_true, String.data_append]
        exact List.prefix_append _ _
      · simp only [Err.Error, gt_iff_lt, hb, if_false, String.data_append]
        exact List.prefix_append _ _
    · by_cases hb : 0 < resp.Body.length
      · simp only [Err.Error, gt_iff_lt, hb, if_true, String.data_append]
        exact ⟨"request failed with status ".data, ": ".data ++ resp.Body.data, by simp⟩
      · simp only [Err.Error, gt_iff_lt, hb, if_false, String.data_append]
        exact ⟨"request failed with status ".data, " (empty response body)".data, by simp⟩
    · intro hb
      simp only [Err.Error, gt_iff_lt, hb, if_true, String.data_append]
      exact ⟨by simp [String.append_assoc],
        ⟨"request failed with status ".data ++ (toString resp.StatusCode).data ++ ": ".data,
          by simp⟩⟩
    · intro hb
      have hb' : ¬ 0 < resp.Body.length := by omega
      simp only [Err.Error, gt_iff_lt, hb', if_false, String.data_append]
      exact ⟨trivial, ("request failed with status ".data ++ (toString resp.StatusCode).data
        ++ " ".data), [], by simp⟩
  all_goals (rw [hresp] at h1; cases h1; exact absurd h2 hst)

theorem Do_graphql_errors_witness :
    Event.graphqlDo exGraphQLCall ∈ (Do (exEnvOK 3600) exClient exOperation exTarget).trace ∧
    (exEnvOK 3600).httpClientDo exGraphQLCall = .ok ⟨200, "body"⟩ ∧
    (exEnvOK 3600).decodeEnvelope "body" = .ok exErrorEnvelope ∧
    exErrorEnvelope.Errors ≠ [] ∧
    (Do (exEnvOK 3600) exClient exOperation exTarget).result
      = .error (.graphqlErrors exErrorEnvelope.Errors) ∧
    (Do (exEnvOK 3600) exClient exOperation (none : Option (String → Except String Nat))).result
      = .error (.graphqlErrors exErrorEnvelope.Errors) :=
  have h := Do_graphql_errors (exEnvOK 3600) exClient exOperation exTarget exGraphQLCall
    ⟨200, "body"⟩ exErrorEnvelope (by decide) rfl rfl rfl (by decide)
  ⟨by decide, rfl, rfl, by decide, h.1, h.2 Nat none⟩

theorem Do_non200_witness :
    Event.graphqlDo exGraphQLCall ∈ (Do (exEnv401 "") exClient exOperation exTarget).trace ∧
    (exEnv401 "").httpClientDo exGraphQLCall = .ok ⟨401, ""⟩ ∧
    ∃ err, (Do (exEnv401 "") exClient exOperation exTarget).result = .error err ∧
      err.Error = "request failed with status 401 (empty response body)" :=
  ⟨by decide, rfl,
    (Do_non200 (exEnv401 "") exClient exOperation exTarget exGraphQLCall ⟨401, ""⟩
      (by decide) rfl (by decide)).imp fun _ h => ⟨h.1, (h.2.2.2.2.2 rfl).1⟩⟩

/-- C10: `Do` classifies what the round trip returned by the first applicable
rule of the specification, in the order transport failure, status other than
200, undecodable envelope, non-empty errors list, undecodable data, and success
otherwise: whenever `Do` has sent the request `r`, the category of its result is
the one the reference classifier gives to the answer to `r`. When `Do` has sent
no request, it failed on the token check, on encoding the operation or on
building the request. -/
theorem Do_classification {α : Type} (env : Env) (c : Client) (req : GraphQLRequest)
    (target : Option (String → Except String α)) :
    (∀ r, Event.graphqlDo r ∈ (Do env c req target).trace →
      (Do env c req target).result.outcome
        = some (referenceClassify env target (env.httpClientDo r))) ∧
    ((∀ r, Event.graphqlDo r ∉ (Do env c req target).trace) →
      (∃ err, (Do env c req target).result = .error (.ensureToken err)) ∨
      (∃ e, (Do env c req target).result = .error (.marshalRequest e)) ∨
      (∃ e, (Do env c req target).result = .error (.createRequest e))) := by
  constructor
  · intro r hsent
    rcases Do_of_sent env c req target r hsent with ⟨x, h1, e⟩ | ⟨q, h1, h2, e⟩ |
      ⟨q, x, h1, h2, h3, e⟩ | ⟨q, g, h1, h2, h3, h4, e⟩ | ⟨q, g, h1, h2, h3, h4, h5, e⟩ |
      ⟨q, g, u, x, h1, h2, h3, h4, h5, h6, e⟩ | ⟨q, g, u, v, h1, h2, h3, h4, h5, h6, e⟩
    · rw [e, h1]
      rfl
    · rw [e, h1]
      simp only [StatusOK] at h2
      simp [DoResult.outcome, referenceClassify, ruleTransport, ruleStatus, h2]
    · rw [e, h1]
      simp only [StatusOK] at h2
      simp [DoResult.outcome, referenceClassify, ruleTransport, ruleStatus, ruleEnvelope, h2, h3]
    · rw [e, h1]
      simp only [StatusOK] at h2
      simp [DoResult.outcome, referenceClassify, ruleTransport, ruleStatus, ruleEnvelope,
        ruleErrors, h2, h3, h4]
    · rw [e, h1, h5]
      simp only [StatusOK] at h2
      simp [DoResult.outcome, referenceClassify, ruleTransport, ruleStatus, ruleEnvelope,
        ruleErrors, ruleData, decodedPayload, h2, h3, h4]
    · rw [e, h1, h5]
      simp only [StatusOK] at h2
      simp [DoResult.outcome, referenceClassify, ruleTransport, ruleStatus, ruleEnvelope,
        ruleErrors, ruleData, h2, h3, h4, h6]
    · rw [e, h1, h5]
      simp only [StatusOK] at h2
      simp [DoResult.outcome, referenceClassify, ruleTransport, ruleStatus, ruleEnvelope,
        ruleErrors, ruleData, decodedPayload, Except.toOption, h2, h3, h4, h6]
  · intro hnone
    rcases Do_cases env c req target with ⟨res, e, h⟩ | ⟨r, res, e, -, -⟩
    · rw [e]
      rcases h with ⟨err, -, h⟩ | ⟨x, h⟩ | ⟨x, h⟩
      · exact Or.inl ⟨err, h⟩
      · exact Or.inr (Or.inl ⟨x, h⟩)
      · exact Or.inr (Or.inr ⟨x, h⟩)
    · exact absurd (by rw [e]; simp) (hnone r)

theorem Do_classification_witness :
    Event.graphqlDo exGraphQLCall ∈
      (Do (exEnv401 "Unauthorized") exClient exOperation exTarget).trace ∧
    (exEnv401 "Unauthorized").decodeEnvelope "Unauthorized" = .ok exErrorEnvelope ∧
    (Do (exEnv401 "Unauthorized") exClient exOperation exTarget).result.outcome
      = some .httpError :=
  ⟨by decide, rfl,
    ((Do_classification (exEnv401 "Unauthorized") exClient exOperation exTarget).1
      exGraphQLCall (by decide)).trans (by decide)⟩

/-! ## preconditions and headers of `Do` -/

theorem Do_of_ensureToken_error {α : Type} (env : Env) (c : Client) (req : GraphQLRequest)
    (target : Option (String → Except String α)) (err : Err)
    (h : (ensureToken env c).result = some err) :
    Do env c req target
      = ⟨(ensureToken env c).client, (ensureToken env c).trace, .error (.ensureToken err)⟩ := by
  unfold Do
  simp only [h]

theorem Authenticate_no_config (env : Env) (c : Client) (h : c.authConfig = none) :
    Authenticate env c = ⟨c, [.authenticate], .error .authConfigNotSet⟩ := by
  unfold Authenticate
  simp only [h]

/-- The token check changes at most the stored token and its expiry. -/
theorem ensureToken_client (env : Env) (c : Client) :
    (ensureToken env c).client
      = { c with token := (ensureToken env c).client.token,
                 tokenExpiry := (ensureToken env c).client.tokenExpiry } := by
  by_cases hr : c.token = none ∨ c.tokenExpiry.ns < env.untilNow.ns + Minute
  · rw [ensureToken_refresh env c hr]
    rcases Authenticate_cases env c with ⟨-, e⟩ | ⟨_, e⟩ | ⟨_, _, -, e⟩ | ⟨_, _, -, -, e⟩ |
      ⟨_, _, _, -, -, -, e⟩ | ⟨_, _, _, -, -, -, e⟩ <;> rw [e]
  · rw [ensureToken_keep env c hr]

theorem header_chain (c : Client) (tok : TokenResponse) (url body : String) :
    (let httpReq : HTTPRequest := { Method := "POST", URL := url, Header := [], Body := body }
     let httpReq := httpReq.SetHeader "Content-Type" "application/json"
     let httpReq := httpReq.SetHeader "Authorization" ("Bearer " ++ tok.AccessToken)
     let httpReq := if c.schoolID ≠ "" then httpReq.SetHeader "schoolid" c.schoolID
       else httpReq
     let httpReq := if c.userRole ≠ "" then httpReq.SetHeader "userrole" c.userRole
       else httpReq
     let httpReq :=
       if c.eduProductID ≠ "" then httpReq.SetHeader "x-edu-product-id" c.eduProductID
       else httpReq
     let httpReq :=
       if c.eduOrgUnitID ≠ "" then httpReq.SetHeader "x-edu-org-unit-id" c.eduOrgUnitID
       else httpReq
     httpReq) =
    ({ Method := "POST", URL := url, Body := body,
       Header := [("Content-Type", "application/json"),
          ("Authorization", "Bearer " ++ tok.AccessToken)]
        ++ (if c.schoolID ≠ "" then [("schoolid", c.schoolID)] else [])
        ++ (if c.userRole ≠ "" then [("userrole", c.userRole)] else [])
        ++ (if c.eduProductID ≠ "" then [("x-edu-product-id", c.eduProductID)] else [])
        ++ (if c.eduOrgUnitID ≠ "" then [("x-edu-org-unit-id", c.eduOrgUnitID)] else []) } :
      HTTPRequest) := by
  by_cases h1 : c.schoolID = "" <;> by_cases h2 : c.userRole = "" <;>
    by_cases h3 : c.eduProductID = "" <;> by_cases h4 : c.eduOrgUnitID = "" <;>
    simp [HTTPRequest.SetHeader, h1, h2, h3, h4]

/-- The request that `Do` sends: a POST to the GraphQL endpoint with the encoded
operation as its body and the headers set in order. -/
theorem Do_sent_request {α : Type} (env : Env) (c : Client) (req : GraphQLRequest)
    (target : Option (String → Except String α)) (r : HTTPRequest)
    (hsent : Event.graphqlDo r ∈ (Do env c req target).trace) :
    ∃ body tok, (ensureToken env c).result = none ∧ env.marshal req = .ok body ∧
      (ensureToken env c).client.token = some tok ∧
      (Do env c req target).client = (ensureToken env c).client ∧
      (Do env c req target).trace = (ensureToken env c).trace ++ [.graphqlDo r] ∧
      r = { Method := "POST", URL := (ensureToken env c).client.baseURL ++ GraphQLPath,
            Body := body,
            Header := [("Content-Type", "application/json"),
                ("Authorization", "Bearer " ++ tok.AccessToken)]
              ++ (if (ensureToken env c).client.schoolID ≠ "" then
                    [("schoolid", (ensureToken env c).client.schoolID)] else [])
              ++ (if (ensureToken env c).client.userRole ≠ "" then
                    [("userrole", (ensureToken env c).client.userRole)] else [])
              ++ (if (ensureToken env c).client.eduProductID ≠ "" then
                    [("x-edu-product-id", (ensureToken env c).client.eduProductID)] else [])
              ++ (if (ensureToken env c).client.eduOrgUnitID ≠ "" then
                    [("x-edu-org-unit-id", (ensureToken env c).client.eduOrgUnitID)]
                  else []) } := by
  rcases Do_cases env c req target with ⟨res, e, -⟩ | ⟨r', res, e, hres, -⟩
  · rw [e] at hsent
    exact absurd hsent (ensureToken_trace_no_graphql env c r)
  · rw [e] at hsent
    have hr := sent_unique env c r r' hsent
    subst hr
    obtain ⟨t, ht⟩ := ensureToken_ok_token env c hres
    have e2 := e
    unfold Do at e2
    simp only [hres, ht] at e2
    cases hm : env.marshal req with
    | error x =>
      simp only [hm] at e2
      have := congrArg Step.trace e2
      simp at this
    | ok body =>
      simp only [hm] at e2
      unfold NewRequestWithContext at e2
      cases hu : env.urlError ((ensureToken env c).client.baseURL ++ GraphQLPath) with
      | some x =>
        simp only [hu] at e2
        have := congrArg Step.trace e2
        simp at this
      | none =>
        simp only [hu] at e2
        refine ⟨body, t, hres, rfl, ht, by rw [e], by rw [e], ?_⟩
        rw [← header_chain (ensureToken env c).client t
          ((ensureToken env c).client.baseURL ++ GraphQLPath) body]
        have h3 := congrArg Step.trace e2
        clear e2 e hsent
        generalize env.httpClientDo _ = o at h3
        have h4 : ∀ (x y : HTTPRequest),
            (ensureToken env c).trace ++ [Event.graphqlDo x]
              = (ensureToken env c).trace ++ [Event.graphqlDo y] → y = x := by
          intro x y h
          simpa using (List.append_cancel_left h).symm
        cases o with
        | error x => exact h4 _ _ h3
        | ok resp =>
          dsimp only at h3
          by_cases hst : resp.StatusCode = StatusOK
          · rw [if_neg (not_not.mpr hst)] at h3
            cases hde : env.decodeEnvelope resp.Body with
            | error x => rw [hde] at h3; exact h4 _ _ h3
            | ok g =>
              rw [hde] at h3
              dsimp only at h3
              by_cases hlen : g.Errors.length > 0
              · rw [if_pos hlen] at h3; exact h4 _ _ h3
              · rw [if_neg hlen] at h3
                cases target with
                | none => exact h4 _ _ h3
                | some u =>
                  dsimp only at h3
                  cases hu : u g.Data <;> rw [hu] at h3 <;> exact h4 _ _ h3
          · rw [if_pos hst] at h3
            exact h4 _ _ h3

/-- The token check leaves every field but the token and its expiry as it was. -/
theorem ensureToken_client_fields (env : Env) (c : Client) :
    (ensureToken env c).client.baseURL = c.baseURL ∧
    (ensureToken env c).client.authURL = c.authURL ∧
    (ensureToken env c).client.authConfig = c.authConfig ∧
    (ensureToken env c).client.schoolID = c.schoolID ∧
    (ensureToken env c).client.userRole = c.userRole ∧
    (ensureToken env c).client.eduProductID = c.eduProductID ∧
    (ensureToken env c).client.eduOrgUnitID = c.eduOrgUnitID := by
  have h := ensureToken_client env c
  refine ⟨?_, ?_, ?_, ?_, ?_, ?_, ?_⟩ <;> rw [h]

/-- A successful token check that called `Authenticate` stored the payload
decoded from the answer of that round. -/
theorem ensureToken_refreshed (env : Env) (c : Client)
    (hok : (ensureToken env c).result = none)
    (hcalls : authCalls (ensureToken env c).trace = 1) :
    ∃ areq resp p, (ensureToken env c).trace = [.authenticate, .authDo areq] ∧
      env.httpClientDo areq = .ok resp ∧ resp.StatusCode = StatusOK ∧
      env.decodeToken resp.Body = .ok p ∧
      (ensureToken env c).client =
        { c with
          token := some p
          tokenExpiry := env.now.Add (wrapInt64 (p.ExpiresIn * Second)) } := by
  by_cases hr : c.token = none ∨ c.tokenExpiry.ns < env.untilNow.ns + Minute
  · rw [ensureToken_refresh env c hr] at hok ⊢
    rcases Authenticate_cases env c with ⟨-, e⟩ | ⟨_, e⟩ | ⟨_, _, -, e⟩ | ⟨_, _, -, -, e⟩ |
      ⟨_, _, _, -, -, -, e⟩ | ⟨r, resp, p, h1, h2, h3, e⟩ <;> rw [e] at hok ⊢
    · simp at hok
    · simp at hok
    · simp at hok
    · simp at hok
    · simp at hok
    · exact ⟨r, resp, p, rfl, h1, h2, h3, rfl⟩
  · rw [ensureToken_keep env c hr] at hcalls
    simp [authCalls] at hcalls

/-- C11, as stated, fails for a client that holds a valid token: no credentials
were configured, `SetToken` installed a token with a far expiry, and `Do` skips
the configuration check, sends the GraphQL request and succeeds. -/
theorem Do_no_config_valid_token_sends :
    exNoConfigClient.authConfig = none ∧
    Event.graphqlDo exGraphQLCall ∈ (Do exEnvData exNoConfigClient exOperation exTarget).trace ∧
    (Do exEnvData exNoConfigClient exOperation exTarget).result = .ok (some 0) := by
  decide

/-- C11 (amended): on a client without credentials whose token is unset or
expires less than one minute after now, `Do` fails at once with the
configuration error (`ensure token: auth config not set`), its only effect being
the call of `Authenticate`: no authentication request and no GraphQL request is
sent, and the client is unchanged. On a client without credentials that holds a
token still valid for a minute or more, `Do` makes no call of `Authenticate` and
does not return the configuration error. -/
theorem Do_no_config {α : Type} (env : Env) (c : Client) (req : GraphQLRequest)
    (target : Option (String → Except String α)) (hcfg : c.authConfig = none) :
    ((c.token = none ∨ c.tokenExpiry.ns < env.untilNow.ns + Minute) →
      (Do env c req target).result = .error (.ensureToken .authConfigNotSet) ∧
      (Err.ensureToken .authConfigNotSet).Error = "ensure token: auth config not set" ∧
      (Do env c req target).trace = [.authenticate] ∧
      (∀ r, Event.graphqlDo r ∉ (Do env c req target).trace) ∧
      (∀ r, Event.authDo r ∉ (Do env c req target).trace) ∧
      (Do env c req target).client = c) ∧
    ((c.token ≠ none ∧ env.untilNow.ns + Minute ≤ c.tokenExpiry.ns) →
      authCalls (Do env c req target).trace = 0 ∧
      (Do env c req target).result ≠ .error (.ensureToken .authConfigNotSet)) := by
  constructor
  · intro hstale
    have he : ensureToken env c = ⟨c, [.authenticate], some .authConfigNotSet⟩ := by
      rw [ensureToken_refresh env c hstale, Authenticate_no_config env c hcfg]
    have hd := Do_of_ensureToken_error env c req target .authConfigNotSet (by rw [he])
    rw [hd, he]
    refine ⟨rfl, by decide, rfl, ?_, ?_, rfl⟩ <;> intro r <;> simp
  · rintro ⟨hset, hexp⟩
    have hr : ¬ (c.token = none ∨ c.tokenExpiry.ns < env.untilNow.ns + Minute) := by
      rintro (h | h)
      · exact hset h
      · omega
    have he := ensureToken_keep env c hr
    rcases Do_cases env c req target with ⟨res, e, h⟩ | ⟨r, res, e, -, h⟩
    · rw [e, he]
      refine ⟨rfl, ?_⟩
      rcases h with ⟨err, h1, -⟩ | ⟨x, h⟩ | ⟨x, h⟩
      · rw [he] at h1; cases h1
      · rw [h]; simp
      · rw [h]; simp
    · rw [e, he]
      refine ⟨by simp [authCalls], ?_⟩
      rcases h with ⟨x, -, h⟩ | ⟨q, -, -, h⟩ | ⟨q, x, -, -, -, h⟩ | ⟨q, g, -, -, -, -, h⟩ |
        ⟨q, g, -, -, -, -, -, h⟩ | ⟨q, g, u, x, -, -, -, -, -, -, h⟩ |
        ⟨q, g, u, v, -, -, -, -, -, -, h⟩ <;> rw [h] <;> simp

theorem Do_no_config_witness :
    (NewClient none []).authConfig = none ∧ (NewClient none []).token = none ∧
    (Do exEnvData (NewClient none []) exOperation exTarget).result
      = .error (.ensureToken .authConfigNotSet) ∧
    (Do exEnvData (NewClient none []) exOperation exTarget).trace = [.authenticate] :=
  have h := (Do_no_config exEnvData (NewClient none []) exOperation exTarget rfl).1 (Or.inl rfl)
  ⟨rfl, rfl, h.1, h.2.2.1⟩

/-- The context headers of the request that `Do` sends, from the fields of the
client: an entry for a header, holding the field, exactly when the field is not
empty. -/
theorem Do_headers_of_fields {α : Type} (env : Env) (c : Client) (req : GraphQLRequest)
    (target : Option (String → Except String α)) (r : HTTPRequest)
    (hsent : Event.graphqlDo r ∈ (Do env c req target).trace) :
    ((∀ v, ("schoolid", v) ∈ r.Header ↔ (c.schoolID ≠ "" ∧ v = c.schoolID)) ∧
      r.GetHeader "schoolid" = if c.schoolID ≠ "" then some c.schoolID else none) ∧
    ((∀ v, ("userrole", v) ∈ r.Header ↔ (c.userRole ≠ "" ∧ v = c.userRole)) ∧
      r.GetHeader "userrole" = if c.userRole ≠ "" then some c.userRole else none) ∧
    ((∀ v, ("x-edu-product-id", v) ∈ r.Header ↔ (c.eduProductID ≠ "" ∧ v = c.eduProductID)) ∧
      r.GetHeader "x-edu-product-id"
        = if c.eduProductID ≠ "" then some c.eduProductID else none) ∧
    ((∀ v, ("x-edu-org-unit-id", v) ∈ r.Header ↔
        (c.eduOrgUnitID ≠ "" ∧ v = c.eduOrgUnitID)) ∧
      r.GetHeader "x-edu-org-unit-id"
        = if c.eduOrgUnitID ≠ "" then some c.eduOrgUnitID else none) := by
  obtain ⟨body, tok, -, -, -, -, -, hr⟩ := Do_sent_request env c req target r hsent
  obtain ⟨-, -, -, h1, h2, h3, h4⟩ := ensureToken_client_fields env c
  rw [h1, h2, h3, h4] at hr
  subst hr
  by_cases e1 : c.schoolID = "" <;> by_cases e2 : c.userRole = "" <;>
    by_cases e3 : c.eduProductID = "" <;> by_cases e4 : c.eduOrgUnitID = "" <;>
    simp [HTTPRequest.GetHeader, e1, e2, e3, e4]

/-- The fields that the options leave on the client: each context field holds
the argument of the last call of its option, and the value it had before when
there is no such call. -/
theorem options_fold (calls : List OptionCall) (c0 : Client) :
    ((calls.map OptionCall.option).foldl (fun c opt => opt c) c0).schoolID
      = (configured OptionCall.schoolID? calls).getD c0.schoolID ∧
    ((calls.map OptionCall.option).foldl (fun c opt => opt c) c0).userRole
      = (configured OptionCall.userRole? calls).getD c0.userRole ∧
    ((calls.map OptionCall.option).foldl (fun c opt => opt c) c0).eduProductID
      = (configured OptionCall.eduProductID? calls).getD c0.eduProductID ∧
    ((calls.map OptionCall.option).foldl (fun c opt => opt c) c0).eduOrgUnitID
      = (configured OptionCall.eduOrgUnitID? calls).getD c0.eduOrgUnitID := by
  induction calls generalizing c0 with
  | nil => exact ⟨rfl, rfl, rfl, rfl⟩
  | cons call calls ih =>
    have h := ih (call.option c0)
    simp only [List.map_cons, List.foldl_cons]
    simp only [configured] at h ⊢
    rw [h.1, h.2.1, h.2.2.1, h.2.2.2]
    cases call <;>
      simp [List.filterMap_cons, OptionCall.option, OptionCall.schoolID?, OptionCall.userRole?,
        OptionCall.eduProductID?, OptionCall.eduOrgUnitID?, WithBaseURL, WithAuthURL,
        WithSchoolID, WithUserRole, WithEduProductID, WithEduOrgUnitID, List.getLast?_cons]

/-- The context fields of a client built by `NewClient` from option calls, on
which `SetToken` may have been called. -/
theorem NewClient_fields (authConfig : Option AuthConfig) (calls : List OptionCall)
    (token : Option TokenResponse) (expiry : Time) :
    (SetToken (NewClient authConfig (calls.map OptionCall.option)) token expiry).schoolID
      = (configured OptionCall.schoolID? calls).getD "" ∧
    (SetToken (NewClient authConfig (calls.map OptionCall.option)) token expiry).userRole
      = (configured OptionCall.userRole? calls).getD "" ∧
    (SetToken (NewClient authConfig (calls.map OptionCall.option)) token expiry).eduProductID
      = (configured OptionCall.eduProductID? calls).getD "" ∧
    (SetToken (NewClient authConfig (calls.map OptionCall.option)) token expiry).eduOrgUnitID
      = (configured OptionCall.eduOrgUnitID? calls).getD "" := by
  have h := options_fold calls
    { baseURL := DefaultBaseURL, authURL := DefaultAuthURL, authConfig := authConfig,
      token := none, tokenExpiry := zeroTime, schoolID := "", userRole := "",
      eduProductID := "", eduOrgUnitID := "" }
  exact h

/-- A header entry for a field that holds the configured value or is empty. -/
theorem header_iff_configured (field v : String) (conf : Option String)
    (h : field = conf.getD "") :
    ((field ≠ "" ∧ v = field) ↔ (conf = some v ∧ v ≠ "")) ∧
    (if field ≠ "" then some field else none) = conf.filter fun w => decide (w ≠ "") := by
  subst h
  cases conf with
  | none => simp
  | some w =>
    by_cases hw : w = ""
    · subst hw
      refine ⟨?_, ?_⟩
      · simp only [Option.getD_some, ne_eq, not_true_eq_false, false_and, Option.some.injEq,
          false_iff, not_and, not_not]
        intro h
        exact h.symm
      · simp [Option.filter]
    · refine ⟨?_, ?_⟩
      · simp only [Option.getD_some, ne_eq, hw, not_false_eq_true, true_and, Option.some.injEq]
        constructor
        · rintro rfl
          exact ⟨rfl, hw⟩
        · rintro ⟨rfl, -⟩
          rfl
      · simp [Option.filter, hw]

/-- C12: take a client built by `NewClient` with any list of calls of the option
constructors (and any credentials), on which `SetToken` may have been called.
For each of the four context headers independently, the request that `Do` sends
has an entry for the header, holding exactly the configured value, if and only
if the option of that header was configured with a non-empty value (the last
call of an option counts); otherwise, when the option was not configured or was
configured with the empty string, the request has no entry for that header at
all, so the header is never sent with an empty value. -/
theorem Do_context_headers {α : Type} (env : Env) (authConfig : Option AuthConfig)
    (calls : List OptionCall) (token : Option TokenResponse) (expiry : Time)
    (req : GraphQLRequest) (target : Option (String → Except String α)) (r : HTTPRequest)
    (hsent : Event.graphqlDo r ∈
      (Do env (SetToken (NewClient authConfig (calls.map OptionCall.option)) token expiry)
        req target).trace) :
    ((∀ v, ("schoolid", v) ∈ r.Header ↔
        (configured OptionCall.schoolID? calls = some v ∧ v ≠ "")) ∧
      r.GetHeader "schoolid"
        = (configured OptionCall.schoolID? calls).filter fun v => decide (v ≠ "")) ∧
    ((∀ v, ("userrole", v) ∈ r.Header ↔
        (configured OptionCall.userRole? calls = some v ∧ v ≠ "")) ∧
      r.GetHeader "userrole"
        = (configured OptionCall.userRole? calls).filter fun v => decide (v ≠ "")) ∧
    ((∀ v, ("x-edu-product-id", v) ∈ r.Header ↔
        (configured OptionCall.eduProductID? calls = some v ∧ v ≠ "")) ∧
      r.GetHeader "x-edu-product-id"
        = (configured OptionCall.eduProductID? calls).filter fun v => decide (v ≠ "")) ∧
    ((∀ v, ("x-edu-org-unit-id", v) ∈ r.Header ↔
        (configured OptionCall.eduOrgUnitID? calls = some v ∧ v ≠ "")) ∧
      r.GetHeader "x-edu-org-unit-id"
        = (configured OptionCall.eduOrgUnitID? calls).filter fun v => decide (v ≠ "")) := by
  obtain ⟨⟨a1, a2⟩, ⟨b1, b2⟩, ⟨c1, c2⟩, ⟨d1, d2⟩⟩ := Do_headers_of_fields env _ req target r hsent
  obtain ⟨f1, f2, f3, f4⟩ := NewClient_fields authConfig calls token expiry
  refine ⟨⟨fun v => ?_, ?_⟩, ⟨fun v => ?_, ?_⟩, ⟨fun v => ?_, ?_⟩, ⟨fun v => ?_, ?_⟩⟩
  · exact (a1 v).trans (header_iff_configured _ v _ f1).1
  · exact a2.trans (header_iff_configured _ "" _ f1).2
  · exact (b1 v).trans (header_iff_configured _ v _ f2).1
  · exact b2.trans (header_iff_configured _ "" _ f2).2
  · exact (c1 v).trans (header_iff_configured _ v _ f3).1
  · exact c2.trans (header_iff_configured _ "" _ f3).2
  · exact (d1 v).trans (header_iff_configured _ v _ f4).1
  · exact d2.trans (header_iff_configured _ "" _ f4).2

theorem Do_context_headers_witness :
    Event.graphqlDo exProductCall ∈
      (Do exEnvData
        (SetToken (NewClient (some ⟨"test@example.com", "testpass"⟩)
          (exOptionCalls.map OptionCall.option)) (some (mkToken "mock-token" 3600))
          ⟨3600000000000⟩)
        exOperation exTarget).trace ∧
    exProductCall.GetHeader "schoolid" = some "school-1" ∧
    exProductCall.GetHeader "userrole" = none ∧
    exProductCall.GetHeader "x-edu-product-id" = some "product-7" ∧
    exProductCall.GetHeader "x-edu-org-unit-id" = none :=
  have h := Do_context_headers exEnvData (some ⟨"test@example.com", "testpass"⟩) exOptionCalls
    (some (mkToken "mock-token" 3600)) ⟨3600000000000⟩ exOperation exTarget exProductCall
    (by decide)
  ⟨by decide, h.1.2.trans (by decide), h.2.1.2.trans (by decide), h.2.2.1.2.trans (by decide),
    h.2.2.2.2.trans (by decide)⟩

/-- C13: every request that `Do` sends has `Content-Type: application/json` and
`Authorization: Bearer` followed by the access token of the token stored on the
client after the token check (which is the token stored when `Do` returns). When
the check called `Authenticate`, that token is the payload decoded from the
answer of that authentication round; when it did not, it is the token the client
already held. -/
theorem Do_authorization_header {α : Type} (env : Env) (c : Client) (req : GraphQLRequest)
    (target : Option (String → Except String α)) (r : HTTPRequest)
    (hsent : Event.graphqlDo r ∈ (Do env c req target).trace) :
    ∃ tok, (ensureToken env c).client.token = some tok ∧
      (Do env c req target).client.token = some tok ∧
      r.GetHeader "Content-Type" = some "application/json" ∧
      (∀ v, ("Content-Type", v) ∈ r.Header ↔ v = "application/json") ∧
      r.GetHeader "Authorization" = some ("Bearer " ++ tok.AccessToken) ∧
      (∀ v, ("Authorization", v) ∈ r.Header ↔ v = "Bearer " ++ tok.AccessToken) ∧
      (authCalls (Do env c req target).trace = 1 →
        ∃ areq resp, Event.authDo areq ∈ (Do env c req target).trace ∧
          env.httpClientDo areq = .ok resp ∧ resp.StatusCode = StatusOK ∧
          env.decodeToken resp.Body = .ok tok) ∧
      (authCalls (Do env c req target).trace = 0 → c.token = some tok) := by
  obtain ⟨body, tok, hok, -, htok, hcl, htr, hr⟩ := Do_sent_request env c req target r hsent
  have hcount : authCalls (Do env c req target).trace = authCalls (ensureToken env c).trace := by
    rw [htr]
    simp [authCalls]
  refine ⟨tok, htok, by rw [hcl]; exact htok, ?_, ?_, ?_, ?_, ?_, ?_⟩
  · subst hr
    simp [HTTPRequest.GetHeader]
  · subst hr
    intro v
    by_cases e1 : (ensureToken env c).client.schoolID = "" <;>
      by_cases e2 : (ensureToken env c).client.userRole = "" <;>
      by_cases e3 : (ensureToken env c).client.eduProductID = "" <;>
      by_cases e4 : (ensureToken env c).client.eduOrgUnitID = "" <;>
      simp [e1, e2, e3, e4]
  · subst hr
    simp [HTTPRequest.GetHeader]
  · subst hr
    intro v
    by_cases e1 : (ensureToken env c).client.schoolID = "" <;>
      by_cases e2 : (ensureToken env c).client.userRole = "" <;>
      by_cases e3 : (ensureToken env c).client.eduProductID = "" <;>
      by_cases e4 : (ensureToken env c).client.eduOrgUnitID = "" <;>
      simp [e1, e2, e3, e4]
  · intro h1
    rw [hcount] at h1
    obtain ⟨areq, resp, p, e1, e2, e3, e4, e5⟩ := ensureToken_refreshed env c hok h1
    have hp : tok = p := by
      rw [e5] at htok
      exact (Option.some.inj htok).symm
    subst hp
    refine ⟨areq, resp, ?_, e2, e3, e4⟩
    rw [htr, e1]
    simp
  · intro h0
    rw [hcount] at h0
    have hr' : ¬ (c.token = none ∨ c.tokenExpiry.ns < env.untilNow.ns + Minute) := by
      intro hr'
      rw [ensureToken_refresh env c hr', authCalls_Authenticate] at h0
      exact absurd h0 (by decide)
    rw [ensureToken_keep env c hr'] at htok
    exact htok

theorem Do_authorization_header_witness :
    Event.graphqlDo exReauthCall ∈ (Do exEnvData exExpiredClient exOperation exTarget).trace ∧
    exExpiredClient.token = some (mkToken "old" 3600) ∧
    ∃ tok, (Do exEnvData exExpiredClient exOperation exTarget).client.token = some tok ∧
      exReauthCall.GetHeader "Authorization" = some ("Bearer " ++ tok.AccessToken) ∧
      tok.AccessToken = "new" :=
  ⟨by decide, rfl,
    (Do_authorization_header exEnvData exExpiredClient exOperation exTarget exReauthCall
      (by decide)).imp fun _ h =>
        ⟨h.2.1, h.2.2.2.2.1,
          congrArg TokenResponse.AccessToken (Option.some.inj (h.2.1.symm.trans
            (show (Do exEnvData exExpiredClient exOperation exTarget).client.token
              = some (mkToken "new" 3600) by decide)))⟩⟩

/-- C14: when the token is unset or expires less than one minute after now and
the call of `Authenticate` made by the token check fails, with whatever error
(transport failure or timeout, status other than 200, undecodable body), `Do`
fails with that error wrapped as `ensure token`, sends no GraphQL request, hence
none with the stale token, leaves the client unchanged, and has called
`Authenticate` exactly once, with at most one authentication request sent. -/
theorem Do_auth_failure {α : Type} (env : Env) (c : Client) (req : GraphQLRequest)
    (target : Option (String → Except String α)) (err : Err)
    (hstale : c.token = none ∨ c.tokenExpiry.ns < env.untilNow.ns + Minute)
    (hfail : (Authenticate env c).result = .error err) :
    (Do env c req target).result = .error (.ensureToken err) ∧
    (∀ r, Event.graphqlDo r ∉ (Do env c req target).trace) ∧
    authCalls (Do env c req target).trace = 1 ∧
    ((Do env c req target).trace = [.authenticate] ∨
      ∃ areq, (Do env c req target).trace = [.authenticate, .authDo areq]) ∧
    (Do env c req target).client = c := by
  have he := ensureToken_refresh env c hstale
  have hres : (ensureToken env c).result = some err := by
    rw [he, hfail]
  have hd := Do_of_ensureToken_error env c req target err hres
  rw [hd]
  refine ⟨rfl, fun r => ensureToken_trace_no_graphql env c r, ?_, ?_, ?_⟩
  · rw [he]
    exact authCalls_Authenticate env c
  · rw [he]
    rcases Authenticate_cases env c with ⟨-, e⟩ | ⟨_, e⟩ | ⟨q, _, -, e⟩ | ⟨q, _, -, -, e⟩ |
      ⟨q, _, _, -, -, -, e⟩ | ⟨q, _, _, -, -, -, e⟩ <;> rw [e]
    · exact Or.inl rfl
    · exact Or.inl rfl
    · exact Or.inr ⟨q, rfl⟩
    · exact Or.inr ⟨q, rfl⟩
    · exact Or.inr ⟨q, rfl⟩
    · exact Or.inr ⟨q, rfl⟩
  · rw [he]
    rcases Authenticate_cases env c with ⟨-, e⟩ | ⟨_, e⟩ | ⟨q, _, -, e⟩ | ⟨q, _, -, -, e⟩ |
      ⟨q, _, _, -, -, -, e⟩ | ⟨q, _, _, -, -, -, e⟩ <;> rw [e] at hfail ⊢
    simp at hfail

theorem Do_auth_failure_witness :
    exExpiredClient.tokenExpiry.ns < exEnvDown.untilNow.ns + Minute ∧
    (Authenticate exEnvDown exExpiredClient).result = .error (.doRequest "down") ∧
    (Do exEnvDown exExpiredClient exOperation exTarget).result
      = .error (.ensureToken (.doRequest "down")) ∧
    (Do exEnvDown exExpiredClient exOperation exTarget).trace
      = [.authenticate, .authDo exAuthCall] ∧
    (Do exEnvDown exExpiredClient exOperation exTarget).client = exExpiredClient :=
  have h := Do_auth_failure exEnvDown exExpiredClient exOperation exTarget (.doRequest "down")
    (Or.inr (by decide)) rfl
  ⟨by decide, rfl, h.1, by decide, h.2.2.2.2⟩

/-! ## the review-slot projection -/

/-- A loop that appends one element per iteration maps the list. -/
theorem foldl_append_singleton {α β : Type} (f : α → β) (xs : List α) (init : List β) :
    xs.foldl (fun acc x => acc ++ [f x]) init = init ++ xs.map f := by
  induction xs generalizing init with
  | nil => simp
  | cons x xs ih => simp [ih]

/-- A loop that appends the elements passing a test filters the list. -/
theorem foldl_append_if {α : Type} (p : α → Bool) (xs : List α) (init : List α) :
    xs.foldl (fun acc x => if p x then acc ++ [x] else acc) init = init ++ xs.filter p := by
  induction xs generalizing init with
  | nil => simp
  | cons x xs ih =>
    by_cases hx : p x <;> simp [ih, hx]

theorem school_short_name (s : String) : (if s != "" then s else "") = s := by
  by_cases h : s = "" <;> simp [h]

/-- The two nested loops of `GetReviewSlots` compute the projection. -/
theorem review_loop (lib : Lib) (events : List CalendarEvent)
    (init : List ReviewSlot × List ReviewBooking) :
    events.foldl
      (fun (acc : List ReviewSlot × List ReviewBooking) event =>
        if event.EventCode != "student_check" then acc
        else
          let slots := event.EventSlots.foldl
            (fun (slots : List ReviewSlot) slot =>
              let start := timeParse lib slot.Start
              let stop := timeParse lib slot.End
              let schoolShortName :=
                if slot.School.ShortName != "" then slot.School.ShortName else ""
              let reviewSlot : ReviewSlot :=
                { ID := slot.ID, Start := start, End := stop, «Type» := slot.«Type»,
                  IsOnline := false, VCLink := none, School := schoolShortName }
              slots ++ [reviewSlot])
            acc.1
          let bookings := event.Bookings.foldl
            (fun (bookings : List ReviewBooking) booking =>
              let start := timeParse lib booking.EventSlot.Start
              let stop := timeParse lib booking.EventSlot.End
              let reviewBooking : ReviewBooking :=
                { ID := booking.ID, SlotID := booking.EventSlot.ID, Start := start, End := stop,
                  ProjectName := booking.Task.GoalName,
                  VerifierLogin := booking.VerifierUser.Login, IsOnline := booking.IsOnline,
                  Status := booking.BookingStatus }
              bookings ++ [reviewBooking])
            acc.2
          (slots, bookings))
      init
    = (init.1 ++ projectedSlots lib events, init.2 ++ projectedBookings lib events) := by
  induction events generalizing init with
  | nil => simp [projectedSlots, projectedBookings]
  | cons event events ih =>
    rw [List.foldl_cons, ih]
    by_cases hcode : event.EventCode = "student_check"
    · have h1 := foldl_append_singleton (projectSlot lib) event.EventSlots init.1
      have h2 := foldl_append_singleton (projectBooking lib) event.Bookings init.2
      simp only [projectSlot, projectBooking] at h1 h2
      simp only [school_short_name, hcode, bne_self_eq_false, Bool.false_eq_true, if_false, h1, h2,
        projectedSlots, projectedBookings, isReviewEvent, List.filter_cons, beq_self_eq_true,
        if_true, List.flatMap_cons, List.append_assoc, projectSlot, projectBooking]
    · have hb : (event.EventCode != "student_check") = true := by simpa using hcode
      have hb2 : (event.EventCode == "student_check") = false := by simpa using hcode
      simp only [hb, if_true, projectedSlots, projectedBookings, isReviewEvent, List.filter_cons,
        hb2, Bool.false_eq_true, if_false]

/-- The result of `GetReviewSlots` when the calendar query succeeds. -/
theorem GetReviewSlots_ok (lib : Lib) (env : Env) (c : Client) (start stop : Time)
    (data : GetMyCalendarEventsData)
    (hq : (GetCalendarEvents lib env c (lib.Format start) (lib.Format stop)).result = .ok data) :
    (GetReviewSlots lib env c start stop).result
      = .ok (projectedSlots lib data.CalendarEventS21.GetMyCalendarEvents,
          projectedBookings lib data.CalendarEventS21.GetMyCalendarEvents) := by
  unfold GetReviewSlots
  simp only [hq, review_loop, List.nil_append]

/-- The result of `GetReviewSlots` is a pair of lists only when the calendar
query succeeds. -/
theorem GetReviewSlots_ok_inv (lib : Lib) (env : Env) (c : Client) (start stop : Time)
    (slots : List ReviewSlot) (bookings : List ReviewBooking)
    (h : (GetReviewSlots lib env c start stop).result = .ok (slots, bookings)) :
    ∃ data,
      (GetCalendarEvents lib env c (lib.Format start) (lib.Format stop)).result = .ok data ∧
      slots = projectedSlots lib data.CalendarEventS21.GetMyCalendarEvents ∧
      bookings = projectedBookings lib data.CalendarEventS21.GetMyCalendarEvents := by
  cases hq : (GetCalendarEvents lib env c (lib.Format start) (lib.Format stop)).result with
  | panic =>
    unfold GetReviewSlots at h
    simp [hq] at h
  | error err =>
    unfold GetReviewSlots at h
    simp [hq] at h
  | ok data =>
    rw [GetReviewSlots_ok lib env c start stop data hq] at h
    simp only [CallResult.ok.injEq, Prod.mk.injEq] at h
    exact ⟨data, rfl, h.1.symm, h.2.symm⟩

/-- C15: when the calendar query returns a list of events, the slots that
`GetReviewSlots` returns are the concatenation, in event order, of the projected
`EventSlots` (in their order) of exactly the events whose event code is
`student_check`: other events contribute nothing, the number of slots is the sum
of the slot counts of the review events, and nothing is sorted. The projection
copies id, type and school short name of the event slot. -/
theorem GetReviewSlots_slots (lib : Lib) (env : Env) (c : Client) (start stop : Time)
    (data : GetMyCalendarEventsData)
    (hq : (GetCalendarEvents lib env c (lib.Format start) (lib.Format stop)).result = .ok data) :
    ∃ slots bookings, (GetReviewSlots lib env c start stop).result = .ok (slots, bookings) ∧
      slots = (data.CalendarEventS21.GetMyCalendarEvents.filter
          fun event => event.EventCode == "student_check").flatMap
        (fun event => event.EventSlots.map (projectSlot lib)) ∧
      slots.length = ((data.CalendarEventS21.GetMyCalendarEvents.filter
          fun event => event.EventCode == "student_check").map
        fun event => event.EventSlots.length).sum ∧
      ∀ slot, (projectSlot lib slot).ID = slot.ID ∧
        (projectSlot lib slot).«Type» = slot.«Type» ∧
        (projectSlot lib slot).School = slot.School.ShortName := by
  refine ⟨_, _, GetReviewSlots_ok lib env c start stop data hq, rfl, ?_, fun slot => ⟨rfl, rfl, rfl⟩⟩
  unfold projectedSlots isReviewEvent
  generalize (data.CalendarEventS21.GetMyCalendarEvents.filter
    fun event => event.EventCode == "student_check") = evs
  induction evs with
  | nil => rfl
  | cons e es ih => simp [List.flatMap_cons, ih]

theorem GetReviewSlots_slots_witness :
    (GetCalendarEvents (mkLib exEvents) exEnvData exClient
      ((mkLib exEvents).Format ⟨0⟩) ((mkLib exEvents).Format ⟨1⟩)).result
      = .ok ⟨⟨exEvents, ""⟩⟩ ∧
    ∃ slots bookings,
      (GetReviewSlots (mkLib exEvents) exEnvData exClient ⟨0⟩ ⟨1⟩).result = .ok (slots, bookings) ∧
      slots = [projectSlot (mkLib exEvents) (mkSlot "slot-1" "FREE_TIME")] :=
  ⟨by decide,
    (GetReviewSlots_slots (mkLib exEvents) exEnvData exClient ⟨0⟩ ⟨1⟩ ⟨⟨exEvents, ""⟩⟩
      (by decide)).imp fun _ h => h.imp fun _ h => ⟨h.1, h.2.1.trans (by decide)⟩⟩

/-- C16: when the calendar query returns a list of events, the bookings that
`GetReviewSlots` returns are the concatenation, in event order and then in
booking order, of the projected `Bookings` of exactly the events whose event
code is `student_check`. A projected booking takes its id from the booking, slot
id, start and end from the event slot of the booking, project name from the goal
name of the task, verifier login from the verifier user, online flag and status
from the booking. On the two-event example of the specification the result is
the one slot `slot-1` of type `FREE_TIME` and the one booking `booking-1` of
project `libft`. -/
theorem GetReviewSlots_bookings (lib : Lib) (env : Env) (c : Client) (start stop : Time)
    (data : GetMyCalendarEventsData)
    (hq : (GetCalendarEvents lib env c (lib.Format start) (lib.Format stop)).result = .ok data) :
    (∃ slots bookings, (GetReviewSlots lib env c start stop).result = .ok (slots, bookings) ∧
      bookings = (data.CalendarEventS21.GetMyCalendarEvents.filter
          fun event => event.EventCode == "student_check").flatMap
        (fun event => event.Bookings.map (projectBooking lib)) ∧
      ∀ b, (projectBooking lib b).ID = b.ID ∧
        (projectBooking lib b).SlotID = b.EventSlot.ID ∧
        (projectBooking lib b).Start = timeParse lib b.EventSlot.Start ∧
        (projectBooking lib b).End = timeParse lib b.EventSlot.End ∧
        (projectBooking lib b).ProjectName = b.Task.GoalName ∧
        (projectBooking lib b).VerifierLogin = b.VerifierUser.Login ∧
        (projectBooking lib b).IsOnline = b.IsOnline ∧
        (projectBooking lib b).Status = b.BookingStatus) ∧
    (GetReviewSlots (mkLib exEvents) exEnvData exClient ⟨0⟩ ⟨1⟩).result
      = .ok ([⟨"slot-1", ⟨1000⟩, ⟨2800⟩, "FREE_TIME", false, none, "21 Kazan"⟩],
          [⟨"booking-1", "slot-9", ⟨1000⟩, ⟨2800⟩, "libft", "jdoe", true, "BOOKED"⟩]) := by
  refine ⟨⟨_, _, GetReviewSlots_ok lib env c start stop data hq, rfl,
    fun b => ⟨rfl, rfl, rfl, rfl, rfl, rfl, rfl, rfl⟩⟩, ?_⟩
  decide

theorem GetReviewSlots_bookings_witness :
    (GetCalendarEvents (mkLib exEvents) exEnvData exClient
      ((mkLib exEvents).Format ⟨0⟩) ((mkLib exEvents).Format ⟨1⟩)).result
      = .ok ⟨⟨exEvents, ""⟩⟩ ∧
    ∃ slots bookings,
      (GetReviewSlots (mkLib exEvents) exEnvData exClient ⟨0⟩ ⟨1⟩).result = .ok (slots, bookings) ∧
      bookings = [projectBooking (mkLib exEvents) (mkBooking "booking-1" "libft" "jdoe")] :=
  ⟨by decide,
    (GetReviewSlots_bookings (mkLib exEvents) exEnvData exClient ⟨0⟩ ⟨1⟩ ⟨⟨exEvents, ""⟩⟩
      (by decide)).1.imp fun _ h => h.imp fun _ h => ⟨h.1, h.2.1.trans (by decide)⟩⟩

/-- The nested loops of `AddReviewSlot` compute the slot projection. -/
theorem add_loop (lib : Lib) (events : List CalendarEvent) (init : List ReviewSlot) :
    events.foldl
      (fun (slots : List ReviewSlot) event =>
        if event.EventCode != "student_check" then slots
        else
          event.EventSlots.foldl
            (fun (slots : List ReviewSlot) slot =>
              let s := timeParse lib slot.Start
              let e := timeParse lib slot.End
              let schoolShortName :=
                if slot.School.ShortName != "" then slot.School.ShortName else ""
              let reviewSlot : ReviewSlot :=
                { ID := slot.ID, Start := s, End := e, «Type» := slot.«Type»,
                  IsOnline := false, VCLink := none, School := schoolShortName }
              slots ++ [reviewSlot])
            slots)
      init
    = init ++ projectedSlots lib events := by
  induction events generalizing init with
  | nil => simp [projectedSlots]
  | cons event events ih =>
    rw [List.foldl_cons, ih]
    by_cases hcode : event.EventCode = "student_check"
    · have h1 := foldl_append_singleton (projectSlot lib) event.EventSlots init
      simp only [projectSlot] at h1
      simp only [school_short_name, hcode, bne_self_eq_false, Bool.false_eq_true, if_false, h1,
        projectedSlots, isReviewEvent, List.filter_cons, beq_self_eq_true,
        if_true, List.flatMap_cons, List.append_assoc, projectSlot]
    · have hb : (event.EventCode != "student_check") = true := by simpa using hcode
      have hb2 : (event.EventCode == "student_check") = false := by simpa using hcode
      simp only [hb, if_true, projectedSlots, isReviewEvent, List.filter_cons,
        hb2, Bool.false_eq_true, if_false]

/-- The slots that `AddReviewSlot` returns are the slot projection of the
events echoed by the mutation. -/
theorem AddReviewSlot_ok_inv (lib : Lib) (env : Env) (c : Client) (start stop : Time)
    (slots : List ReviewSlot) (h : (AddReviewSlot lib env c start stop).result = .ok slots) :
    ∃ data,
      (AddEventToTimetable lib env c (lib.Format start) (lib.Format stop)).result = .ok data ∧
      slots = projectedSlots lib data.Student.AddEventToTimetable := by
  unfold AddReviewSlot at h
  cases hq : (AddEventToTimetable lib env c (lib.Format start) (lib.Format stop)).result with
  | panic => simp [hq] at h
  | error err => simp [hq] at h
  | ok data =>
    simp only [hq, add_loop, List.nil_append, CallResult.ok.injEq] at h
    exact ⟨data, rfl, h.symm⟩

/-- The result of `GetAvailableReviewSlots`, from that of `GetReviewSlots`. -/
theorem GetAvailableReviewSlots_ok (lib : Lib) (env : Env) (c : Client) (start stop : Time)
    (slots : List ReviewSlot) (bookings : List ReviewBooking)
    (h : (GetReviewSlots lib env c start stop).result = .ok (slots, bookings)) :
    (GetAvailableReviewSlots lib env c start stop).result
      = .ok (slots.filter fun slot => slot.«Type» == "FREE_TIME") := by
  unfold GetAvailableReviewSlots
  simp only [h, foldl_append_if, List.nil_append]

theorem GetAvailableReviewSlots_ok_inv (lib : Lib) (env : Env) (c : Client) (start stop : Time)
    (available : List ReviewSlot)
    (h : (GetAvailableReviewSlots lib env c start stop).result = .ok available) :
    ∃ slots bookings, (GetReviewSlots lib env c start stop).result = .ok (slots, bookings) ∧
      available = slots.filter fun slot => slot.«Type» == "FREE_TIME" := by
  cases hq : (GetReviewSlots lib env c start stop).result with
  | panic =>
    unfold GetAvailableReviewSlots at h
    simp [hq] at h
  | error err =>
    unfold GetAvailableReviewSlots at h
    simp [hq] at h
  | ok value =>
    obtain ⟨slots, bookings⟩ := value
    rw [GetAvailableReviewSlots_ok lib env c start stop slots bookings hq] at h
    exact ⟨slots, bookings, rfl, (CallResult.ok.inj h).symm⟩

/-- A slot found by the search loop of `UpdateReviewSlot` is the projection of
a slot of the list whose id is the requested one. -/
theorem scan_ok (lib : Lib) (slotID : String) (l : List CalendarTimeSlot) (slot : ReviewSlot)
    (h : UpdateReviewSlot.scan lib slotID l = .ok slot) :
    ∃ event ∈ l, event.ID = slotID ∧ slot = projectSlot lib event := by
  induction l with
  | nil => simp [UpdateReviewSlot.scan] at h
  | cons x xs ih =>
    unfold UpdateReviewSlot.scan at h
    by_cases hx : x.ID = slotID
    · simp only [hx, beq_self_eq_true, if_true, school_short_name, Except.ok.injEq] at h
      exact ⟨x, List.mem_cons_self _ _, hx, by rw [← h, projectSlot, hx]⟩
    · have hb : (x.ID == slotID) = false := by simpa using hx
      simp only [hb, Bool.false_eq_true, if_false] at h
      obtain ⟨e, he, h1, h2⟩ := ih h
      exact ⟨e, List.mem_cons_of_mem _ he, h1, h2⟩

theorem UpdateReviewSlot_ok_inv (lib : Lib) (env : Env) (c : Client) (slotID : String)
    (start stop : Time) (slot : ReviewSlot)
    (h : (UpdateReviewSlot lib env c slotID start stop).result = .ok slot) :
    ∃ data,
      (ChangeEventSlot lib env c slotID (lib.Format start) (lib.Format stop)).result = .ok data ∧
      UpdateReviewSlot.scan lib slotID data.Student.ChangeEventSlot.EventSlots = .ok slot := by
  unfold UpdateReviewSlot at h
  cases hq : (ChangeEventSlot lib env c slotID (lib.Format start) (lib.Format stop)).result with
  | panic => simp [hq] at h
  | error err => simp [hq] at h
  | ok data =>
    simp only [hq] at h
    cases hs : UpdateReviewSlot.scan lib slotID data.Student.ChangeEventSlot.EventSlots with
    | error err => simp [hs] at h
    | ok found =>
      simp only [hs, CallResult.ok.injEq] at h
      exact ⟨data, rfl, by rw [hs, h]⟩

theorem projectedSlots_offline (lib : Lib) (events : List CalendarEvent) (s : ReviewSlot)
    (h : s ∈ projectedSlots lib events) : s.IsOnline = false ∧ s.VCLink = none := by
  simp only [projectedSlots, List.mem_flatMap, List.mem_map] at h
  obtain ⟨e, -, slot, -, rfl⟩ := h
  exact ⟨rfl, rfl⟩

/-- C17: every ReviewSlot returned by `GetReviewSlots`,
`GetAvailableReviewSlots`, `AddReviewSlot` or `UpdateReviewSlot` has its online
flag equal to false and no video-conference link, whatever the events hold. -/
theorem review_slots_offline (lib : Lib) (env : Env) (c : Client) (slotID : String)
    (start stop : Time) :
    (∀ slots bookings, (GetReviewSlots lib env c start stop).result = .ok (slots, bookings) →
      ∀ s ∈ slots, s.IsOnline = false ∧ s.VCLink = none) ∧
    (∀ slots, (GetAvailableReviewSlots lib env c start stop).result = .ok slots →
      ∀ s ∈ slots, s.IsOnline = false ∧ s.VCLink = none) ∧
    (∀ slots, (AddReviewSlot lib env c start stop).result = .ok slots →
      ∀ s ∈ slots, s.IsOnline = false ∧ s.VCLink = none) ∧
    (∀ slot, (UpdateReviewSlot lib env c slotID start stop).result = .ok slot →
      slot.IsOnline = false ∧ slot.VCLink = none) := by
  refine ⟨?_, ?_, ?_, ?_⟩
  · intro slots bookings h s hs
    obtain ⟨data, -, rfl, -⟩ := GetReviewSlots_ok_inv lib env c start stop slots bookings h
    exact projectedSlots_offline lib _ s hs
  · intro available h s hs
    obtain ⟨slots, bookings, hq, rfl⟩ :=
      GetAvailableReviewSlots_ok_inv lib env c start stop available h
    obtain ⟨data, -, rfl, -⟩ := GetReviewSlots_ok_inv lib env c start stop slots bookings hq
    exact projectedSlots_offline lib _ s (List.mem_of_mem_filter hs)
  · intro slots h s hs
    obtain ⟨data, -, rfl⟩ := AddReviewSlot_ok_inv lib env c start stop slots h
    exact projectedSlots_offline lib _ s hs
  · intro slot h
    obtain ⟨data, -, hs⟩ := UpdateReviewSlot_ok_inv lib env c slotID start stop slot h
    obtain ⟨e, -, -, rfl⟩ := scan_ok lib slotID _ slot hs
    exact ⟨rfl, rfl⟩

theorem review_slots_offline_witness :
    (GetReviewSlots (mkLib exEvents) exEnvData exClient ⟨0⟩ ⟨1⟩).result
      = .ok ([projectSlot (mkLib exEvents) (mkSlot "slot-1" "FREE_TIME")],
          [projectBooking (mkLib exEvents) (mkBooking "booking-1" "libft" "jdoe")]) ∧
    (projectSlot (mkLib exEvents) (mkSlot "slot-1" "FREE_TIME")).IsOnline = false ∧
    (projectSlot (mkLib exEvents) (mkSlot "slot-1" "FREE_TIME")).VCLink = none ∧
    (UpdateReviewSlot (mkLib exEvents) exEnvData exClient "slot-1" ⟨0⟩ ⟨1⟩).result
      = .ok (projectSlot (mkLib exEvents) (mkSlot "slot-1" "FREE_TIME")) :=
  have h := review_slots_offline (mkLib exEvents) exEnvData exClient "slot-1" ⟨0⟩ ⟨1⟩
  ⟨by decide,
    (h.1 [projectSlot (mkLib exEvents) (mkSlot "slot-1" "FREE_TIME")]
      [projectBooking (mkLib exEvents) (mkBooking "booking-1" "libft" "jdoe")] (by decide) _
      (List.mem_singleton.mpr rfl)).1,
    (h.2.2.2 _ (show (UpdateReviewSlot (mkLib exEvents) exEnvData exClient "slot-1" ⟨0⟩
      ⟨1⟩).result = .ok (projectSlot (mkLib exEvents) (mkSlot "slot-1" "FREE_TIME"))
      by decide)).2,
    by decide⟩

/-- C18: when `GetReviewSlots` returns the slots `slots`,
`GetAvailableReviewSlots` returns the sub-sequence of `slots` made of the slots
whose type is `FREE_TIME`: every returned slot has that type, every `FREE_TIME`
slot is returned as many times as it occurs in `slots`, and the relative order
is that of `slots`. -/
theorem GetAvailableReviewSlots_free (lib : Lib) (env : Env) (c : Client) (start stop : Time)
    (slots : List ReviewSlot) (bookings : List ReviewBooking)
    (h : (GetReviewSlots lib env c start stop).result = .ok (slots, bookings)) :
    ∃ available, (GetAvailableReviewSlots lib env c start stop).result = .ok available ∧
      available = slots.filter (fun slot => slot.«Type» == "FREE_TIME") ∧
      (∀ s ∈ available, s.«Type» = "FREE_TIME") ∧
      (∀ s, s.«Type» = "FREE_TIME" → available.count s = slots.count s) ∧
      (∀ s, s.«Type» ≠ "FREE_TIME" → s ∉ available) ∧
      available.Sublist slots := by
  refine ⟨_, GetAvailableReviewSlots_ok lib env c start stop slots bookings h, rfl, ?_, ?_, ?_,
    List.filter_sublist _⟩
  · intro s hs
    simpa using (List.mem_filter.mp hs).2
  · intro s hs
    exact List.count_filter (by simpa using hs)
  · intro s hs hmem
    exact hs (by simpa using (List.mem_filter.mp hmem).2)

/-! ## deduplication of bookings -/

/-- The loop of `GetBookedReviews` keeps the first occurrences. -/
theorem booked_loop (bs : List ReviewBooking) (seen : String → Bool) (earlier : List String)
    (acc : List ReviewBooking) (hseen : ∀ k, seen k = true ↔ k ∈ earlier) :
    (bs.foldl
      (fun (st : (String → Bool) × List ReviewBooking) b =>
        let seen := st.1
        let result := st.2
        if !seen b.ID then
          ((fun k => if k = b.ID then true else seen k), result ++ [b])
        else (seen, result))
      (seen, acc)).2 = acc ++ firstOccurrences earlier bs := by
  induction bs generalizing seen earlier acc with
  | nil => simp [firstOccurrences]
  | cons b rest ih =>
    rw [List.foldl_cons]
    by_cases hb : seen b.ID = true
    · have hmem : b.ID ∈ earlier := (hseen _).mp hb
      simp only [hb, Bool.not_true, Bool.false_eq_true, if_false, firstOccurrences, hmem, if_true]
      exact ih seen earlier acc hseen
    · have hmem : b.ID ∉ earlier := fun h => hb ((hseen _).mpr h)
      have hb' : seen b.ID = false := by simpa using hb
      simp only [hb', Bool.not_false, if_true, firstOccurrences, hmem, if_false]
      rw [ih _ (b.ID :: earlier) (acc ++ [b])]
      · simp
      · intro k
        by_cases hk : k = b.ID
        · simp [hk]
        · simp [hk, hseen]

theorem firstOccurrences_sublist (earlier : List String) (bs : List ReviewBooking) :
    (firstOccurrences earlier bs).Sublist bs := by
  induction bs generalizing earlier with
  | nil => simp [firstOccurrences]
  | cons b rest ih =>
    unfold firstOccurrences
    split
    · exact (ih earlier).cons b
    · exact (ih _).cons₂ b

theorem firstOccurrences_not_earlier (earlier : List String) (bs : List ReviewBooking)
    (x : ReviewBooking) (hx : x ∈ firstOccurrences earlier bs) : x.ID ∉ earlier := by
  induction bs generalizing earlier with
  | nil => simp [firstOccurrences] at hx
  | cons b rest ih =>
    unfold firstOccurrences at hx
    split at hx
    · exact ih earlier hx
    · rename_i hb
      rcases List.mem_cons.mp hx with rfl | h
      · exact hb
      · exact fun hmem => ih _ h (List.mem_cons_of_mem _ hmem)

theorem firstOccurrences_nodup (earlier : List String) (bs : List ReviewBooking) :
    ((firstOccurrences earlier bs).map fun b => b.ID).Nodup := by
  induction bs generalizing earlier with
  | nil => simp [firstOccurrences]
  | cons b rest ih =>
    unfold firstOccurrences
    split
    · exact ih earlier
    · rw [List.map_cons, List.nodup_cons]
      refine ⟨?_, ih _⟩
      intro hmem
      obtain ⟨x, hx, hid⟩ := List.mem_map.mp hmem
      exact firstOccurrences_not_earlier _ rest x hx (by simp [hid])

theorem firstOccurrences_find (earlier : List String) (bs : List ReviewBooking) (id : String)
    (hid : id ∉ earlier) :
    (firstOccurrences earlier bs).find? (fun b => b.ID == id) = bs.find? fun b => b.ID == id := by
  induction bs generalizing earlier with
  | nil => simp [firstOccurrences]
  | cons b rest ih =>
    unfold firstOccurrences
    by_cases hb : b.ID = id
    · have hne : b.ID ∉ earlier := hb ▸ hid
      rw [if_neg hne, List.find?_cons, List.find?_cons]
      simp [hb]
    · have hbeq : (b.ID == id) = false := by simpa using hb
      split
      · rw [ih earlier hid, List.find?_cons, hbeq]
      · rw [List.find?_cons, hbeq, List.find?_cons, hbeq]
        exact ih _ (by simp [hid, Ne.symm hb])

theorem firstIndex_cons (id : String) (b : ReviewBooking) (rest : List ReviewBooking) :
    firstIndex id (b :: rest) = if b.ID = id then 0 else firstIndex id rest + 1 := by
  unfold firstIndex
  rw [List.findIdx_cons]
  by_cases h : b.ID = id
  · simp [h]
  · have hbeq : (b.ID == id) = false := by simpa using h
    simp [h, hbeq]

theorem firstOccurrences_order (earlier : List String) (bs : List ReviewBooking) :
    (firstOccurrences earlier bs).Pairwise
      fun x y => firstIndex x.ID bs < firstIndex y.ID bs := by
  induction bs generalizing earlier with
  | nil => simp [firstOccurrences]
  | cons b rest ih =>
    unfold firstOccurrences
    split
    · rename_i hb
      refine (ih earlier).imp_of_mem ?_
      intro x y hx hy hlt
      have hx' : b.ID ≠ x.ID := fun h =>
        firstOccurrences_not_earlier earlier rest x hx (h ▸ hb)
      have hy' : b.ID ≠ y.ID := fun h =>
        firstOccurrences_not_earlier earlier rest y hy (h ▸ hb)
      rw [firstIndex_cons, firstIndex_cons, if_neg hx', if_neg hy']
      omega
    · rw [List.pairwise_cons]
      constructor
      · intro y hy
        have hy' : b.ID ≠ y.ID := fun h =>
          firstOccurrences_not_earlier _ rest y hy (by simp [h])
        rw [firstIndex_cons, firstIndex_cons, if_pos rfl, if_neg hy']
        omega
      · refine (ih _).imp_of_mem ?_
        intro x y hx hy hlt
        have hx' : b.ID ≠ x.ID := fun h =>
          firstOccurrences_not_earlier _ rest x hx (by simp [h])
        have hy' : b.ID ≠ y.ID := fun h =>
          firstOccurrences_not_earlier _ rest y hy (by simp [h])
        rw [firstIndex_cons, firstIndex_cons, if_neg hx', if_neg hy']
        omega

theorem firstOccurrences_ids (earlier : List String) (bs : List ReviewBooking) (id : String) :
    id ∈ (firstOccurrences earlier bs).map (fun b => b.ID) ↔
      id ∈ bs.map (fun b => b.ID) ∧ id ∉ earlier := by
  constructor
  · intro h
    obtain ⟨x, hx, rfl⟩ := List.mem_map.mp h
    exact ⟨List.mem_map.mpr ⟨x, (firstOccurrences_sublist earlier bs).subset hx, rfl⟩,
      firstOccurrences_not_earlier earlier bs x hx⟩
  · rintro ⟨h, hid⟩
    obtain ⟨x, hx, hxid⟩ := List.mem_map.mp h
    have hsome : (bs.find? fun b => b.ID == id).isSome = true :=
      List.find?_isSome.mpr ⟨x, hx, by simp [hxid]⟩
    rw [← firstOccurrences_find earlier bs id hid] at hsome
    obtain ⟨y, hy, hyid⟩ := List.find?_isSome.mp hsome
    exact List.mem_map.mpr ⟨y, hy, by simpa using hyid⟩

theorem firstOccurrences_index (earlier : List String) (bs : List ReviewBooking) (id : String)
    (hid : id ∉ earlier) (hmem : id ∈ bs.map fun b => b.ID) :
    firstIndex id (firstOccurrences earlier bs)
      = (firstOccurrences earlier (bs.take (firstIndex id bs))).length := by
  induction bs generalizing earlier with
  | nil => simp at hmem
  | cons b rest ih =>
    by_cases hb : b.ID = id
    · have hne : b.ID ∉ earlier := hb ▸ hid
      rw [firstIndex_cons id b rest, if_pos hb]
      unfold firstOccurrences
      rw [if_neg hne, firstIndex_cons, if_pos hb]
      rfl
    · have hrest : id ∈ rest.map fun b => b.ID := by
        rcases List.mem_cons.mp (by simpa using hmem : id ∈ b.ID :: rest.map fun b => b.ID)
          with h | h
        · exact absurd h.symm hb
        · exact h
      rw [firstIndex_cons id b rest, if_neg hb, List.take_succ_cons]
      unfold firstOccurrences
      by_cases he : b.ID ∈ earlier
      · rw [if_pos he, if_pos he]
        exact ih earlier hid hrest
      · rw [if_neg he, if_neg he, firstIndex_cons, if_neg hb, List.length_cons]
        rw [ih (b.ID :: earlier) (by simp [hid, Ne.symm hb]) hrest]

theorem firstOccurrences_length (bs : List ReviewBooking) :
    (firstOccurrences [] bs).length = (bs.map fun b => b.ID).dedup.length := by
  have hperm : ((firstOccurrences [] bs).map fun b => b.ID).Perm (bs.map fun b => b.ID).dedup := by
    rw [List.perm_ext_iff_of_nodup (firstOccurrences_nodup [] bs) (List.nodup_dedup _)]
    intro k
    rw [firstOccurrences_ids, List.mem_dedup]
    simp
  simpa using hperm.length_eq

/-- The result of `GetBookedReviews`, from that of `GetReviewSlots`. -/
theorem GetBookedReviews_ok (lib : Lib) (env : Env) (c : Client) (start stop : Time)
    (slots : List ReviewSlot) (bookings : List ReviewBooking)
    (h : (GetReviewSlots lib env c start stop).result = .ok (slots, bookings)) :
    (GetBookedReviews lib env c start stop).result = .ok (firstOccurrences [] bookings) := by
  unfold GetBookedReviews
  simp only [h]
  rw [booked_loop bookings (fun _ => false) [] [] (by simp)]
  simp

/-- C19: when `GetReviewSlots` returns the bookings `bookings`,
`GetBookedReviews` returns a sub-sequence of `bookings` whose ids are pairwise
distinct, in which every id of `bookings` occurs exactly once, in which the entry
with a given id is the first entry of `bookings` with that id, and whose entries
are in the order of their first occurrences in `bookings`. -/
theorem GetBookedReviews_dedup (lib : Lib) (env : Env) (c : Client) (start stop : Time)
    (slots : List ReviewSlot) (bookings : List ReviewBooking)
    (h : (GetReviewSlots lib env c start stop).result = .ok (slots, bookings)) :
    ∃ result, (GetBookedReviews lib env c start stop).result = .ok result ∧
      result.Sublist bookings ∧
      (result.map fun b => b.ID).Nodup ∧
      (∀ b ∈ bookings, (result.map fun b => b.ID).count b.ID = 1) ∧
      (∀ id, result.find? (fun b => b.ID == id) = bookings.find? fun b => b.ID == id) ∧
      result.Pairwise fun x y => firstIndex x.ID bookings < firstIndex y.ID bookings := by
  refine ⟨_, GetBookedReviews_ok lib env c start stop slots bookings h,
    firstOccurrences_sublist [] bookings, firstOccurrences_nodup [] bookings, ?_,
    fun id => firstOccurrences_find [] bookings id (by simp),
    firstOccurrences_order [] bookings⟩
  intro b hb
  refine List.count_eq_one_of_mem (firstOccurrences_nodup [] bookings) ?_
  rw [firstOccurrences_ids]
  exact ⟨List.mem_map.mpr ⟨b, hb, rfl⟩, by simp⟩

theorem GetAvailableReviewSlots_free_witness :
    (GetReviewSlots (mkLib exMixedEvents) exEnvData exClient ⟨0⟩ ⟨1⟩).result
      = .ok ([projectSlot (mkLib exMixedEvents) (mkSlot "slot-1" "FREE_TIME"),
            projectSlot (mkLib exMixedEvents) (mkSlot "slot-2" "BOOKED_TIME"),
            projectSlot (mkLib exMixedEvents) (mkSlot "slot-3" "FREE_TIME")], []) ∧
    ∃ available,
      (GetAvailableReviewSlots (mkLib exMixedEvents) exEnvData exClient ⟨0⟩ ⟨1⟩).result
        = .ok available ∧
      available = [projectSlot (mkLib exMixedEvents) (mkSlot "slot-1" "FREE_TIME"),
        projectSlot (mkLib exMixedEvents) (mkSlot "slot-3" "FREE_TIME")] :=
  ⟨by decide,
    (GetAvailableReviewSlots_free (mkLib exMixedEvents) exEnvData exClient ⟨0⟩ ⟨1⟩
      [projectSlot (mkLib exMixedEvents) (mkSlot "slot-1" "FREE_TIME"),
        projectSlot (mkLib exMixedEvents) (mkSlot "slot-2" "BOOKED_TIME"),
        projectSlot (mkLib exMixedEvents) (mkSlot "slot-3" "FREE_TIME")] []
      (by decide)).imp fun _ h => ⟨h.1, h.2.1.trans (by decide)⟩⟩

theorem GetBookedReviews_dedup_witness :
    (GetReviewSlots (mkLib exRepeatedEvents) exEnvData exClient ⟨0⟩ ⟨1⟩).result
      = .ok ([], [exBooking1, exBooking1, exBooking2, exBooking2]) ∧
    (GetBookedReviews (mkLib exRepeatedEvents) exEnvData exClient ⟨0⟩ ⟨1⟩).result
      = .ok [exBooking1, exBooking2] ∧
    ∃ result,
      (GetBookedReviews (mkLib exRepeatedEvents) exEnvData exClient ⟨0⟩ ⟨1⟩).result
        = .ok result ∧
      result.Sublist [exBooking1, exBooking1, exBooking2, exBooking2] ∧
      (result.map fun b => b.ID).Nodup :=
  ⟨by decide, by decide,
    (GetBookedReviews_dedup (mkLib exRepeatedEvents) exEnvData exClient ⟨0⟩ ⟨1⟩ []
      [exBooking1, exBooking1, exBooking2, exBooking2] (by decide)).imp
      fun _ h => ⟨h.1, h.2.1, h.2.2.1⟩⟩

/-- C20, as stated, fails when an earlier id is repeated too: `booking-1` is in
the first and the second event, `booking-2` in the second and the third; the
first occurrence of `booking-2` has index 2 among the bookings of
`GetReviewSlots`, and its one entry has index 1 in the result of
`GetBookedReviews`. -/
theorem GetBookedReviews_index_shifts :
    (GetReviewSlots (mkLib exRepeatedEvents) exEnvData exClient ⟨0⟩ ⟨1⟩).result
      = .ok ([], [exBooking1, exBooking1, exBooking2, exBooking2]) ∧
    (GetBookedReviews (mkLib exRepeatedEvents) exEnvData exClient ⟨0⟩ ⟨1⟩).result
      = .ok [exBooking1, exBooking2] ∧
    firstIndex "booking-2" [exBooking1, exBooking1, exBooking2, exBooking2] = 2 ∧
    firstIndex "booking-2" [exBooking1, exBooking2] = 1 := by
  decide

/-- C20 (amended): when `GetReviewSlots` returns the bookings `bookings` and
the id `id` occurs among them (in one event or in several), `GetBookedReviews`
returns exactly one entry with that id, which is the first entry of `bookings`
with that id. Its index in the result is the number of distinct ids that occur
in `bookings` before the first occurrence of `id`: it is the index of that first
occurrence when no id is repeated before it, and it is never larger. -/
theorem GetBookedReviews_position (lib : Lib) (env : Env) (c : Client) (start stop : Time)
    (slots : List ReviewSlot) (bookings : List ReviewBooking) (id : String)
    (h : (GetReviewSlots lib env c start stop).result = .ok (slots, bookings))
    (hid : id ∈ bookings.map fun b => b.ID) :
    ∃ result, (GetBookedReviews lib env c start stop).result = .ok result ∧
      (result.map fun b => b.ID).count id = 1 ∧
      result.find? (fun b => b.ID == id) = bookings.find? (fun b => b.ID == id) ∧
      firstIndex id result
        = ((bookings.take (firstIndex id bookings)).map fun b => b.ID).dedup.length ∧
      (((bookings.take (firstIndex id bookings)).map fun b => b.ID).Nodup →
        firstIndex id result = firstIndex id bookings) ∧
      firstIndex id result ≤ firstIndex id bookings := by
  have hidx : firstIndex id (firstOccurrences [] bookings)
      = ((bookings.take (firstIndex id bookings)).map fun b => b.ID).dedup.length := by
    rw [firstOccurrences_index [] bookings id (by simp) hid, firstOccurrences_length]
  have hle : firstIndex id bookings ≤ bookings.length := List.findIdx_le_length _
  have hlen : ((bookings.take (firstIndex id bookings)).map fun b => b.ID).length
      = firstIndex id bookings := by
    rw [List.length_map, List.length_take]
    omega
  refine ⟨_, GetBookedReviews_ok lib env c start stop slots bookings h, ?_,
    firstOccurrences_find [] bookings id (by simp), hidx, ?_, ?_⟩
  · refine List.count_eq_one_of_mem (firstOccurrences_nodup [] bookings) ?_
    rw [firstOccurrences_ids]
    exact ⟨hid, by simp⟩
  · intro hnd
    rw [hidx, hnd.dedup, hlen]
  · rw [hidx]
    exact le_of_le_of_eq
      (List.dedup_sublist ((bookings.take (firstIndex id bookings)).map fun b => b.ID)).length_le
      hlen

theorem GetBookedReviews_position_witness :
    (GetReviewSlots (mkLib exRepeatedEvents) exEnvData exClient ⟨0⟩ ⟨1⟩).result
      = .ok ([], [exBooking1, exBooking1, exBooking2, exBooking2]) ∧
    "booking-2" ∈ [exBooking1, exBooking1, exBooking2, exBooking2].map (fun b => b.ID) ∧
    ∃ result,
      (GetBookedReviews (mkLib exRepeatedEvents) exEnvData exClient ⟨0⟩ ⟨1⟩).result
        = .ok result ∧
      (result.map fun b => b.ID).count "booking-2" = 1 ∧
      firstIndex "booking-2" result = 1 :=
  ⟨by decide, by decide,
    (GetBookedReviews_position (mkLib exRepeatedEvents) exEnvData exClient ⟨0⟩ ⟨1⟩ []
      [exBooking1, exBooking1, exBooking2, exBooking2] "booking-2" (by decide) (by decide)).imp
      fun _ h => ⟨h.1, h.2.1, h.2.2.2.1.trans (by decide)⟩⟩

/-! ## the mutations -/

/-- The result of `AddReviewSlot` when the mutation succeeds. -/
theorem AddReviewSlot_ok (lib : Lib) (env : Env) (c : Client) (start stop : Time)
    (data : AddEventToTimetableData)
    (h : (AddEventToTimetable lib env c (lib.Format start) (lib.Format stop)).result
      = .ok data) :
    (AddReviewSlot lib env c start stop).result
      = .ok (projectedSlots lib data.Student.AddEventToTimetable) := by
  unfold AddReviewSlot
  simp only [h, add_loop, List.nil_append]

/-- C21: when the add-event mutation echoes a list of events and the calendar
query returns the same list of events, `AddReviewSlot` returns exactly the
slots that `GetReviewSlots` returns: both are the same function of the event
list (the projected slots of the `student_check` events, in order). -/
theorem AddReviewSlot_same_as_query (lib : Lib) (env env' : Env) (c c' : Client)
    (start stop start' stop' : Time) (added : AddEventToTimetableData)
    (queried : GetMyCalendarEventsData)
    (hadd : (AddEventToTimetable lib env c (lib.Format start) (lib.Format stop)).result
      = .ok added)
    (hquery : (GetCalendarEvents lib env' c' (lib.Format start') (lib.Format stop')).result
      = .ok queried)
    (hsame : added.Student.AddEventToTimetable = queried.CalendarEventS21.GetMyCalendarEvents) :
    ∃ slots bookings, (AddReviewSlot lib env c start stop).result = .ok slots ∧
      (GetReviewSlots lib env' c' start' stop').result = .ok (slots, bookings) ∧
      slots = (added.Student.AddEventToTimetable.filter
          fun event => event.EventCode == "student_check").flatMap
        (fun event => event.EventSlots.map (projectSlot lib)) := by
  refine ⟨projectedSlots lib added.Student.AddEventToTimetable,
    projectedBookings lib added.Student.AddEventToTimetable,
    AddReviewSlot_ok lib env c start stop added hadd, ?_, rfl⟩
  rw [GetReviewSlots_ok lib env' c' start' stop' queried hquery, hsame]

theorem AddReviewSlot_same_as_query_witness :
    (AddEventToTimetable (mkLib exEvents) exEnvData exClient
      ((mkLib exEvents).Format ⟨0⟩) ((mkLib exEvents).Format ⟨1⟩)).result
      = .ok ⟨⟨exEvents, ""⟩⟩ ∧
    (GetCalendarEvents (mkLib exEvents) exEnvData exClient
      ((mkLib exEvents).Format ⟨5⟩) ((mkLib exEvents).Format ⟨6⟩)).result
      = .ok ⟨⟨exEvents, ""⟩⟩ ∧
    ∃ slots bookings,
      (AddReviewSlot (mkLib exEvents) exEnvData exClient ⟨0⟩ ⟨1⟩).result = .ok slots ∧
      (GetReviewSlots (mkLib exEvents) exEnvData exClient ⟨5⟩ ⟨6⟩).result
        = .ok (slots, bookings) ∧
      slots = [projectSlot (mkLib exEvents) (mkSlot "slot-1" "FREE_TIME")] :=
  ⟨by decide, by decide,
    (AddReviewSlot_same_as_query (mkLib exEvents) exEnvData exEnvData exClient exClient
      ⟨0⟩ ⟨1⟩ ⟨5⟩ ⟨6⟩ ⟨⟨exEvents, ""⟩⟩ ⟨⟨exEvents, ""⟩⟩ (by decide) (by decide) rfl).imp
      fun _ h => h.imp fun _ h => ⟨h.1, h.2.1, h.2.2.trans (by decide)⟩⟩

/-- The search loop of `UpdateReviewSlot` returns the projection of the first
slot whose id is the requested one, and the not-found error when there is none. -/
theorem scan_eq (lib : Lib) (slotID : String) (l : List CalendarTimeSlot) :
    UpdateReviewSlot.scan lib slotID l =
      match l.find? (fun s => s.ID == slotID) with
      | some s => .ok (projectSlot lib s)
      | none => .error .updatedSlotNotFound := by
  induction l with
  | nil => rfl
  | cons x xs ih =>
    unfold UpdateReviewSlot.scan
    by_cases hx : x.ID = slotID
    · simp only [hx, beq_self_eq_true, if_true, school_short_name, List.find?_cons, projectSlot]
    · have hb : (x.ID == slotID) = false := by simpa using hx
      simp only [hb, Bool.false_eq_true, if_false, List.find?_cons, ih]

theorem UpdateReviewSlot_result (lib : Lib) (env : Env) (c : Client) (slotID : String)
    (start stop : Time) (data : ChangeEventSlotData)
    (h : (ChangeEventSlot lib env c slotID (lib.Format start) (lib.Format stop)).result
      = .ok data) :
    (UpdateReviewSlot lib env c slotID start stop).result =
      match data.Student.ChangeEventSlot.EventSlots.find? (fun s => s.ID == slotID) with
      | some s => .ok (projectSlot lib s)
      | none => .error .updatedSlotNotFound := by
  unfold UpdateReviewSlot
  simp only [h, scan_eq]
  cases data.Student.ChangeEventSlot.EventSlots.find? (fun s => s.ID == slotID) <;> rfl

/-- C22: when the change mutation echoes an event, `UpdateReviewSlot` succeeds
if and only if the slots of that event contain one whose id is the requested
id; it then returns the projection of the first such slot, whose id is the
requested id; when every echoed slot has another id it returns no slot but the
error `updated slot not found in response`. -/
theorem UpdateReviewSlot_found_iff (lib : Lib) (env : Env) (c : Client) (slotID : String)
    (start stop : Time) (data : ChangeEventSlotData)
    (h : (ChangeEventSlot lib env c slotID (lib.Format start) (lib.Format stop)).result
      = .ok data) :
    ((∃ slot, (UpdateReviewSlot lib env c slotID start stop).result = .ok slot) ↔
      ∃ s ∈ data.Student.ChangeEventSlot.EventSlots, s.ID = slotID) ∧
    (∀ s, data.Student.ChangeEventSlot.EventSlots.find? (fun s => s.ID == slotID) = some s →
      (UpdateReviewSlot lib env c slotID start stop).result = .ok (projectSlot lib s) ∧
      (projectSlot lib s).ID = slotID) ∧
    ((∀ s ∈ data.Student.ChangeEventSlot.EventSlots, s.ID ≠ slotID) →
      (UpdateReviewSlot lib env c slotID start stop).result = .error .updatedSlotNotFound ∧
      Err.updatedSlotNotFound.Error = "updated slot not found in response") := by
  have hres := UpdateReviewSlot_result lib env c slotID start stop data h
  refine ⟨?_, ?_, ?_⟩
  · cases hf : data.Student.ChangeEventSlot.EventSlots.find? (fun s => s.ID == slotID) with
    | none =>
      rw [hres, hf]
      have hnone := List.find?_eq_none.mp hf
      constructor
      · rintro ⟨slot, hslot⟩
        cases hslot
      · rintro ⟨s, hs, hid⟩
        exact absurd (by simpa using hid) (hnone s hs)
    | some s =>
      rw [hres, hf]
      exact ⟨fun _ => ⟨s, List.mem_of_find?_eq_some hf, by simpa using List.find?_some hf⟩,
        fun _ => ⟨_, rfl⟩⟩
  · intro s hf
    rw [hres, hf]
    exact ⟨rfl, by simpa using List.find?_some hf⟩
  · intro hall
    have hf : data.Student.ChangeEventSlot.EventSlots.find? (fun s => s.ID == slotID) = none :=
      List.find?_eq_none.mpr fun s hs => by simpa using hall s hs
    rw [hres, hf]
    exact ⟨rfl, rfl⟩

theorem UpdateReviewSlot_found_iff_witness :
    (ChangeEventSlot (mkLib exEvents) exEnvData exClient "missing-id"
      ((mkLib exEvents).Format ⟨0⟩) ((mkLib exEvents).Format ⟨1⟩)).result
      = .ok ⟨⟨mkEvent "event-1" "student_check" [mkSlot "slot-1" "FREE_TIME"]
          [mkBooking "booking-1" "libft" "jdoe"], ""⟩⟩ ∧
    (UpdateReviewSlot (mkLib exEvents) exEnvData exClient "missing-id" ⟨0⟩ ⟨1⟩).result
      = .error .updatedSlotNotFound :=
  ⟨by decide,
    ((UpdateReviewSlot_found_iff (mkLib exEvents) exEnvData exClient "missing-id" ⟨0⟩ ⟨1⟩
      ⟨⟨mkEvent "event-1" "student_check" [mkSlot "slot-1" "FREE_TIME"]
          [mkBooking "booking-1" "libft" "jdoe"], ""⟩⟩ (by decide)).2.2 (by decide)).1⟩

/-- C23: `RemoveReviewSlot`, and `CancelReview` which only calls it, return
`nil` exactly when `Do` returns `nil` for the delete mutation, and otherwise the
error of `Do`; the boolean `deleteEventSlot` of the decoded payload is not
looked at: a payload holding `false` gives the same `nil` error as one holding
`true`. -/
theorem RemoveReviewSlot_ignores_payload (lib : Lib) (env : Env) (c : Client)
    (slotID : String) :
    (∀ data, (DeleteEventSlot lib env c slotID).result = .ok data →
      (RemoveReviewSlot lib env c slotID).result = .ok () ∧
      (CancelReview lib env c slotID).result = .ok ()) ∧
    (∀ err, (DeleteEventSlot lib env c slotID).result = .error err →
      (RemoveReviewSlot lib env c slotID).result = .error err ∧
      (CancelReview lib env c slotID).result = .error err) ∧
    ((RemoveReviewSlot lib env c slotID).result = .ok () ↔
      ∃ value, (Do env c
        { OperationName := "calendarDeleteEventSlot"
          Query := lib.MutationCalendarDeleteEventSlot
          Variables := [("eventSlotId", .str slotID)] }
        (some lib.unmarshalDeleteSlot)).result = .ok value) ∧
    (RemoveReviewSlot (mkDeleteLib false) exEnvData exClient "slot-1").result = .ok () ∧
    (RemoveReviewSlot (mkDeleteLib true) exEnvData exClient "slot-1").result = .ok () := by
  refine ⟨?_, ?_, ?_, by decide, by decide⟩
  · intro data h
    unfold CancelReview RemoveReviewSlot
    simp only [h, and_self]
  · intro err h
    unfold CancelReview RemoveReviewSlot
    simp only [h, and_self]
  · unfold RemoveReviewSlot DeleteEventSlot returnTarget
    cases hd : (Do env c
        { OperationName := "calendarDeleteEventSlot"
          Query := lib.MutationCalendarDeleteEventSlot
          Variables := [("eventSlotId", .str slotID)] }
        (some lib.unmarshalDeleteSlot)).result with
    | panic => simp [hd]
    | error err => simp [hd]
    | ok value => cases value <;> simp [hd]

theorem RemoveReviewSlot_ignores_payload_witness :
    (DeleteEventSlot (mkDeleteLib false) exEnvData exClient "slot-1").result
      = .ok ⟨⟨false, ""⟩⟩ ∧
    (RemoveReviewSlot (mkDeleteLib false) exEnvData exClient "slot-1").result = .ok () ∧
    (CancelReview (mkDeleteLib false) exEnvData exClient "slot-1").result = .ok () :=
  have h := (RemoveReviewSlot_ignores_payload (mkDeleteLib false) exEnvData exClient
    "slot-1").1 ⟨⟨false, ""⟩⟩ (by decide)
  ⟨by decide, h.1, h.2⟩

/-- C29: `UpdateReviewSlot` applies no event filter: whatever the event code of
the echoed event, the first slot whose id is the requested id is projected and
returned. When that event code is not `student_check`, the query path and the
add path ignore the same event: `GetReviewSlots` and `AddReviewSlot` return no
slot for a response made of that event alone. -/
theorem UpdateReviewSlot_no_event_filter (lib : Lib) (env : Env) (c : Client)
    (slotID : String) (start stop : Time) (data : ChangeEventSlotData) (s : CalendarTimeSlot)
    (h : (ChangeEventSlot lib env c slotID (lib.Format start) (lib.Format stop)).result
      = .ok data)
    (hfirst : data.Student.ChangeEventSlot.EventSlots.find? (fun s => s.ID == slotID) = some s) :
    (UpdateReviewSlot lib env c slotID start stop).result = .ok (projectSlot lib s) ∧
    (data.Student.ChangeEventSlot.EventCode ≠ "student_check" →
      (∀ (env' : Env) (c' : Client) (a b : Time) (queried : GetMyCalendarEventsData),
        (GetCalendarEvents lib env' c' (lib.Format a) (lib.Format b)).result = .ok queried →
        queried.CalendarEventS21.GetMyCalendarEvents = [data.Student.ChangeEventSlot] →
        (GetReviewSlots lib env' c' a b).result = .ok ([], [])) ∧
      (∀ (env' : Env) (c' : Client) (a b : Time) (added : AddEventToTimetableData),
        (AddEventToTimetable lib env' c' (lib.Format a) (lib.Format b)).result = .ok added →
        added.Student.AddEventToTimetable = [data.Student.ChangeEventSlot] →
        (AddReviewSlot lib env' c' a b).result = .ok [])) := by
  refine ⟨?_, fun hcode => ⟨?_, ?_⟩⟩
  · rw [UpdateReviewSlot_result lib env c slotID start stop data h, hfirst]
  · intro env' c' a b queried hq hev
    rw [GetReviewSlots_ok lib env' c' a b queried hq, hev]
    simp [projectedSlots, projectedBookings, isReviewEvent, hcode]
  · intro env' c' a b added hq hev
    rw [AddReviewSlot_ok lib env' c' a b added hq, hev]
    simp [projectedSlots, isReviewEvent, hcode]

theorem UpdateReviewSlot_no_event_filter_witness :
    (ChangeEventSlot (mkLib exExamEvents) exEnvData exClient "slot-1"
      ((mkLib exExamEvents).Format ⟨0⟩) ((mkLib exExamEvents).Format ⟨1⟩)).result
      = .ok ⟨⟨mkEvent "event-7" "exam" [mkSlot "slot-1" "FREE_TIME"] [], ""⟩⟩ ∧
    (UpdateReviewSlot (mkLib exExamEvents) exEnvData exClient "slot-1" ⟨0⟩ ⟨1⟩).result
      = .ok (projectSlot (mkLib exExamEvents) (mkSlot "slot-1" "FREE_TIME")) ∧
    (GetReviewSlots (mkLib exExamEvents) exEnvData exClient ⟨0⟩ ⟨1⟩).result = .ok ([], []) ∧
    (AddReviewSlot (mkLib exExamEvents) exEnvData exClient ⟨0⟩ ⟨1⟩).result = .ok [] :=
  have h := UpdateReviewSlot_no_event_filter (mkLib exExamEvents) exEnvData exClient "slot-1"
    ⟨0⟩ ⟨1⟩ ⟨⟨mkEvent "event-7" "exam" [mkSlot "slot-1" "FREE_TIME"] [], ""⟩⟩
    (mkSlot "slot-1" "FREE_TIME") (by decide) (by decide)
  ⟨by decide, h.1,
    (h.2 (by decide)).1 exEnvData exClient ⟨0⟩ ⟨1⟩ ⟨⟨exExamEvents, ""⟩⟩ (by decide) rfl,
    (h.2 (by decide)).2 exEnvData exClient ⟨0⟩ ⟨1⟩ ⟨⟨exExamEvents, ""⟩⟩ (by decide) rfl⟩

theorem timeParse_error (lib : Lib) (s : String) (h : ∃ err, lib.Parse s = .error err) :
    timeParse lib s = zeroTime := by
  obtain ⟨err, h⟩ := h
  simp [timeParse, h]

theorem length_flatMap_map {α β γ : Type} (f : α → List β) (g : β → γ) (l : List α) :
    (l.flatMap fun a => (f a).map g).length = (l.map fun a => (f a).length).sum := by
  induction l with
  | nil => rfl
  | cons a l ih => simp [List.flatMap_cons, ih]

theorem timeParse_ok (lib : Lib) (s : String) (t : Time) (h : lib.Parse s = .ok t) :
    timeParse lib s = t := by
  simp [timeParse, h]

/-- C30, as stated, fails for a string that is no RFC 3339 timestamp and that
`time.Parse` accepts all the same: an hour of one digit, and a comma before the
fraction of the second. For the review slot with the start `2025-12-20T4:00:00Z`
and the end `2025-12-20T14:00:00,5Z`, `GetReviewSlots` returns the slot with the
start 04:00:00 and the end 14:00:00.5 of 20 December 2025, neither of which is
the zero instant. -/
theorem lenient_timestamps_not_zero :
    isRFC3339 "2025-12-20T4:00:00Z" = false ∧
    isRFC3339 "2025-12-20T14:00:00,5Z" = false ∧
    isRFC3339 "2025-12-20T04:00:00Z" = true ∧
    ParseRFC3339 "2025-12-20T4:00:00Z"
      = .ok ⟨(daysFromCivil 2025 12 20 * 86400 + 4 * 3600) * Second⟩ ∧
    ParseRFC3339 "2025-12-20T14:00:00,5Z"
      = .ok ⟨(daysFromCivil 2025 12 20 * 86400 + 14 * 3600) * Second + 500000000⟩ ∧
    (GetReviewSlots (mkZoneLib 0 exLenientEvents) exEnvData exClient ⟨0⟩ ⟨1⟩).result
      = .ok ([⟨"slot-1", ⟨(daysFromCivil 2025 12 20 * 86400 + 4 * 3600) * Second⟩,
            ⟨(daysFromCivil 2025 12 20 * 86400 + 14 * 3600) * Second + 500000000⟩,
            "FREE_TIME", false, none, "21 Kazan"⟩], []) ∧
    (⟨(daysFromCivil 2025 12 20 * 86400 + 4 * 3600) * Second⟩ : Time) ≠ zeroTime ∧
    (⟨(daysFromCivil 2025 12 20 * 86400 + 14 * 3600) * Second + 500000000⟩ : Time)
      ≠ zeroTime :=
  ⟨by decide, by decide, by decide, rfl, rfl, by decide, by decide, by decide⟩

/-- C30 (amended): a timestamp string that `time.Parse` rejects does not make
the projection fail. When the calendar query (or the add mutation) succeeds,
`GetReviewSlots` (or `AddReviewSlot`) succeeds too, the numbers of slots and of
bookings are the numbers of event slots and of bookings of the review events,
whatever the timestamp strings, every such entry is returned, a start or end
that `time.Parse` rejects is the zero instant, and a start or end that it
accepts is the instant it yields. `UpdateReviewSlot` returns the slot it finds
likewise. -/
theorem malformed_timestamps_zero (lib : Lib) (env : Env) (c : Client) (slotID : String)
    (start stop : Time) :
    (∀ data, (GetCalendarEvents lib env c (lib.Format start) (lib.Format stop)).result
        = .ok data →
      ∃ slots bookings, (GetReviewSlots lib env c start stop).result = .ok (slots, bookings) ∧
        slots.length = ((data.CalendarEventS21.GetMyCalendarEvents.filter
          fun e => e.EventCode == "student_check").map fun e => e.EventSlots.length).sum ∧
        bookings.length = ((data.CalendarEventS21.GetMyCalendarEvents.filter
          fun e => e.EventCode == "student_check").map fun e => e.Bookings.length).sum ∧
        (∀ e ∈ data.CalendarEventS21.GetMyCalendarEvents, e.EventCode = "student_check" →
          (∀ s ∈ e.EventSlots, projectSlot lib s ∈ slots) ∧
          (∀ b ∈ e.Bookings, projectBooking lib b ∈ bookings))) ∧
    (∀ added, (AddEventToTimetable lib env c (lib.Format start) (lib.Format stop)).result
        = .ok added →
      ∃ slots, (AddReviewSlot lib env c start stop).result = .ok slots ∧
        slots.length = ((added.Student.AddEventToTimetable.filter
          fun e => e.EventCode == "student_check").map fun e => e.EventSlots.length).sum ∧
        (∀ e ∈ added.Student.AddEventToTimetable, e.EventCode = "student_check" →
          ∀ s ∈ e.EventSlots, projectSlot lib s ∈ slots)) ∧
    (∀ changed s,
      (ChangeEventSlot lib env c slotID (lib.Format start) (lib.Format stop)).result
        = .ok changed →
      changed.Student.ChangeEventSlot.EventSlots.find? (fun s => s.ID == slotID) = some s →
      (UpdateReviewSlot lib env c slotID start stop).result = .ok (projectSlot lib s)) ∧
    (∀ s : CalendarTimeSlot,
      ((∃ err, lib.Parse s.Start = .error err) → (projectSlot lib s).Start = zeroTime) ∧
      ((∃ err, lib.Parse s.End = .error err) → (projectSlot lib s).End = zeroTime) ∧
      (∀ t, lib.Parse s.Start = .ok t → (projectSlot lib s).Start = t) ∧
      (∀ t, lib.Parse s.End = .ok t → (projectSlot lib s).End = t)) ∧
    (∀ b : CalendarBooking,
      ((∃ err, lib.Parse b.EventSlot.Start = .error err) →
        (projectBooking lib b).Start = zeroTime) ∧
      ((∃ err, lib.Parse b.EventSlot.End = .error err) →
        (projectBooking lib b).End = zeroTime) ∧
      (∀ t, lib.Parse b.EventSlot.Start = .ok t → (projectBooking lib b).Start = t) ∧
      (∀ t, lib.Parse b.EventSlot.End = .ok t → (projectBooking lib b).End = t)) := by
  refine ⟨?_, ?_, ?_, ?_, ?_⟩
  · intro data h
    refine ⟨_, _, GetReviewSlots_ok lib env c start stop data h, ?_, ?_, ?_⟩
    · exact length_flatMap_map _ _ _
    · exact length_flatMap_map _ _ _
    · intro e he hcode
      constructor
      · intro s hs
        simp only [projectedSlots, List.mem_flatMap, List.mem_map, List.mem_filter]
        exact ⟨e, ⟨he, by simp [isReviewEvent, hcode]⟩, s, hs, rfl⟩
      · intro b hb
        simp only [projectedBookings, List.mem_flatMap, List.mem_map, List.mem_filter]
        exact ⟨e, ⟨he, by simp [isReviewEvent, hcode]⟩, b, hb, rfl⟩
  · intro added h
    refine ⟨_, AddReviewSlot_ok lib env c start stop added h, ?_, ?_⟩
    · exact length_flatMap_map _ _ _
    · intro e he hcode s hs
      simp only [projectedSlots, List.mem_flatMap, List.mem_map, List.mem_filter]
      exact ⟨e, ⟨he, by simp [isReviewEvent, hcode]⟩, s, hs, rfl⟩
  · intro changed s h hf
    rw [UpdateReviewSlot_result lib env c slotID start stop changed h, hf]
  · intro s
    exact ⟨timeParse_error lib s.Start, timeParse_error lib s.End,
      timeParse_ok lib s.Start, timeParse_ok lib s.End⟩
  · intro b
    exact ⟨timeParse_error lib b.EventSlot.Start, timeParse_error lib b.EventSlot.End,
      timeParse_ok lib b.EventSlot.Start, timeParse_ok lib b.EventSlot.End⟩

theorem malformed_timestamps_zero_witness :
    (GetCalendarEvents (mkLib exMalformedEvents) exEnvData exClient
      ((mkLib exMalformedEvents).Format ⟨0⟩) ((mkLib exMalformedEvents).Format ⟨1⟩)).result
      = .ok ⟨⟨exMalformedEvents, ""⟩⟩ ∧
    (mkLib exMalformedEvents).Parse "yesterday" = .error "cannot parse" ∧
    (GetReviewSlots (mkLib exMalformedEvents) exEnvData exClient ⟨0⟩ ⟨1⟩).result
      = .ok ([⟨"slot-1", zeroTime, ⟨2800⟩, "FREE_TIME", false, none, "21 Kazan"⟩],
          [⟨"booking-1", "slot-9", ⟨1000⟩, zeroTime, "libft", "jdoe", true, "BOOKED"⟩]) ∧
    ∃ slots bookings,
      (GetReviewSlots (mkLib exMalformedEvents) exEnvData exClient ⟨0⟩ ⟨1⟩).result
        = .ok (slots, bookings) ∧ slots.length = 1 ∧ bookings.length = 1 :=
  ⟨by decide, rfl, by decide,
    ((malformed_timestamps_zero (mkLib exMalformedEvents) exEnvData exClient "slot-1" ⟨0⟩
      ⟨1⟩).1 ⟨⟨exMalformedEvents, ""⟩⟩ (by decide)).imp fun _ h => h.imp fun _ h =>
        ⟨h.1, h.2.1.trans (by decide), h.2.2.1.trans (by decide)⟩⟩

/-! ## token state -/

/-- C27: `Authenticate` is atomic on the token state. When it returns an error,
whichever it is, the client is exactly what it was before the call. When it
returns a payload, the stored token is that payload and the stored expiry is
computed from the same payload, nothing else being changed. So after the call
the stored token and expiry are either both the old ones or both those of this
round; `SetToken` stores the token and the expiry it is given together. -/
theorem Authenticate_atomic (env : Env) (c : Client) :
    (∀ err, (Authenticate env c).result = .error err → (Authenticate env c).client = c) ∧
    (∀ p, (Authenticate env c).result = .ok p →
      (Authenticate env c).client =
        { c with
          token := some p
          tokenExpiry := env.now.Add (wrapInt64 (p.ExpiresIn * Second)) }) ∧
    (((Authenticate env c).client.token = c.token ∧
        (Authenticate env c).client.tokenExpiry = c.tokenExpiry) ∨
      ∃ p, (Authenticate env c).result = .ok p ∧ (Authenticate env c).client.token = some p ∧
        (Authenticate env c).client.tokenExpiry
          = env.now.Add (wrapInt64 (p.ExpiresIn * Second))) ∧
    (∀ token expiry, (SetToken c token expiry).token = token ∧
      (SetToken c token expiry).tokenExpiry = expiry ∧
      SetToken c token expiry = { c with token := token, tokenExpiry := expiry }) := by
  refine ⟨?_, ?_, ?_, fun token expiry => ⟨rfl, rfl, rfl⟩⟩
  · intro err h
    rcases Authenticate_cases env c with ⟨-, e⟩ | ⟨_, e⟩ | ⟨_, _, -, e⟩ | ⟨_, _, -, -, e⟩ |
      ⟨_, _, _, -, -, -, e⟩ | ⟨_, _, _, -, -, -, e⟩ <;> rw [e] at h ⊢
    simp at h
  · intro p h
    rcases Authenticate_cases env c with ⟨-, e⟩ | ⟨_, e⟩ | ⟨_, _, -, e⟩ | ⟨_, _, -, -, e⟩ |
      ⟨_, _, _, -, -, -, e⟩ | ⟨_, _, q, -, -, -, e⟩ <;> rw [e] at h ⊢
    · simp at h
    · simp at h
    · simp at h
    · simp at h
    · simp at h
    · cases h
      rfl
  · rcases Authenticate_cases env c with ⟨-, e⟩ | ⟨_, e⟩ | ⟨_, _, -, e⟩ | ⟨_, _, -, -, e⟩ |
      ⟨_, _, _, -, -, -, e⟩ | ⟨_, _, q, -, -, -, e⟩ <;> rw [e]
    · exact Or.inl ⟨rfl, rfl⟩
    · exact Or.inl ⟨rfl, rfl⟩
    · exact Or.inl ⟨rfl, rfl⟩
    · exact Or.inl ⟨rfl, rfl⟩
    · exact Or.inl ⟨rfl, rfl⟩
    · exact Or.inr ⟨q, rfl, rfl, rfl⟩

theorem Authenticate_atomic_witness :
    (Authenticate (exEnv401 "denied") exExpiredClient).result
      = .error (.authFailed 401 "denied") ∧
    (Authenticate (exEnv401 "denied") exExpiredClient).client = exExpiredClient ∧
    (Authenticate (exEnv401 "denied") exExpiredClient).client.token
      = some (mkToken "old" 3600) ∧
    (Authenticate (exEnv401 "denied") exExpiredClient).client.tokenExpiry
      = ⟨-3600000000000⟩ :=
  have h := (Authenticate_atomic (exEnv401 "denied") exExpiredClient).1
    (.authFailed 401 "denied") rfl
  ⟨rfl, h, by rw [h]; rfl, by rw [h]; rfl⟩

/-- C28: `Do` never dereferences an unset token: it never ends in a nil-pointer
panic. Whenever the token check returns `nil`, which every path to the
construction of the `Authorization` header requires, a token is stored: the one
the client already held, no call of `Authenticate` having been made, or the
payload that `Authenticate` has just returned and stored. -/
theorem Do_never_panics {α : Type} (env : Env) (c : Client) (req : GraphQLRequest)
    (target : Option (String → Except String α)) :
    (Do env c req target).result ≠ .panic ∧
    (∀ r, Event.graphqlDo r ∈ (Do env c req target).trace →
      ∃ t, (ensureToken env c).client.token = some t ∧
        r.GetHeader "Authorization" = some ("Bearer " ++ t.AccessToken)) ∧
    ((ensureToken env c).result = none →
      ∃ t, (ensureToken env c).client.token = some t ∧
        ((c.token = some t ∧ authCalls (ensureToken env c).trace = 0) ∨
          (Authenticate env c).result = .ok t)) := by
  refine ⟨?_, ?_, ?_⟩
  · rcases Do_cases env c req target with ⟨res, e, h⟩ | ⟨r, res, e, -, h⟩
    · rw [e]
      rcases h with ⟨err, -, h⟩ | ⟨x, h⟩ | ⟨x, h⟩ <;> rw [h] <;> simp
    · rw [e]
      rcases h with ⟨x, -, h⟩ | ⟨q, -, -, h⟩ | ⟨q, x, -, -, -, h⟩ | ⟨q, g, -, -, -, -, h⟩ |
        ⟨q, g, -, -, -, -, -, h⟩ | ⟨q, g, u, x, -, -, -, -, -, -, h⟩ |
        ⟨q, g, u, v, -, -, -, -, -, -, h⟩ <;> rw [h] <;> simp
  · intro r hsent
    obtain ⟨body, tok, -, -, htok, -, -, hr⟩ := Do_sent_request env c req target r hsent
    refine ⟨tok, htok, ?_⟩
    subst hr
    simp [HTTPRequest.GetHeader]
  · intro hok
    obtain ⟨t, ht⟩ := ensureToken_ok_token env c hok
    refine ⟨t, ht, ?_⟩
    by_cases hr : c.token = none ∨ c.tokenExpiry.ns < env.untilNow.ns + Minute
    · right
      rw [ensureToken_refresh env c hr] at hok ht
      rcases Authenticate_cases env c with ⟨-, e⟩ | ⟨_, e⟩ | ⟨_, _, -, e⟩ | ⟨_, _, -, -, e⟩ |
        ⟨_, _, _, -, -, -, e⟩ | ⟨_, _, q, -, -, -, e⟩ <;> rw [e] at hok ht ⊢
      · simp at hok
      · simp at hok
      · simp at hok
      · simp at hok
      · simp at hok
      · simp only [Option.some.injEq] at ht
        rw [ht]
    · left
      rw [ensureToken_keep env c hr] at ht ⊢
      exact ⟨ht, rfl⟩

theorem Do_never_panics_witness :
    (ensureToken exEnvData (mkClient none 0)).result = none ∧
    (Do exEnvData (mkClient none 0) exOperation exTarget).result = .ok (some 0) ∧
    ∃ t, (ensureToken exEnvData (mkClient none 0)).client.token = some t :=
  ⟨by decide, by decide,
    ((Do_never_panics exEnvData (mkClient none 0) exOperation exTarget).2.2 (by decide)).imp
      fun _ h => h.1⟩


/-! ## the wire format, the form body and the CLI -/

/-- C24 fails for an instant held in a location other than UTC. The layout ends
in a literal `Z`, so `Format` prints the wall clock of the location and marks it
as UTC. The instant 11:00:00.123456789 UTC of 15 January 2025, held in a
location three hours east of UTC, is sent by `GetReviewSlots` as
`2025-01-15T14:00:00.123Z` and parses back as an instant three hours later; the
same instant held in UTC is sent as `2025-01-15T11:00:00.123Z` and parses back
as itself cut to the millisecond. -/
theorem wire_format_shifts_local_time :
    FormatMilli 10800 exInstant = "2025-01-15T14:00:00.123Z" ∧
    ParseRFC3339 (FormatMilli 10800 exInstant)
      = .ok ⟨exInstant.ns - 456789 + 10800 * Second⟩ ∧
    FormatMilli 0 exInstant = "2025-01-15T11:00:00.123Z" ∧
    ParseRFC3339 (FormatMilli 0 exInstant) = .ok ⟨exInstant.ns - 456789⟩ ∧
    (GetReviewSlots (mkZoneLib 10800 []) exEnvVars exClient exInstant exInstant).trace
      = [.graphqlDo (exVarsCall
          "calendarGetEvents from=2025-01-15T14:00:00.123Z to=2025-01-15T14:00:00.123Z")] :=
  ⟨by decide, rfl, by decide, rfl, by decide⟩

/-- The escapes of a percent-encoded text are bytes: the two escaped bytes of
`caf%C3%A9` are the UTF-8 encoding of the last letter of `café`. -/
theorem QueryUnescape_bytes :
    QueryUnescape (bytesOf "caf%C3%A9") = some (bytesOf "café") ∧
    QueryUnescape (bytesOf "a+b%2Bc") = some (bytesOf "a b+c") ∧
    QueryUnescape (bytesOf "50%") = none := by
  decide

/-- C25 fails for a password that holds `&`, `=` or `+`: `Authenticate` writes
the login and the password into the body as they are, without escaping them. For
the password `p&ss=w+rd` the body, sent with the content type
`application/x-www-form-urlencoded`, decodes without error to five pairs, among
them the password `p` and a key `ss`; for the password `testpass` it decodes to
the four pairs of the claim. -/
theorem Authenticate_body_not_escaped :
    (Authenticate exEnvDown exSymbolsClient).trace
      = [.authenticate, .authDo
          { exAuthCall with
            Body := "client_id=s21-open-api&username=test@example.com&password=p&ss=w+rd"
              ++ "&grant_type=password" }] ∧
    ParseQuery ("client_id=s21-open-api&username=test@example.com&password=p&ss=w+rd"
        ++ "&grant_type=password")
      = [(bytesOf "client_id", bytesOf "s21-open-api"),
          (bytesOf "username", bytesOf "test@example.com"), (bytesOf "password", bytesOf "p"),
          (bytesOf "ss", bytesOf "w rd"), (bytesOf "grant_type", bytesOf "password")] ∧
    ParseQuery.fails ("client_id=s21-open-api&username=test@example.com&password=p&ss=w+rd"
        ++ "&grant_type=password") = false ∧
    (Authenticate exEnvDown (mkClient none 0)).trace = [.authenticate, .authDo exAuthCall] ∧
    ParseQuery exAuthCall.Body
      = [(bytesOf "client_id", bytesOf "s21-open-api"),
          (bytesOf "username", bytesOf "test@example.com"),
          (bytesOf "password", bytesOf "testpass"), (bytesOf "grant_type", bytesOf "password")] := by
  decide

/-- C26 fails when the end time equals the start time: the test of both
commands is `end.Before(start)`, which is false for equal times, so the mutation
is sent although the message of the test says that the end time must be after
the start time. With start and end both `2025-01-15 14:00` the add command and
the update command each send their mutation and return; with the end half an
hour before the start both stop before any request. -/
theorem review_slot_commands_accept_equal_times :
    (addReviewSlotCmd exParse (mkZoneLib 0 exEvents) exEnvVars exClient
        ["client", "review-slots", "add", "2025-01-15 14:00", "2025-01-15 14:00"]).trace
      = [.graphqlDo (exVarsCall
          "calendarAddEvent start=2025-01-15T14:00:00.000Z end=2025-01-15T14:00:00.000Z")] ∧
    (addReviewSlotCmd exParse (mkZoneLib 0 exEvents) exEnvVars exClient
        ["client", "review-slots", "add", "2025-01-15 14:00", "2025-01-15 14:00"]).result
      = .done ∧
    (updateReviewSlotCmd exParse (mkZoneLib 0 exEvents) exEnvVars exClient
        ["client", "review-slots", "update", "slot-1", "2025-01-15 14:00",
          "2025-01-15 14:00"]).trace
      = [.graphqlDo (exVarsCall ("calendarChangeEventSlot id=slot-1 "
          ++ "start=2025-01-15T14:00:00.000Z end=2025-01-15T14:00:00.000Z"))] ∧
    (updateReviewSlotCmd exParse (mkZoneLib 0 exEvents) exEnvVars exClient
        ["client", "review-slots", "update", "slot-1", "2025-01-15 14:00",
          "2025-01-15 14:00"]).result
      = .done ∧
    (addReviewSlotCmd exParse (mkZoneLib 0 exEvents) exEnvVars exClient
        ["client", "review-slots", "add", "2025-01-15 14:30", "2025-01-15 14:00"]).trace = [] ∧
    (addReviewSlotCmd exParse (mkZoneLib 0 exEvents) exEnvVars exClient
        ["client", "review-slots", "add", "2025-01-15 14:30", "2025-01-15 14:00"]).result
      = .fatal "Error: end time must be after start time" ∧
    (updateReviewSlotCmd exParse (mkZoneLib 0 exEvents) exEnvVars exClient
        ["client", "review-slots", "update", "slot-1", "2025-01-15 14:30",
          "2025-01-15 14:00"]).trace = [] ∧
    (updateReviewSlotCmd exParse (mkZoneLib 0 exEvents) exEnvVars exClient
        ["client", "review-slots", "update", "slot-1", "2025-01-15 14:30",
          "2025-01-15 14:00"]).result
      = .fatal "Error: end time must be after start time" := by
  decide

end S21Client
